import Mathlib

/-!
# TimeField: interval parser and formatter

A shallow embedding of `parseInterval`, `parseDateTime`, `buildIntervalString`,
`getDateTimeString` and `getTimeString` from `timefield-cmd.cpp`, together with the
parts of the C++ standard library and of Boost.Date_Time / Boost.Lexical_Cast /
Boost.String_Algo these functions call.

Conventions of the embedding.

* A `std::string` is a `List Char` (`Str`), one `Char` per `char`.  Strings are
  shorter than `2^31` characters, so storing the `size_t` result of `find` in an
  `int` (as the source does) is exact, `npos` becoming `-1`.
* A thrown C++ exception is an `Except.error`; the value says which class was thrown.
* `boost::posix_time::ptime` is the 64-bit tick count of Boost's default
  (microsecond) time system, kept as an `Int`; the three special values
  `not_a_date_time`, `pos_infin`, `neg_infin` are the reserved counts
  `2^63-2`, `2^63-1`, `-2^63`.  Comparison of two `ptime`s compares the raw counts.
* `boost::gregorian::date` is its 32-bit unsigned day number (the Julian day number).
* The real-world clock (`day_clock::local_day()`, `second_clock::local_time()`) and
  the string table loaded from `strings.xml` are parameters.
-/

namespace TimeField

/-- A `std::string`. -/
abbrev Str := List Char

/-- The exception classes that the embedded code can throw. -/
inductive Exn where
  | InvalidIntervalException
  | bad_lexical_cast
  | bad_year
  | bad_month
  | bad_day_of_month
  | std_exception
  deriving DecidableEq, Repr

instance instDecidableEqExcept {ε α : Type} [DecidableEq ε] [DecidableEq α] :
    DecidableEq (Except ε α) := fun x y =>
  match x, y with
  | .ok a, .ok b =>
    if h : a = b then isTrue (by rw [h]) else isFalse (fun h2 => h (Except.ok.inj h2))
  | .error a, .error b =>
    if h : a = b then isTrue (by rw [h]) else isFalse (fun h2 => h (Except.error.inj h2))
  | .ok _, .error _ => isFalse (fun h => by cases h)
  | .error _, .ok _ => isFalse (fun h => by cases h)

/-! ## Strings -/

/-- `std::isspace` in the classic locale, the classifier used by `boost::algorithm::trim`. -/
def isspace (c : Char) : Bool :=
  c = ' ' ∨ c = '\t' ∨ c = '\n' ∨ c = '\x0b' ∨ c = '\x0c' ∨ c = '\r'

/-- `boost::algorithm::trim_left`. -/
def trim_left (s : Str) : Str := s.dropWhile isspace

/-- `boost::algorithm::trim_right`. -/
def trim_right (s : Str) : Str := (s.reverse.dropWhile isspace).reverse

/-- `boost::algorithm::trim`: remove the white space at both ends. -/
def trim (s : Str) : Str := trim_left (trim_right s)

/-- Index of the first occurrence of `c` in `s`, if any. -/
def indexOfChar (c : Char) : Str → Option Nat
  | [] => none
  | x :: xs => if x = c then some 0 else (indexOfChar c xs).map (· + 1)

/-- `int p = s.find(c, pos)`: the position of the first `c` at or after `pos`, and `-1`
(the `int` value of `npos`) when there is none.  `pos` is never negative at a call site. -/
def find (s : Str) (c : Char) (pos : Int) : Int :=
  match indexOfChar c (s.drop pos.toNat) with
  | some i => pos.toNat + i
  | none => -1

/-- `s.substr(pos)` for an `int` position `0 ≤ pos ≤ s.size()` (always so at a call site). -/
def substrFrom (s : Str) (pos : Int) : Str := s.drop pos.toNat

/-- `s.substr(pos, count)` with `int` arguments.  A negative `count` converts to a huge
`size_t`, so the rest of the string is taken; `0 ≤ pos ≤ s.size()` at every call site. -/
def substr (s : Str) (pos : Int) (count : Int) : Str :=
  if count < 0 then s.drop pos.toNat else (s.drop pos.toNat).take count.toNat

/-- `s.find(pat) != npos` for a string pattern: `pat` occurs in `s`. -/
def containsStr : Str → Str → Bool
  | [], pat => pat.isEmpty
  | c :: cs, pat => pat.isPrefixOf (c :: cs) || containsStr cs pat

/-- The characters `'0'..'9'`. -/
def isdigit (c : Char) : Bool := 48 ≤ c.toNat ∧ c.toNat ≤ 57

/-- Value of a string of decimal digits, most significant first. -/
def decimalValue (s : Str) : Nat := s.foldl (fun acc c => 10 * acc + (c.toNat - 48)) 0

/-- `boost::lexical_cast<int>(s)`: an optional sign followed by one or more decimal
digits and nothing else, the value fitting a 32-bit `int`; otherwise `bad_lexical_cast`. -/
def lexical_cast_int (s : Str) : Except Exn Int :=
  let neg : Bool := s.head? = some '-'
  let ds : Str := if s.head? = some '-' ∨ s.head? = some '+' then s.tail else s
  if ds = [] ∨ ds.all isdigit = false then .error .bad_lexical_cast
  else if neg then
    (if decimalValue ds ≤ 2147483648 then .ok (-(decimalValue ds : Int))
     else .error .bad_lexical_cast)
  else
    (if decimalValue ds ≤ 2147483647 then .ok (decimalValue ds : Int)
     else .error .bad_lexical_cast)

/-- The decimal digit character of `d < 10`. -/
def digitChar (d : Nat) : Char := Char.ofNat (48 + d)

/-- Decimal digits of `n`, most significant first, prepended to `acc`. -/
def natDigits : Nat → Nat → Str → Str
  | 0, _, acc => acc
  | fuel + 1, n, acc =>
    if n / 10 = 0 then digitChar (n % 10) :: acc
    else natDigits fuel (n / 10) (digitChar (n % 10) :: acc)

/-- `os << n` for an unsigned integer: decimal digits without padding. -/
def showNat (n : Nat) : Str := natDigits (n + 1) n []

/-- `os << x` for a signed integer. -/
def showInt (x : Int) : Str :=
  if x < 0 then '-' :: showNat x.natAbs else showNat x.natAbs

/-- Output of a field under `std::setw(w)` and `std::setfill(fill)` with the default
right adjustment: fill characters are put in front up to width `w`. -/
def padLeft (w : Nat) (fill : Char) (s : Str) : Str :=
  List.replicate (w - s.length) fill ++ s

/-! ## Boost.Date_Time: the Gregorian calendar -/

/-- The modulus of 32-bit unsigned arithmetic (`date_int_type` is `uint32_t`). -/
def W32 : Nat := 4294967296

/-- Conversion of an `int` to `unsigned short`, as happens when an `int` is passed where a
`greg_year`, `greg_month` or `greg_day` (all with `value_type = unsigned short`) is expected. -/
def toUShort (x : Int) : Nat := (x % 65536).toNat

/-- A `year_month_day` triple whose components passed the range checks of `greg_year`
(1400..9999), `greg_month` (1..12) and `greg_day` (1..31). -/
structure ymd_type where
  year : Nat
  month : Nat
  day : Nat
  deriving DecidableEq, Repr

/-- `gregorian_calendar::is_leap_year`. -/
def is_leap_year (year : Nat) : Bool :=
  year % 4 = 0 ∧ (year % 100 ≠ 0 ∨ year % 400 = 0)

/-- `gregorian_calendar::end_of_month_day`. -/
def end_of_month_day (year month : Nat) : Nat :=
  if month = 2 then (if is_leap_year year then 29 else 28)
  else if month = 4 ∨ month = 6 ∨ month = 9 ∨ month = 11 then 30
  else 31

/-- `gregorian_calendar::day_number`: the Julian day number of a date.  On checked
components none of the intermediate `unsigned short` values wraps. -/
def day_number (ymd : ymd_type) : Nat :=
  let a := (14 - ymd.month) / 12
  let y := ymd.year + 4800 - a
  let m := ymd.month + 12 * a - 3
  ymd.day + (153 * m + 2) / 5 + 365 * y + y / 4 - y / 100 + y / 400 - 32045

/-- `gregorian_calendar::from_day_number`, in 32-bit unsigned arithmetic; the three
components are cast to `unsigned short` and then range-checked by the constructors
of `greg_year`, `greg_month` and `greg_day`. -/
def from_day_number (dayNumber : Nat) : Except Exn ymd_type :=
  let a := (dayNumber + 32044) % W32
  let b := ((4 * a + 3) % W32) / 146097
  let c := (a + W32 - ((146097 * b) % W32) / 4) % W32
  let d := ((4 * c + 3) % W32) / 1461
  let e := (c + W32 - ((1461 * d) % W32) / 4) % W32
  let m := ((5 * e + 2) % W32) / 153
  let day := ((e + W32 - ((153 * m + 2) % W32) / 5 + 1) % W32) % 65536
  let month := ((m + 3 + W32 - (12 * (m / 10)) % W32) % W32) % 65536
  let year := ((100 * b + d + W32 - 4800 + m / 10) % W32) % 65536
  if ¬ (1400 ≤ year ∧ year ≤ 9999) then .error .bad_year
  else if ¬ (1 ≤ month ∧ month ≤ 12) then .error .bad_month
  else if ¬ (1 ≤ day ∧ day ≤ 31) then .error .bad_day_of_month
  else .ok ⟨year, month, day⟩

/-- `gregorian_calendar::day_of_week`: 0 = Sunday, ..., 6 = Saturday. -/
def day_of_week (ymd : ymd_type) : Nat :=
  let a := (14 - ymd.month) / 12
  let y := ymd.year - a
  let m := ymd.month + 12 * a - 2
  (ymd.day + y + y / 4 - y / 100 + y / 400 + (31 * m) / 12) % 7

/-- A `boost::gregorian::date`: the 32-bit day number.  The counts `0`, `2^32-1` and
`2^32-2` are the special values `neg_infin`, `pos_infin` and `not_a_date_time`. -/
structure date where
  days_ : Nat
  deriving DecidableEq, Repr

/-- `date::is_special` (infinity or not-a-date). -/
def date.is_special (d : date) : Bool :=
  d.days_ = 0 ∨ d.days_ = 4294967295 ∨ d.days_ = 4294967294

/-- The constructor `date(year, month, day)` called with three `int`s: each is converted
to `unsigned short` and range-checked, then the day is checked against the month length. -/
def date.of_ints (year month day : Int) : Except Exn date :=
  let y := toUShort year
  let m := toUShort month
  let d := toUShort day
  if ¬ (1400 ≤ y ∧ y ≤ 9999) then .error .bad_year
  else if ¬ (1 ≤ m ∧ m ≤ 12) then .error .bad_month
  else if ¬ (1 ≤ d ∧ d ≤ 31) then .error .bad_day_of_month
  else if end_of_month_day y m < d then .error .bad_day_of_month
  else .ok ⟨day_number ⟨y, m, d⟩⟩

/-- `date::year_month_day`. -/
def date.year_month_day (d : date) : Except Exn ymd_type := from_day_number d.days_

/-- `date::year`. -/
def date.year (d : date) : Except Exn Nat := do
  let ymd ← d.year_month_day
  pure ymd.year

/-- `date::month`. -/
def date.month (d : date) : Except Exn Nat := do
  let ymd ← d.year_month_day
  pure ymd.month

/-- `date::day`. -/
def date.day (d : date) : Except Exn Nat := do
  let ymd ← d.year_month_day
  pure ymd.day

/-- `date::day_of_week`. -/
def date.day_of_week (d : date) : Except Exn Nat := do
  let ymd ← d.year_month_day
  pure (TimeField.day_of_week ymd)

/-- `date + days(k)` and (with negative `k`) `date - days(-k)`: 32-bit unsigned
arithmetic on the day number, special values being absorbing. -/
def date.add_days (d : date) (k : Int) : date :=
  if d.is_special then d else ⟨(((d.days_ : Int) + k) % 4294967296).toNat⟩

/-! ## Boost.Date_Time: durations and time points -/

/-- Ticks (microseconds) per day. -/
def frac_sec_per_day : Int := 86400000000

/-- A `boost::posix_time::time_duration`: a signed count of microseconds. -/
structure time_duration where
  ticks : Int
  deriving DecidableEq, Repr

/-- `time_duration(hours, minutes, seconds)`: if any component is negative the absolute
values are combined and the result is negated. -/
def time_duration.of_hms (h m s : Int) : time_duration :=
  if h < 0 ∨ m < 0 ∨ s < 0 then
    ⟨-((((h.natAbs : Int) * 3600 + (m.natAbs : Int) * 60 + (s.natAbs : Int)) * 1000000))⟩
  else ⟨(h * 3600 + m * 60 + s) * 1000000⟩

/-- `boost::posix_time::hours(n)`. -/
def hours (n : Int) : time_duration := time_duration.of_hms n 0 0

/-- `time_duration::hours`. -/
def time_duration.hours (td : time_duration) : Int := Int.tdiv td.ticks 3600000000

/-- `time_duration::minutes`. -/
def time_duration.minutes (td : time_duration) : Int :=
  Int.tmod (Int.tdiv td.ticks 60000000) 60

/-- A `boost::posix_time::ptime`: the 64-bit tick count. -/
structure ptime where
  time_count : Int
  deriving DecidableEq, Repr

instance : LT ptime := ⟨fun a b => a.time_count < b.time_count⟩
instance : LE ptime := ⟨fun a b => a.time_count ≤ b.time_count⟩
instance (a b : ptime) : Decidable (a < b) := inferInstanceAs (Decidable (a.time_count < b.time_count))
instance (a b : ptime) : Decidable (a ≤ b) := inferInstanceAs (Decidable (a.time_count ≤ b.time_count))

/-- The special value `not_a_date_time`; also the value of a default-constructed `ptime`. -/
def not_a_date_time : ptime := ⟨9223372036854775806⟩

/-- The special value `pos_infin`. -/
def pos_infin : ptime := ⟨9223372036854775807⟩

/-- The special value `neg_infin`. -/
def neg_infin : ptime := ⟨-9223372036854775808⟩

/-- `ptime::is_special`. -/
def ptime.is_special (t : ptime) : Bool :=
  t = not_a_date_time ∨ t = pos_infin ∨ t = neg_infin

/-- The constructor `ptime(date, time_duration)`. -/
def ptime.of_date_time (d : date) (td : time_duration) : ptime :=
  if d.days_ = 4294967294 then not_a_date_time
  else if d.days_ = 4294967295 then pos_infin
  else if d.days_ = 0 then neg_infin
  else ⟨(d.days_ : Int) * frac_sec_per_day + td.ticks⟩

/-- The constructor `ptime(date)`: midnight of that date. -/
def ptime.of_date (d : date) : ptime := ptime.of_date_time d (time_duration.of_hms 0 0 0)

/-- `ptime + time_duration`. -/
def ptime.add (t : ptime) (td : time_duration) : ptime :=
  if t.is_special then t else ⟨t.time_count + td.ticks⟩

/-- `ptime - time_duration`. -/
def ptime.sub (t : ptime) (td : time_duration) : ptime :=
  if t.is_special then t else ⟨t.time_count - td.ticks⟩

/-- `ptime(min_date_time)`: 1 January 1400, 00:00. -/
def min_date_time : ptime := ptime.of_date_time ⟨day_number ⟨1400, 1, 1⟩⟩ (time_duration.of_hms 0 0 0)

/-- `ptime(max_date_time)`: 31 December 9999, one tick before midnight. -/
def max_date_time : ptime :=
  ptime.of_date_time ⟨day_number ⟨9999, 12, 31⟩⟩ ⟨(time_duration.of_hms 24 0 0).ticks - 1⟩

/-- `ptime::date`: the day count is the tick count divided by the ticks per day, cast to
`uint32_t` and converted to a calendar date (which range-checks the year). -/
def ptime.date (t : ptime) : Except Exn date :=
  if t = not_a_date_time then .ok ⟨4294967294⟩
  else if t = pos_infin then .ok ⟨4294967295⟩
  else if t = neg_infin then .ok ⟨0⟩
  else do
    let ymd ← from_day_number ((Int.tdiv t.time_count frac_sec_per_day) % 4294967296).toNat
    pure ⟨day_number ymd⟩

/-- `ptime::time_of_day`. -/
def ptime.time_of_day (t : ptime) : time_duration :=
  if t.is_special then ⟨t.time_count⟩ else ⟨Int.tmod t.time_count frac_sec_per_day⟩

/-- The smallest duration, one tick. -/
def time_duration.unit : time_duration := ⟨1⟩

/-- A `boost::posix_time::time_period`, stored as its first and its last point. -/
structure time_period where
  begin_ : ptime
  last_ : ptime
  deriving DecidableEq, Repr

/-- The constructor `time_period(begin, end)`. -/
def time_period.of_begin_end (b e : ptime) : time_period := ⟨b, e.sub time_duration.unit⟩

/-- The constructor `time_period(begin, length)`. -/
def time_period.of_begin_len (b : ptime) (len : time_duration) : time_period :=
  ⟨b, (b.add len).sub time_duration.unit⟩

/-- `time_period::begin`. -/
def time_period.begin (p : time_period) : ptime := p.begin_

/-- `time_period::end`: one tick past the last point. -/
def time_period.end_ (p : time_period) : ptime := p.last_.add time_duration.unit

/-! ## The string table -/

/-- Modelled from the spec: `strings.xml`, from which `loadStrings` fills the global map
`strings`, is not among the sources.  The spec names the six words the parser looks up
(`today`, `prev`, `this`, `next`, `day`, `week`) as the literal command syntax; each of
these keys maps to itself.  A key that is absent maps to the empty string, as
`std::map::operator[]` does. -/
def defaultStrings (key : Str) : Str :=
  if key = "today".toList ∨ key = "prev".toList ∨ key = "this".toList ∨ key = "next".toList
      ∨ key = "day".toList ∨ key = "week".toList then key
  else []

/-! ## `timefield-cmd.cpp`: parsing -/

/-- `parseDateTime` (`timefield-cmd.cpp`, lines 309-397).  `now` is the reading of
`second_clock::local_time()`. -/
def parseDateTime (now : ptime) (dateTimeString : Str) (defaultTime : time_duration)
    (currentYear : Int) (today : date) : Except Exn ptime :=
  if dateTimeString = "<".toList then .ok min_date_time
  else if dateTimeString = ">".toList then .ok max_date_time
  else if dateTimeString = "now".toList then .ok now
  else do
    let splitPos := find dateTimeString ' ' 0
    let (dateString, timeString) ←
      (if splitPos ≠ -1 then
        (.ok (trim (substr dateTimeString 0 splitPos),
              trim (substrFrom dateTimeString (splitPos + 1))) : Except Exn (Str × Str))
      else if find dateTimeString '/' 0 ≠ -1 then .ok (dateTimeString, [])
      else if find dateTimeString ':' 0 ≠ -1 then .ok ([], dateTimeString)
      else .error .InvalidIntervalException)
    let date ←
      (if dateString ≠ [] then do
        let firstSplitPos := find dateString '/' 0
        let month ← lexical_cast_int (substr dateString 0 firstSplitPos)
        let secondSplitPos := find dateString '/' (firstSplitPos + 1)
        if secondSplitPos ≠ -1 then do
          let day ← lexical_cast_int
            (substr dateString (firstSplitPos + 1) (secondSplitPos - (firstSplitPos + 1)))
          let year ← lexical_cast_int (substrFrom dateString (secondSplitPos + 1))
          date.of_ints year month day
        else do
          let day ← lexical_cast_int (substrFrom dateString (firstSplitPos + 1))
          date.of_ints currentYear month day
      else .ok today)
    let time ←
      (if timeString ≠ [] then do
        let firstSplitPos := find timeString ':' 0
        let hours ← lexical_cast_int (substr timeString 0 firstSplitPos)
        let minutes ← lexical_cast_int (substrFrom timeString (firstSplitPos + 1))
        pure (time_duration.of_hms hours minutes 0)
      else .ok defaultTime)
    pure (ptime.of_date_time date time)

/-- The post-validation of `parseInterval` (lines 288-297): the interval is returned only
if `begin ≤ end` and both ends lie between `min_date_time` and `max_date_time`. -/
def validateInterval (b e : ptime) : Except Exn time_period :=
  if b > e ∨ b < min_date_time ∨ e < min_date_time ∨ b > max_date_time ∨ e > max_date_time then
    .error .InvalidIntervalException
  else .ok (time_period.of_begin_end b e)

/-- The `try` block of `parseInterval` (lines 186-298). -/
def parseIntervalTry (strings : Str → Str) (today : date) (now : ptime) (input0 : Str)
    (currentBeginDate : date) (dayOfWeek : Nat) : Except Exn time_period := do
  let oneDay := hours 24
  let oneWeek : time_duration := ⟨(hours 24).ticks * 7⟩
  let input := trim input0
  let splitPos := find input '-' 0
  let (b, e) ←
    (if splitPos ≠ -1 then do
      let beginString := trim (substr input 0 splitPos)
      let endString := trim (substrFrom input (splitPos + 1))
      let y1 ← currentBeginDate.year
      let b ← parseDateTime now beginString (hours 0) y1 today
      let y2 ← currentBeginDate.year
      let e ← parseDateTime now endString (hours 0) y2 today
      pure (b, e)
    else if find input '/' 0 ≠ -1 then do
      let firstSplitPos := find input '/' 0
      let month ← lexical_cast_int (substr input 0 firstSplitPos)
      let secondSplitPos := find input '/' (firstSplitPos + 1)
      let date ←
        (if secondSplitPos ≠ -1 then do
          let day ← lexical_cast_int
            (substr input (firstSplitPos + 1) (secondSplitPos - (firstSplitPos + 1)))
          let year ← lexical_cast_int (substrFrom input (secondSplitPos + 1))
          date.of_ints year month day
        else do
          let day ← lexical_cast_int (substrFrom input (firstSplitPos + 1))
          let year ← currentBeginDate.year
          date.of_ints year month day)
      let b := ptime.of_date date
      pure (b, b.add oneDay)
    else
      let splitPos := find input ' ' 0
      let firstWord := substr input 0 splitPos
      let secondWord := substrFrom input (splitPos + 1)
      if firstWord = strings "today".toList then
        let b := ptime.of_date today
        pure (b, b.add oneDay)
      else if firstWord = strings "prev".toList then
        (if secondWord = strings "day".toList then
          let b := ptime.of_date (currentBeginDate.add_days (-1))
          pure (b, b.add oneDay)
        else if secondWord = strings "week".toList then
          let b := ptime.of_date ((currentBeginDate.add_days (-(dayOfWeek : Int))).add_days (-7))
          pure (b, b.add oneWeek)
        else pure (not_a_date_time, not_a_date_time))
      else if firstWord = strings "this".toList then
        (if secondWord = strings "day".toList then
          let b := ptime.of_date currentBeginDate
          pure (b, b.add oneDay)
        else if secondWord = strings "week".toList then
          let b := ptime.of_date (currentBeginDate.add_days (-(dayOfWeek : Int)))
          pure (b, b.add oneWeek)
        else pure (not_a_date_time, not_a_date_time))
      else if firstWord = strings "next".toList then
        (if secondWord = strings "day".toList then
          let b := ptime.of_date (currentBeginDate.add_days 1)
          pure (b, b.add oneDay)
        else if secondWord = strings "week".toList then
          let b := ptime.of_date ((currentBeginDate.add_days (-(dayOfWeek : Int))).add_days 7)
          pure (b, b.add oneWeek)
        else pure (not_a_date_time, not_a_date_time))
      else .error .InvalidIntervalException)
  validateInterval b e

/-- `parseInterval` (lines 167-303).  `today` is the reading of `day_clock::local_day()`.
The date and weekday of the working interval's begin are computed before the `try`
block; whatever is thrown inside the block is caught, reported and thrown again as a
(sliced) `std::exception`. -/
def parseInterval (strings : Str → Str) (today : date) (now : ptime) (input : Str)
    (currentWorkingInterval : time_period) : Except Exn time_period := do
  let currentBeginDate ← currentWorkingInterval.begin.date
  let dayOfWeek ← currentBeginDate.day_of_week
  match parseIntervalTry strings today now input currentBeginDate dayOfWeek with
  | .ok p => .ok p
  | .error _ => .error .std_exception

/-! ## `timefield-cmd.cpp`: formatting -/

/-- `getTimeString` (lines 552-559): a space, then hours and minutes, each padded with
zeros to two characters. -/
def getTimeString (time : ptime) : Str :=
  " ".toList ++ padLeft 2 '0' (showInt time.time_of_day.hours) ++ ":".toList
    ++ padLeft 2 '0' (showInt time.time_of_day.minutes)

/-- `os << greg_month`: Boost's default month format is the abbreviated English name. -/
def monthShortName (m : Nat) : Str :=
  match m with
  | 1 => "Jan".toList | 2 => "Feb".toList | 3 => "Mar".toList | 4 => "Apr".toList
  | 5 => "May".toList | 6 => "Jun".toList | 7 => "Jul".toList | 8 => "Aug".toList
  | 9 => "Sep".toList | 10 => "Oct".toList | 11 => "Nov".toList | 12 => "Dec".toList
  | _ => []

/-- `getDateTimeString` (lines 532-549). -/
def getDateTimeString (dateTime : ptime) (timeString : Str) : Except Exn Str :=
  if dateTime = min_date_time then .ok "<".toList
  else if dateTime = max_date_time then .ok ">".toList
  else do
    let d1 ← dateTime.date
    let day ← d1.day
    let d2 ← dateTime.date
    let month ← d2.month
    let d3 ← dateTime.date
    let year ← d3.year
    pure (showNat day ++ " ".toList ++ monthShortName month ++ " ".toList ++ showNat year
      ++ timeString)

/-- `buildIntervalString` (lines 494-529). -/
def buildIntervalString (interval : time_period) : Except Exn Str := do
  let b := interval.begin
  let e := interval.end_
  let beginTimeString := getTimeString b
  let endTimeString := getTimeString e
  let fullDay : Bool :=
    containsStr beginTimeString "00:00".toList
      && (containsStr endTimeString "00:00".toList || e = max_date_time)
  let beginTimeString := if fullDay then [] else beginTimeString
  let endTimeString := if fullDay then [] else endTimeString
  let beginDateTimeString ← getDateTimeString b beginTimeString
  let endDateTimeString ← getDateTimeString e endTimeString
  let bd ← b.date
  let ed ← e.date
  if ¬ (bd.add_days 1 = ed ∧ fullDay = true) then
    pure ("[".toList ++ beginDateTimeString ++ " - ".toList ++ endDateTimeString ++ "]".toList)
  else
    pure ("[".toList ++ beginDateTimeString ++ "]".toList)

/-- The local variable `fullDay` of `buildIntervalString` after the test of lines 506-515:
the begin's time string contains "00:00", and the end's time string contains "00:00" or
the end is `max_date_time`.  When it is set, both time strings are replaced by "". -/
def fullDay (interval : time_period) : Bool :=
  containsStr (getTimeString interval.begin) "00:00".toList
    && (containsStr (getTimeString interval.end_) "00:00".toList
      || interval.end_ = max_date_time)

/-! ## `Scheduler` and the command loop -/

/-- A `Task` (`Task.h`).  The `parent` pointer is null and `children` is empty for every
task this program creates, so they carry no information. -/
structure Task where
  title : Str
  notes : Str
  interval : time_period
  duration : time_duration
  deriving DecidableEq, Repr

/-- The fields of a `Scheduler` (`Scheduler.h`); the objects that `workingInterval` and the
elements of `taskList` point to are kept by value. -/
structure Scheduler where
  workingInterval : time_period
  taskList : List Task
  tasksFilename : Str
  deriving DecidableEq, Repr

/-- `Scheduler::getWorkingInterval`. -/
def Scheduler.getWorkingInterval (s : Scheduler) : time_period := s.workingInterval

/-- `Scheduler::setWorkingInterval` (`Scheduler.cpp`, lines 99-103): the old interval object
is deleted and the field points to the new one. -/
def Scheduler.setWorkingInterval (s : Scheduler) (interval : time_period) : Scheduler :=
  { s with workingInterval := interval }

/-- `Scheduler::getTaskList`. -/
def Scheduler.getTaskList (s : Scheduler) : List Task := s.taskList

/-- Conversion of an `int` to `size_t` (64 bits, unsigned), as in the comparison of
`i - 1` with `taskList.size()`. -/
def toSizeT (x : Int) : Nat := (x % 18446744073709551616).toNat

/-- The value of an `int` expression whose mathematical value is `x`: unchanged when it
fits 32 bits; on overflow (undefined behaviour for a signed type) the two's-complement
wrap-around is taken. -/
def toInt32 (x : Int) : Int := (x + 2147483648) % 4294967296 - 2147483648

/-- `Scheduler::addTask`. -/
def Scheduler.addTask (s : Scheduler) (task : Task) : Scheduler :=
  { s with taskList := s.taskList ++ [task] }

/-- `Scheduler::deleteTask` (`Scheduler.cpp`, lines 109-114): `i - 1` is converted to
`size_t` for the comparison with the size of the list; `erase` removes the element at
position `i - 1` and moves the elements behind it one place forward. -/
def Scheduler.deleteTask (s : Scheduler) (i : Int) : Except Exn Scheduler :=
  if toSizeT (toInt32 (i - 1)) ≥ s.taskList.length then .error .std_exception
  else .ok { s with taskList := s.taskList.eraseIdx (i - 1).toNat }

/-- The function `deleteTask` of `timefield-cmd.cpp` (lines 431-438): the exception of
`Scheduler::deleteTask` is caught (an error message is printed) and the scheduler stays
as it was. -/
def deleteTask (scheduler : Scheduler) (id : Int) : Scheduler :=
  match scheduler.deleteTask id with
  | .ok s => s
  | .error _ => scheduler

/-- The `case 'c'` of the command loop in `main` (lines 101-109), for an input line that
starts with the command character: the rest of the line goes to `parseInterval` together
with the current working interval; the result is handed to `setWorkingInterval`, and an
exception (every class thrown derives from `std::exception`) is caught and dropped. -/
def main_case_c (strings : Str → Str) (today : date) (now : ptime) (input : Str)
    (scheduler : Scheduler) : Scheduler :=
  match parseInterval strings today now (substrFrom input 1) scheduler.getWorkingInterval with
  | .ok interval => scheduler.setWorkingInterval interval
  | .error _ => scheduler

/-! ## Notions used to state the properties -/

/-- A calendar date in the range supported by `boost::gregorian::date`: year 1400..9999,
month 1..12, and a day that exists in that month of that year. -/
def ymd_type.valid (x : ymd_type) : Prop :=
  1400 ≤ x.year ∧ x.year ≤ 9999 ∧ 1 ≤ x.month ∧ x.month ≤ 12 ∧ 1 ≤ x.day ∧
    x.day ≤ end_of_month_day x.year x.month

/-- The text before the first occurrence of `c` (all of `s` when there is none). -/
def beforeFirst (c : Char) (s : Str) : Str := s.takeWhile (fun x => !decide (x = c))

/-- The text after the first occurrence of `c` (empty when there is none). -/
def afterFirst (c : Char) (s : Str) : Str := (s.dropWhile (fun x => !decide (x = c))).tail

/-- The characters that a rendered date without a time of day is made of: anything but
`':'` and `'-'`. -/
def plainChar (c : Char) : Bool := c ≠ ':' ∧ c ≠ '-'

/-- The rendering of a calendar date by `getDateTimeString`: day, abbreviated month name
and year, separated by single spaces. -/
def renderDate (ymd : ymd_type) : Str :=
  showNat ymd.day ++ " ".toList ++ monthShortName ymd.month ++ " ".toList ++ showNat ymd.year

/-- The time-of-day string that `getTimeString` builds for `h` hours and `m` minutes. -/
def timeStr (h m : Nat) : Str :=
  " ".toList ++ padLeft 2 '0' (showNat h) ++ ":".toList ++ padLeft 2 '0' (showNat m)

/-- The string `s` is a decimal numeral of `n`: one or more digits `'0'..'9'`, most
significant first. -/
def IsDecimal (s : Str) (n : Nat) : Prop :=
  s ≠ [] ∧ (∀ c ∈ s, isdigit c = true) ∧ decimalValue s = n

/-- The text "M/D" (no year part) or "M/D/Y" built from numerals. -/
def singleDateText (ms ds : Str) (ys : Option Str) : Str :=
  ms ++ '/' :: (ds ++ match ys with
    | none => []
    | some y => '/' :: y)

instance instDecidableIsDecimal (s : Str) (n : Nat) : Decidable (IsDecimal s n) :=
  inferInstanceAs (Decidable (s ≠ [] ∧ (∀ c ∈ s, isdigit c = true) ∧ decimalValue s = n))

/-- A triple whose components passed the range checks of `greg_year`, `greg_month` and
`greg_day`; the day need not exist in the month. -/
def ymd_type.checked (x : ymd_type) : Prop :=
  1400 ≤ x.year ∧ x.year ≤ 9999 ∧ 1 ≤ x.month ∧ x.month ≤ 12 ∧ 1 ≤ x.day ∧ x.day ≤ 31

instance instDecidableValid (x : ymd_type) : Decidable x.valid :=
  inferInstanceAs (Decidable (1400 ≤ x.year ∧ x.year ≤ 9999 ∧ 1 ≤ x.month ∧ x.month ≤ 12 ∧
    1 ≤ x.day ∧ x.day ≤ end_of_month_day x.year x.month))

/-- The calendar day after a date. -/
def nextCalendarDay (x : ymd_type) : ymd_type :=
  if x.day < end_of_month_day x.year x.month then ⟨x.year, x.month, x.day + 1⟩
  else if x.month < 12 then ⟨x.year, x.month + 1, 1⟩
  else ⟨x.year + 1, 1, 1⟩

/-- Days from the origin of the day numbering to the start of month `m` of year `y`,
plus 32045 (a proof device: `day_number` is the day of the month plus this, minus 32045). -/
def daysBeforeMonth (y m : Nat) : Nat :=
  (153 * (m + 12 * ((14 - m) / 12) - 3) + 2) / 5
    + (365 * (y + 4800 - (14 - m) / 12) + (y + 4800 - (14 - m) / 12) / 4
      - (y + 4800 - (14 - m) / 12) / 100 + (y + 4800 - (14 - m) / 12) / 400)

/-- The value of `from_day_number` written with the century `B`, the year in the century
`D` and the day `e` of the year that starts on 1 March (a proof device: the function
is shown to compute this when no 32-bit operation wraps). -/
def civil (B D e : Nat) : Except Exn ymd_type :=
  let m := (5 * e + 2) / 153
  let day := e - (153 * m + 2) / 5 + 1
  let month := m + 3 - 12 * (m / 10)
  let year := (100 * B + D + m / 10 - 4800)
  if ¬ (1400 ≤ year ∧ year ≤ 9999) then .error .bad_year
  else if ¬ (1 ≤ month ∧ month ≤ 12) then .error .bad_month
  else if ¬ (1 ≤ day ∧ day ≤ 31) then .error .bad_day_of_month
  else .ok ⟨year, month, day⟩

/-- The time point `h:mi` on the calendar date `y`-`m`-`d`. -/
def atTime (y m d : Nat) (h mi : Int) : ptime :=
  ptime.of_date_time ⟨day_number ⟨y, m, d⟩⟩ (time_duration.of_hms h mi 0)

/-- The time point 00:00 on the day with day number `n`. -/
def midnight (n : Int) : ptime := ⟨n * frac_sec_per_day⟩

/-- The invariant of an interval in the data model: `MIN ≤ begin ≤ end ≤ MAX`. -/
def time_period.wellFormed (p : time_period) : Prop :=
  min_date_time ≤ p.begin ∧ p.begin ≤ p.end_ ∧ p.end_ ≤ max_date_time

instance instDecidableWellFormed (p : time_period) : Decidable p.wellFormed :=
  inferInstanceAs (Decidable (min_date_time ≤ p.begin ∧ p.begin ≤ p.end_ ∧
    p.end_ ≤ max_date_time))

/-- The year that a single-date input stands for is `Y`: the numeral of its year part, or,
when the year part is omitted, the year of the working interval's begin. -/
def yearMeant (W : time_period) (ys : Option Str) (Y : Nat) : Prop :=
  match ys with
  | none => (W.begin.date >>= date.year) = .ok Y
  | some y => IsDecimal y Y

instance instDecidableYearMeant (W : time_period) (ys : Option Str) (Y : Nat) :
    Decidable (yearMeant W ys Y) :=
  match ys with
  | none => inferInstanceAs (Decidable ((W.begin.date >>= date.year) = .ok Y))
  | some y => inferInstanceAs (Decidable (IsDecimal y Y))

/-- The year that a date text given to `parseDateTime` stands for is `Y`: the numeral of
its year part, or, when the year part is omitted, the default year. -/
def yearWritten (defaultYear : Int) (ys : Option Str) (Y : Nat) : Prop :=
  match ys with
  | none => defaultYear = (Y : Int)
  | some y => IsDecimal y Y

instance instDecidableYearWritten (defaultYear : Int) (ys : Option Str) (Y : Nat) :
    Decidable (yearWritten defaultYear ys Y) :=
  match ys with
  | none => inferInstanceAs (Decidable (defaultYear = (Y : Int)))
  | some y => inferInstanceAs (Decidable (IsDecimal y Y))

/-- The date block of `parseDateTime` (lines 352-378) as a function of the date string:
the date the string is parsed to, today when the string is empty. -/
def parseDateBlock (dateString : Str) (currentYear : Int) (today : date) : Except Exn date :=
  if dateString ≠ [] then do
    let firstSplitPos := find dateString '/' 0
    let month ← lexical_cast_int (substr dateString 0 firstSplitPos)
    let secondSplitPos := find dateString '/' (firstSplitPos + 1)
    if secondSplitPos ≠ -1 then do
      let day ← lexical_cast_int
        (substr dateString (firstSplitPos + 1) (secondSplitPos - (firstSplitPos + 1)))
      let year ← lexical_cast_int (substrFrom dateString (secondSplitPos + 1))
      date.of_ints year month day
    else do
      let day ← lexical_cast_int (substrFrom dateString (firstSplitPos + 1))
      date.of_ints currentYear month day
  else .ok today

/-- The time block of `parseDateTime` (lines 380-392) as a function of the time string:
the duration the string is parsed to, the default time when the string is empty. -/
def parseTimeBlock (timeString : Str) (defaultTime : time_duration) :
    Except Exn time_duration :=
  if timeString ≠ [] then do
    let firstSplitPos := find timeString ':' 0
    let hours ← lexical_cast_int (substr timeString 0 firstSplitPos)
    let minutes ← lexical_cast_int (substrFrom timeString (firstSplitPos + 1))
    pure (time_duration.of_hms hours minutes 0)
  else .ok defaultTime

/-- A date text followed by one space and a time text. -/
def dateTimeText (dateText timeText : Str) : Str := dateText ++ ' ' :: timeText

/-- A time point truncated to the minute: its seconds and fraction of a second set to 0. -/
def truncToMinute (t : ptime) : ptime := ⟨t.time_count - t.time_count % 60000000⟩

/-- A calendar date written as three plain decimal integers, "D M Y". -/
def renderDatePlain (ymd : ymd_type) : Str :=
  showNat ymd.day ++ " ".toList ++ showNat ymd.month ++ " ".toList ++ showNat ymd.year

/-- The time point `h:mi:s` on the calendar date `y`-`m`-`d`. -/
def atTimeSec (y m d : Nat) (h mi s : Int) : ptime :=
  ptime.of_date_time ⟨day_number ⟨y, m, d⟩⟩ (time_duration.of_hms h mi s)

/-! ## Sample data -/

/-- Saturday 10 December 2011, as a reading of `day_clock::local_day()`. -/
def sampleDay : date := ⟨day_number ⟨2011, 12, 10⟩⟩

/-- A reading of `second_clock::local_time()` on `sampleDay`: 09:30:00. -/
def sampleNow : ptime := atTime 2011 12 10 9 30

/-- The working interval the scheduler starts with when today is `sampleDay`
(`Scheduler::Scheduler`): that day, 24 hours long. -/
def sampleInterval : time_period := time_period.of_begin_len (ptime.of_date sampleDay) (hours 24)

/-- A scheduler state with the working interval `sampleInterval` and two tasks. -/
def sampleScheduler : Scheduler :=
  { workingInterval := sampleInterval
    taskList :=
      [⟨"write report".toList, [], time_period.of_begin_end (atTime 2011 12 12 0 0)
          (atTime 2011 12 16 0 0), hours 3⟩,
       ⟨"call".toList, "bring notes".toList, sampleInterval, hours 1⟩]
    tasksFilename := "tasks.xml".toList }

/-! ## Theorems -/

theorem century_quot (B D e : Nat) (hD : D < 100) (he : e ≤ 365)
    (hl : e = 365 → D = 99 → B % 4 = 3) :
    (4 * (e + 36524 * B + 365 * D + D / 4 + B / 4) + 3) / 146097 = B := by
  apply Nat.div_eq_of_lt_le <;> omega

theorem year_quot (D e : Nat) (he : e ≤ 365) (hl : e = 365 → D % 4 = 3) :
    (4 * (e + 365 * D + D / 4) + 3) / 1461 = D := by
  apply Nat.div_eq_of_lt_le <;> omega

theorem sub_wrap (x y : Nat) (hy : y ≤ x) (hx : x < 4294967296) :
    (x + 4294967296 - y) % 4294967296 = x - y := by
  omega

theorem century_rest (B D e : Nat) (hB : B ≤ 200) (hD : D < 100) (he : e ≤ 365) :
    (e + 36524 * B + 365 * D + D / 4 + B / 4 + 4294967296
      - ((146097 * B) % 4294967296) / 4) % 4294967296 = e + 365 * D + D / 4 := by
  rw [Nat.mod_eq_of_lt (show 146097 * B < 4294967296 by omega),
    sub_wrap _ _ (by omega) (by omega)]
  omega

theorem year_rest (D e : Nat) (hD : D < 100) (he : e ≤ 365) :
    (e + 365 * D + D / 4 + 4294967296 - ((1461 * D) % 4294967296) / 4) % 4294967296 = e := by
  rw [Nat.mod_eq_of_lt (show 1461 * D < 4294967296 by omega),
    sub_wrap _ _ (by omega) (by omega)]
  omega

theorem day_cast (e m : Nat) (he : e ≤ 365) (hm : m ≤ 11) (hle : (153 * m + 2) / 5 ≤ e) :
    ((e + 4294967296 - ((153 * m + 2) % 4294967296) / 5 + 1) % 4294967296) % 65536
      = e - (153 * m + 2) / 5 + 1 := by
  rw [Nat.mod_eq_of_lt (show 153 * m + 2 < 4294967296 by omega)]
  omega

theorem month_cast (m : Nat) (hm : m ≤ 11) :
    ((m + 3 + 4294967296 - (12 * (m / 10)) % 4294967296) % 4294967296) % 65536
      = m + 3 - 12 * (m / 10) := by
  omega

theorem year_cast (B D m : Nat) (hB1 : 48 ≤ B) (hB : B ≤ 200) (hD : D < 100) (hm : m ≤ 11) :
    ((100 * B + D + 4294967296 - 4800 + m / 10) % 4294967296) % 65536
      = 100 * B + D + m / 10 - 4800 := by
  omega

theorem from_day_number_eq (n B D e : Nat)
    (hn : n + 32044 = e + 36524 * B + 365 * D + D / 4 + B / 4)
    (hD : D < 100) (he : e ≤ 365) (hl1 : e = 365 → D = 99 → B % 4 = 3)
    (hl2 : e = 365 → D % 4 = 3) (hB1 : 48 ≤ B) (hB : B ≤ 200) :
    from_day_number n = civil B D e := by
  have h1 : (n + 32044) % 4294967296 = e + 36524 * B + 365 * D + D / 4 + B / 4 := by
    omega
  have h2 : ((4 * (e + 36524 * B + 365 * D + D / 4 + B / 4) + 3) % 4294967296) / 146097
      = B := by
    rw [Nat.mod_eq_of_lt (by omega)]
    exact century_quot B D e hD he hl1
  have h3 := century_rest B D e hB hD he
  have h4 : ((4 * (e + 365 * D + D / 4) + 3) % 4294967296) / 1461 = D := by
    rw [Nat.mod_eq_of_lt (by omega)]
    exact year_quot D e he hl2
  have h5 := year_rest D e hD he
  have h6 : ((5 * e + 2) % 4294967296) / 153 = (5 * e + 2) / 153 := by
    rw [Nat.mod_eq_of_lt (by omega)]
  unfold from_day_number civil W32
  simp only [h1, h2, h3, h4, h5, h6]
  have hm : (5 * e + 2) / 153 ≤ 11 := by omega
  have hm2 : (153 * ((5 * e + 2) / 153) + 2) / 5 ≤ e := by omega
  rw [day_cast e _ he hm hm2, month_cast _ hm, year_cast B D _ hB1 hB hD hm]

theorem is_leap_year_iff (y : Nat) :
    is_leap_year y = true ↔ (y % 4 = 0 ∧ (y % 100 ≠ 0 ∨ y % 400 = 0)) := by
  simp [is_leap_year]

theorem exists_civil (n : Nat) (h1 : 2232400 ≤ n) (h2 : n ≤ 5373484) :
    ∃ B D e, n + 32044 = e + 36524 * B + 365 * D + D / 4 + B / 4 ∧ D < 100 ∧ e ≤ 365 ∧
      (e = 365 → D = 99 → B % 4 = 3) ∧ (e = 365 → D % 4 = 3) ∧ 48 ≤ B ∧ B ≤ 200 := by
  refine ⟨(4 * (n + 32044) + 3) / 146097,
    (4 * ((n + 32044) - 146097 * ((4 * (n + 32044) + 3) / 146097) / 4) + 3) / 1461,
    ((n + 32044) - 146097 * ((4 * (n + 32044) + 3) / 146097) / 4)
      - 1461 * ((4 * ((n + 32044) - 146097 * ((4 * (n + 32044) + 3) / 146097) / 4) + 3)
        / 1461) / 4,
    ?_⟩
  generalize hB : (4 * (n + 32044) + 3) / 146097 = B
  have hB' : 146097 * B ≤ 4 * (n + 32044) + 3 ∧ 4 * (n + 32044) + 3 < 146097 * B + 146097 := by
    omega
  generalize hc : (n + 32044) - 146097 * B / 4 = c
  have hc' : c ≤ 36524 ∧ (c = 36524 → B % 4 = 3) ∧ n + 32044 = c + 36524 * B + B / 4 := by
    omega
  generalize hD : (4 * c + 3) / 1461 = D
  omega

theorem end_of_month_day_eq (y m : Nat) :
    end_of_month_day y m =
      if m = 2 then (if (y % 4 = 0 ∧ (y % 100 ≠ 0 ∨ y % 400 = 0)) then 29 else 28)
      else if m = 4 ∨ m = 6 ∨ m = 9 ∨ m = 11 then 30 else 31 := by
  unfold end_of_month_day
  by_cases h : is_leap_year y = true
  · have h2 := (is_leap_year_iff y).1 h
    simp only [h, if_true, h2]
    simp
  · have h2 : ¬ (y % 4 = 0 ∧ (y % 100 ≠ 0 ∨ y % 400 = 0)) :=
      fun h3 => h ((is_leap_year_iff y).2 h3)
    simp only [h, h2, if_false]
    simp

theorem civil_year_lo (B D e m : Nat) (hD : D < 100) (he : e ≤ 365)
    (hmm : (5 * e + 2) / 153 = m)
    (hlo : 2264444 ≤ e + 36524 * B + 365 * D + D / 4 + B / 4) :
    6200 ≤ 100 * B + D + m / 10 := by
  rcases (by omega : B ≤ 60 ∨ B = 61 ∨ 62 ≤ B) with h | h | h
  · omega
  · subst h
    have h1 : D = 99 := by omega
    subst h1
    have h2 : 306 ≤ e := by omega
    omega
  · omega

theorem civil_year_hi (B D e m : Nat) (hD : D < 100) (he : e ≤ 365)
    (hmm : (5 * e + 2) / 153 = m)
    (hhi : e + 36524 * B + 365 * D + D / 4 + B / 4 ≤ 5405528) :
    100 * B + D + m / 10 ≤ 14799 := by
  rcases (by omega : B ≤ 146 ∨ B = 147 ∨ 148 ≤ B) with h | h | h
  · omega
  · subst h
    rcases (by omega : D ≤ 98 ∨ D = 99) with h1 | h1
    · omega
    · subst h1
      have h2 : e ≤ 305 := by omega
      omega
  · omega

theorem civil_day_le (B D e m : Nat) (hD : D < 100) (he : e ≤ 365)
    (hl1 : e = 365 → D = 99 → B % 4 = 3) (hl2 : e = 365 → D % 4 = 3)
    (hmm : (5 * e + 2) / 153 = m) (hm : m ≤ 11)
    (hy1 : 6200 ≤ 100 * B + D + m / 10) :
    e - (153 * m + 2) / 5 + 1 ≤
      end_of_month_day (100 * B + D + m / 10 - 4800) (m + 3 - 12 * (m / 10)) := by
  rw [end_of_month_day_eq]
  interval_cases m <;> simp only [Nat.reduceAdd, Nat.reduceMul, Nat.reduceDiv, Nat.reduceSub,
    Nat.reduceEqDiff, if_true, if_false, or_false, or_true, false_or, true_or] <;> try omega
  split_ifs with h
  · omega
  · have : e ≤ 364 := by
      by_contra hc
      have h365 : e = 365 := by omega
      have := hl2 h365
      apply h
      refine ⟨by omega, ?_⟩
      by_cases hd : D = 99
      · right
        have h3 := hl1 h365 hd
        subst hd
        have h4 : 100 * B + 99 + 1 - 4800 = 100 * (B - 47) := by omega
        rw [h4]
        omega
      · left
        omega
    omega

theorem day_number_civil (B D e m : Nat) (hD : D < 100) (he : e ≤ 365)
    (hmm : (5 * e + 2) / 153 = m) (hm : m ≤ 11)
    (hy1 : 6200 ≤ 100 * B + D + m / 10) :
    day_number ⟨100 * B + D + m / 10 - 4800, m + 3 - 12 * (m / 10), e - (153 * m + 2) / 5 + 1⟩
      + 32044 = e + 36524 * B + 365 * D + D / 4 + B / 4 := by
  unfold day_number
  simp only []
  have hq1 : (100 * B + D) / 4 = 25 * B + D / 4 := by omega
  have hq2 : (100 * B + D) / 100 = B := by omega
  have hq3 : (100 * B + D) / 400 = B / 4 := by omega
  interval_cases m <;> simp only [Nat.reduceAdd, Nat.reduceMul, Nat.reduceDiv, Nat.reduceSub]
  all_goals
    first
    | (have hY : 100 * B + D + 0 - 4800 + 4800 - 0 = 100 * B + D := by omega
       rw [hY, hq1, hq2, hq3]; omega)
    | (have hY : 100 * B + D + 1 - 4800 + 4800 - 1 = 100 * B + D := by omega
       rw [hY, hq1, hq2, hq3]; omega)

theorem civil_ok (B D e : Nat) (hD : D < 100) (he : e ≤ 365)
    (hl1 : e = 365 → D = 99 → B % 4 = 3) (hl2 : e = 365 → D % 4 = 3)
    (hlo : 2264444 ≤ e + 36524 * B + 365 * D + D / 4 + B / 4)
    (hhi : e + 36524 * B + 365 * D + D / 4 + B / 4 ≤ 5405528) :
    ∃ ymd, civil B D e = .ok ymd ∧ ymd.valid ∧
      day_number ymd + 32044 = e + 36524 * B + 365 * D + D / 4 + B / 4 := by
  have hm : (5 * e + 2) / 153 ≤ 11 := by omega
  generalize hmm : (5 * e + 2) / 153 = m at hm
  have hy1 := civil_year_lo B D e m hD he hmm hlo
  have hy2 := civil_year_hi B D e m hD he hmm hhi
  have hdl := civil_day_le B D e m hD he hl1 hl2 hmm hm hy1
  have hdn := day_number_civil B D e m hD he hmm hm hy1
  simp only [civil, hmm]
  rw [if_neg (by omega), if_neg (by omega), if_neg (by omega)]
  refine ⟨_, rfl, ?_, hdn⟩
  clear hdn
  unfold ymd_type.valid
  dsimp only
  exact ⟨by omega, by omega, by omega, by omega, by omega, hdl⟩

/-- Every day number between 1 January 1400 and 31 December 9999 converts to a valid
calendar date whose day number it is. -/
theorem from_day_number_in_range (n : Nat) (h1 : 2232400 ≤ n) (h2 : n ≤ 5373484) :
    ∃ ymd, from_day_number n = .ok ymd ∧ ymd.valid ∧ day_number ymd = n := by
  obtain ⟨B, D, e, hn, hD, he, hl1, hl2, hB1, hB2⟩ := exists_civil n h1 h2
  obtain ⟨ymd, hc, hv, hdn⟩ := civil_ok B D e hD he hl1 hl2 (by omega) (by omega)
  refine ⟨ymd, ?_, hv, by omega⟩
  rw [from_day_number_eq n B D e hn hD he hl1 hl2 hB1 hB2, hc]

theorem civil_eq (Y mp d y m : Nat) (hmp : mp ≤ 11) (hd1 : 1 ≤ d) (hd31 : d ≤ 31)
    (hd : d + (153 * mp + 2) / 5 ≤ (153 * (mp + 1) + 2) / 5)
    (hy : y + 4800 = Y + mp / 10) (hm : m + 12 * (mp / 10) = mp + 3)
    (hy1 : 1400 ≤ y) (hy2 : y ≤ 9999) :
    civil (Y / 100) (Y % 100) (d - 1 + (153 * mp + 2) / 5) = .ok ⟨y, m, d⟩ := by
  have h1 : (5 * (d - 1 + (153 * mp + 2) / 5) + 2) / 153 = mp := by
    interval_cases mp <;> omega
  have h2 : 100 * (Y / 100) + Y % 100 + mp / 10 - 4800 = y := by omega
  have h3 : mp + 3 - 12 * (mp / 10) = m := by omega
  have h4 : d - 1 + (153 * mp + 2) / 5 - (153 * mp + 2) / 5 + 1 = d := by omega
  simp only [civil, h1, h2, h3, h4]
  rw [if_neg (by omega), if_neg (by omega), if_neg (by omega)]

theorem day_number_form (y m d : Nat) (hy1 : 1400 ≤ y) (hy2 : y ≤ 9999)
    (hm1 : 1 ≤ m) (hm2 : m ≤ 12) (hd1 : 1 ≤ d) (hd2 : d ≤ end_of_month_day y m) :
    ∃ B D e, day_number ⟨y, m, d⟩ + 32044 = e + 36524 * B + 365 * D + D / 4 + B / 4 ∧
      D < 100 ∧ e ≤ 365 ∧ (e = 365 → D = 99 → B % 4 = 3) ∧ (e = 365 → D % 4 = 3) ∧
      48 ≤ B ∧ B ≤ 200 ∧ civil B D e = .ok ⟨y, m, d⟩ := by
  rw [end_of_month_day_eq] at hd2
  refine ⟨(y + 4800 - (14 - m) / 12) / 100, (y + 4800 - (14 - m) / 12) % 100,
    d - 1 + (153 * (m + 12 * ((14 - m) / 12) - 3) + 2) / 5, ?_⟩
  unfold day_number
  simp only []
  have ha : (14 - m) / 12 ≤ 1 := by omega
  have hmp : m + 12 * ((14 - m) / 12) - 3 ≤ 11 := by omega
  have hmp2 : m + 12 * ((14 - m) / 12) = (m + 12 * ((14 - m) / 12) - 3) + 3 := by omega
  have hmp3 : (14 - m) / 12 = (m + 12 * ((14 - m) / 12) - 3) / 10 := by omega
  generalize (m + 12 * ((14 - m) / 12) - 3) = mp at *
  generalize (14 - m) / 12 = a at *
  have hY : y + 4800 = (y + 4800 - a) + a := by omega
  have hY1 : 6199 ≤ y + 4800 - a := by omega
  have hY2 : y + 4800 - a ≤ 14799 := by omega
  generalize y + 4800 - a = Y at *
  have hd31 : d ≤ 31 := by
    split_ifs at hd2 <;> omega
  have hdm : d + (153 * mp + 2) / 5 ≤ (153 * (mp + 1) + 2) / 5 := by
    split_ifs at hd2 <;> interval_cases mp <;> omega
  have hd29 : mp = 11 → d ≤ 29 := by
    intro h11
    have hm2 : m = 2 := by omega
    rw [if_pos hm2] at hd2
    split_ifs at hd2 <;> omega
  have he365 : d - 1 + (153 * mp + 2) / 5 ≤ 365 := by
    rcases (by omega : mp ≤ 10 ∨ mp = 11) with h | h
    · omega
    · have := hd29 h
      omega
  have hleap : d - 1 + (153 * mp + 2) / 5 = 365 →
      ((Y + 1) % 4 = 0 ∧ ((Y + 1) % 100 ≠ 0 ∨ (Y + 1) % 400 = 0)) := by
    intro h365
    have h11 : mp = 11 := by omega
    have hm2 : m = 2 := by omega
    have hyY : y + 4800 = Y + 1 := by omega
    rw [if_pos hm2] at hd2
    split_ifs at hd2 with hl
    · omega
    · omega
  refine ⟨?_, by omega, he365, ?_, ?_, by omega, by omega, ?_⟩
  · clear hleap hdm hd2
    omega
  · intro h1 h2
    have := hleap h1
    omega
  · intro h1
    have := hleap h1
    omega
  · exact civil_eq Y mp d y m hmp hd1 hd31 hdm (by omega) (by omega) hy1 hy2

/-- Converting a valid calendar date to its day number and back gives the date again. -/
theorem from_day_number_day_number (ymd : ymd_type) (hv : ymd.valid) :
    from_day_number (day_number ymd) = .ok ymd := by
  obtain ⟨y, m, d⟩ := ymd
  obtain ⟨hy1, hy2, hm1, hm2, hd1, hd2⟩ := hv
  obtain ⟨B, D, e, hn, hD, he, hl1, hl2, hB1, hB2, hc⟩ :=
    day_number_form y m d hy1 hy2 hm1 hm2 hd1 hd2
  rw [from_day_number_eq _ B D e hn hD he hl1 hl2 hB1 hB2, hc]

theorem year_days_form (x Y : Nat) :
    x + 365 * Y + Y / 4 - Y / 100 + Y / 400
      = x + (36524 * (Y / 100) + 365 * (Y % 100) + (Y % 100) / 4 + (Y / 100) / 4) := by
  omega

theorem year_days_lo (B D : Nat) (hD : D < 100) (h : 6199 ≤ 100 * B + D) :
    2264138 ≤ 36524 * B + 365 * D + D / 4 + B / 4 ∧
      (6200 ≤ 100 * B + D → 2264503 ≤ 36524 * B + 365 * D + D / 4 + B / 4) := by
  rcases (by omega : B = 61 ∨ 62 ≤ B) with h1 | h1
  · subst h1; omega
  · omega

theorem year_days_hi (B D : Nat) (hD : D < 100) (h : 100 * B + D ≤ 14799) :
    36524 * B + 365 * D + D / 4 + B / 4 ≤ 5405223 ∧
      (100 * B + D ≤ 14798 → 36524 * B + 365 * D + D / 4 + B / 4 ≤ 5404858) := by
  rcases (by omega : B = 147 ∨ B ≤ 146) with h1 | h1
  · subst h1; omega
  · omega

theorem valid_checked (ymd : ymd_type) (hv : ymd.valid) : ymd.checked := by
  obtain ⟨y, m, d⟩ := ymd
  obtain ⟨hy1, hy2, hm1, hm2, hd1, hd2⟩ := hv
  refine ⟨hy1, hy2, hm1, hm2, hd1, ?_⟩
  dsimp only at hd2 ⊢
  rw [end_of_month_day_eq] at hd2
  split_ifs at hd2 <;> omega

theorem day_number_bounds (ymd : ymd_type) (hv : ymd.checked) :
    2232400 ≤ day_number ymd ∧ day_number ymd ≤ 5373484 := by
  obtain ⟨y, m, d⟩ := ymd
  obtain ⟨hy1, hy2, hm1, hm2, hd1, hd31⟩ := hv
  dsimp only at hy1 hy2 hm1 hm2 hd1 hd31
  unfold day_number
  dsimp only
  have ha : (14 - m) / 12 ≤ 1 := by omega
  have hmp : m + 12 * ((14 - m) / 12) - 3 ≤ 11 := by omega
  have hmp3 : (14 - m) / 12 = (m + 12 * ((14 - m) / 12) - 3) / 10 := by omega
  have hmp4 : m + 12 * ((14 - m) / 12) - 3 = 9 → m = 12 := by omega
  generalize (m + 12 * ((14 - m) / 12) - 3) = mp at *
  generalize (14 - m) / 12 = a at *
  have hY1 : 6199 + (1 - a) ≤ y + 4800 - a := by omega
  have hY2 : y + 4800 - a + a ≤ 14799 := by omega
  generalize y + 4800 - a = Y at *
  rw [year_days_form]
  have h1 := year_days_lo (Y / 100) (Y % 100) (by omega) (by omega)
  have h2 := year_days_hi (Y / 100) (Y % 100) (by omega) (by omega)
  have h3 : Y = 100 * (Y / 100) + Y % 100 := by omega
  generalize Y / 100 = B at *
  generalize Y % 100 = D at *
  subst h3
  generalize 36524 * B + 365 * D + D / 4 + B / 4 = F at *
  constructor
  · rcases (by omega : a = 0 ∨ a = 1) with h | h
    · subst h; omega
    · subst h; omega
  · rcases (by omega : a = 0 ∨ a = 1) with h | h
    · subst h; omega
    · subst h; omega

theorem shift_4800 (y : Nat) :
    (y + 4800) / 4 = y / 4 + 1200 ∧ (y + 4800) / 100 = y / 100 + 48 ∧
      (y + 4800) / 400 = y / 400 + 12 ∧ y / 100 ≤ y / 4 := by
  omega

/-- The weekday of a date is its day number plus one, modulo seven. -/
theorem day_of_week_eq (ymd : ymd_type) (hv : ymd.checked) :
    day_of_week ymd = (day_number ymd + 1) % 7 := by
  obtain ⟨y, m, d⟩ := ymd
  obtain ⟨hy1, hy2, hm1, hm2, hd1, hd2⟩ := hv
  dsimp only at hy1 hy2 hm1 hm2 hd1 hd2
  clear hd2
  unfold day_of_week day_number
  dsimp only
  have ha : (14 - m) / 12 ≤ 1 := by omega
  have hmp : m + 12 * ((14 - m) / 12) - 3 ≤ 11 := by omega
  have hmp2 : m + 12 * ((14 - m) / 12) - 2 = (m + 12 * ((14 - m) / 12) - 3) + 1 := by omega
  rw [hmp2]
  generalize (m + 12 * ((14 - m) / 12) - 3) = mp at *
  generalize (14 - m) / 12 = a at *
  have hY : y + 4800 - a = (y - a) + 4800 := by omega
  rw [hY]
  have hy0 : 1399 ≤ y - a := by omega
  generalize y - a = z at *
  obtain ⟨h4, h100, h400, hle⟩ := shift_4800 z
  rw [h4, h100, h400]
  have hdn : d + (153 * mp + 2) / 5 + 365 * (z + 4800) + (z / 4 + 1200) - (z / 100 + 48)
      + (z / 400 + 12) - 32045 + 1
      = (d + z + z / 4 - z / 100 + z / 400) + 364 * z + (153 * mp + 2) / 5 + 1721120 := by
    omega
  rw [hdn]
  generalize d + z + z / 4 - z / 100 + z / 400 = P
  clear hdn h4 h100 h400 hle hY hmp2
  interval_cases mp <;> omega

theorem year_days_succ (Y : Nat) :
    365 * (Y + 1) + (Y + 1) / 4 - (Y + 1) / 100 + (Y + 1) / 400
      = 365 * Y + Y / 4 - Y / 100 + Y / 400 + 365
        + (if ((Y + 1) % 4 = 0 ∧ ((Y + 1) % 100 ≠ 0 ∨ (Y + 1) % 400 = 0)) then 1 else 0) := by
  have h1 : (Y + 1) / 4 = Y / 4 + (if (Y + 1) % 4 = 0 then 1 else 0) := by
    split_ifs <;> omega
  have h2 : (Y + 1) / 100 = Y / 100 + (if (Y + 1) % 100 = 0 then 1 else 0) := by
    split_ifs <;> omega
  have h3 : (Y + 1) / 400 = Y / 400 + (if (Y + 1) % 400 = 0 then 1 else 0) := by
    split_ifs <;> omega
  have h4 : Y / 100 ≤ Y / 4 := by omega
  rw [h1, h2, h3]
  generalize Y / 4 = q4 at *
  generalize Y / 100 = q100 at *
  generalize Y / 400 = q400 at *
  split_ifs <;> omega

theorem leap_shift (y : Nat) :
    ((y + 4799 + 1) % 4 = 0 ∧ ((y + 4799 + 1) % 100 ≠ 0 ∨ (y + 4799 + 1) % 400 = 0))
      ↔ (y % 4 = 0 ∧ (y % 100 ≠ 0 ∨ y % 400 = 0)) := by
  omega

theorem day_number_split (y m d : Nat) :
    day_number ⟨y, m, d⟩ = d + daysBeforeMonth y m - 32045 := by
  unfold day_number daysBeforeMonth
  dsimp only
  have h : (y + 4800 - (14 - m) / 12) / 100 ≤ (y + 4800 - (14 - m) / 12) / 4 := by omega
  generalize (y + 4800 - (14 - m) / 12) / 100 = a at *
  generalize (y + 4800 - (14 - m) / 12) / 4 = b at *
  generalize (y + 4800 - (14 - m) / 12) / 400 = c at *
  generalize (153 * (m + 12 * ((14 - m) / 12) - 3) + 2) / 5 = e at *
  generalize 365 * (y + 4800 - (14 - m) / 12) = f at *
  omega

theorem daysBeforeMonth_succ (y m : Nat) (hm1 : 1 ≤ m) (hm2 : m < 12) (hy : 1 ≤ y) :
    daysBeforeMonth y (m + 1) = daysBeforeMonth y m + end_of_month_day y m := by
  rw [end_of_month_day_eq]
  unfold daysBeforeMonth
  interval_cases m <;> simp only [Nat.reduceAdd, Nat.reduceMul, Nat.reduceDiv,
    Nat.reduceSub, Nat.reduceEqDiff, if_true, if_false, or_false, or_true, false_or, true_or]
  case «2» =>
    have hs := year_days_succ (y + 4799)
    have hl := leap_shift y
    have e1 : y + 4800 - 1 = y + 4799 := by omega
    have e2 : y + 4800 - 0 = y + 4799 + 1 := by omega
    rw [e1, e2, hs]
    by_cases hleap : (y % 4 = 0 ∧ (y % 100 ≠ 0 ∨ y % 400 = 0))
    · rw [if_pos hleap, if_pos (hl.2 hleap)]
      omega
    · rw [if_neg hleap, if_neg (fun h => hleap (hl.1 h))]
      omega
  all_goals omega

theorem daysBeforeMonth_year (y : Nat) :
    daysBeforeMonth (y + 1) 1 = daysBeforeMonth y 12 + 31 := by
  unfold daysBeforeMonth
  simp only [Nat.reduceAdd, Nat.reduceMul, Nat.reduceDiv, Nat.reduceSub]
  have e1 : y + 1 + 4800 - 1 = y + 4800 - 0 := by omega
  rw [e1]
  omega

/-- The day after a valid date other than 31 December 9999 is a valid date, and its day
number is one more. -/
theorem nextCalendarDay_spec (x : ymd_type) (hv : x.valid) (hlast : x ≠ ⟨9999, 12, 31⟩) :
    (nextCalendarDay x).valid ∧ day_number (nextCalendarDay x) = day_number x + 1 := by
  have hb := (day_number_bounds x (valid_checked x hv)).1
  obtain ⟨y, m, d⟩ := x
  obtain ⟨hy1, hy2, hm1, hm2, hd1, hd2⟩ := hv
  dsimp only at hy1 hy2 hm1 hm2 hd1 hd2
  rw [day_number_split] at hb
  unfold nextCalendarDay
  dsimp only
  split_ifs with h1 h2
  · refine ⟨⟨hy1, hy2, hm1, hm2, by dsimp only; omega, by dsimp only; omega⟩, ?_⟩
    rw [day_number_split, day_number_split]
    omega
  · have hd : d = end_of_month_day y m := by omega
    refine ⟨⟨hy1, hy2, by dsimp only; omega, by dsimp only; omega, by dsimp only; omega, ?_⟩, ?_⟩
    · dsimp only
      rw [end_of_month_day_eq]
      split_ifs <;> omega
    · rw [day_number_split, day_number_split, daysBeforeMonth_succ y m hm1 h2 (by omega)]
      omega
  · have hm12 : m = 12 := by omega
    subst hm12
    have hd : d = 31 := by
      rw [end_of_month_day_eq] at h1 hd2
      simp only [Nat.reduceEqDiff, if_false, or_false] at h1 hd2
      omega
    subst hd
    have hy : y ≤ 9998 := by
      by_contra hc
      apply hlast
      have : y = 9999 := by omega
      subst this
      rfl
    refine ⟨⟨by dsimp only; omega, by dsimp only; omega, by dsimp only; omega,
      by dsimp only; omega, by dsimp only; omega, ?_⟩, ?_⟩
    · dsimp only
      rw [end_of_month_day_eq]
      simp
    · rw [day_number_split, day_number_split, daysBeforeMonth_year]
      omega

theorem min_date_time_eq : min_date_time = ⟨192879360000000000⟩ := by decide

theorem max_date_time_eq : max_date_time = ⟨464269103999999999⟩ := by decide

theorem ptime_le_iff (a b : ptime) : a ≤ b ↔ a.time_count ≤ b.time_count := Iff.rfl

theorem ptime_lt_iff (a b : ptime) : a < b ↔ a.time_count < b.time_count := Iff.rfl

theorem ptime_ext (a b : ptime) (h : a.time_count = b.time_count) : a = b := by
  cases a; cases b; simp_all

/-- A time point between `min_date_time` and `max_date_time` is not a special value. -/
theorem not_special_of_range (t : ptime) (h1 : min_date_time ≤ t) (h2 : t ≤ max_date_time) :
    t ≠ not_a_date_time ∧ t ≠ pos_infin ∧ t ≠ neg_infin := by
  rw [min_date_time_eq, ptime_le_iff] at h1
  rw [max_date_time_eq, ptime_le_iff] at h2
  dsimp only at h1 h2
  refine ⟨?_, ?_, ?_⟩ <;> intro h <;> rw [h] at h1 h2 <;>
    simp only [not_a_date_time, pos_infin, neg_infin] at h1 h2 <;> omega

theorem is_special_false (t : ptime) (h1 : t.time_count ≠ 9223372036854775806)
    (h2 : t.time_count ≠ 9223372036854775807) (h3 : t.time_count ≠ -9223372036854775808) :
    t.is_special = false := by
  obtain ⟨c⟩ := t
  dsimp only at h1 h2 h3
  simp [ptime.is_special, not_a_date_time, pos_infin, neg_infin, h1, h2, h3]

theorem add_of_range (t : ptime) (td : time_duration)
    (h1 : -9000000000000000000 < t.time_count) (h2 : t.time_count < 9000000000000000000) :
    t.add td = ⟨t.time_count + td.ticks⟩ := by
  unfold ptime.add
  rw [is_special_false t (by omega) (by omega) (by omega)]
  rfl

theorem sub_of_range (t : ptime) (td : time_duration)
    (h1 : -9000000000000000000 < t.time_count) (h2 : t.time_count < 9000000000000000000) :
    t.sub td = ⟨t.time_count - td.ticks⟩ := by
  unfold ptime.sub
  rw [is_special_false t (by omega) (by omega) (by omega)]
  rfl

/-- `time_period(begin, end)` gives back its two ends when `end` is an ordinary time. -/
theorem of_begin_end_ends (b e : ptime)
    (h1 : -8000000000000000000 < e.time_count) (h2 : e.time_count < 8000000000000000000) :
    (time_period.of_begin_end b e).begin = b ∧ (time_period.of_begin_end b e).end_ = e := by
  refine ⟨rfl, ?_⟩
  unfold time_period.of_begin_end time_period.end_
  dsimp only
  rw [sub_of_range e _ (by omega) (by omega), add_of_range _ _ (by dsimp only [time_duration.unit]; omega)
    (by dsimp only [time_duration.unit]; omega)]
  apply ptime_ext
  dsimp only [time_duration.unit]
  omega

theorem validateInterval_ok (b e : ptime) (r : time_period) (h : validateInterval b e = .ok r) :
    r = time_period.of_begin_end b e ∧ b ≤ e ∧ min_date_time ≤ b ∧ b ≤ max_date_time ∧
      min_date_time ≤ e ∧ e ≤ max_date_time := by
  unfold validateInterval at h
  split_ifs at h with hc
  · simp only [not_or, gt_iff_lt, ptime_lt_iff, not_lt] at hc
    obtain ⟨c1, c2, c3, c4, c5⟩ := hc
    cases h
    exact ⟨rfl, c1, c2, c4, c3, c5⟩

theorem validateInterval_of (b e : ptime) (h0 : b ≤ e) (h1 : min_date_time ≤ b)
    (h2 : e ≤ max_date_time) : validateInterval b e = .ok (time_period.of_begin_end b e) := by
  unfold validateInterval
  rw [ptime_le_iff] at h0 h1 h2
  rw [if_neg]
  simp only [not_or, gt_iff_lt, ptime_lt_iff, not_lt]
  exact ⟨h0, h1, by omega, by omega, h2⟩

theorem hours_ticks (n : Int) (h : 0 ≤ n) : (hours n).ticks = n * 3600000000 := by
  unfold hours time_duration.of_hms
  rw [if_neg (by omega)]
  dsimp only
  omega

theorem except_bind_ok {α β : Type} (x : Except Exn α) (f : α → Except Exn β) (r : β)
    (h : (x >>= f) = .ok r) : ∃ a, x = .ok a ∧ f a = .ok r := by
  cases x with
  | error e => cases h
  | ok a => exact ⟨a, rfl, h⟩

theorem parseIntervalTry_validated (strings : Str → Str) (today : date) (now : ptime)
    (input : Str) (cbd : date) (dow : Nat) (r : time_period)
    (h : parseIntervalTry strings today now input cbd dow = .ok r) :
    ∃ b e, validateInterval b e = .ok r := by
  unfold parseIntervalTry at h
  obtain ⟨⟨b, e⟩, _, h2⟩ := except_bind_ok _ _ _ h
  exact ⟨b, e, h2⟩

theorem parseInterval_ok (strings : Str → Str) (today : date) (now : ptime)
    (input : Str) (W : time_period) (r : time_period)
    (h : parseInterval strings today now input W = .ok r) :
    ∃ cbd dow, W.begin.date = .ok cbd ∧ cbd.day_of_week = .ok dow ∧
      parseIntervalTry strings today now input cbd dow = .ok r := by
  unfold parseInterval at h
  obtain ⟨cbd, h1, h⟩ := except_bind_ok _ _ _ h
  obtain ⟨dow, h2, h⟩ := except_bind_ok _ _ _ h
  refine ⟨cbd, dow, h1, h2, ?_⟩
  split at h
  · rename_i p hp
    rw [hp]
    exact h
  · cases h

theorem indexOfChar_of_not_mem (c : Char) (s : Str) (h : c ∉ s) : indexOfChar c s = none := by
  induction s with
  | nil => rfl
  | cons x xs ih =>
    have hx : x ≠ c := fun e => h (by rw [e]; exact List.mem_cons_self _ _)
    have hxs : c ∉ xs := fun e => h (List.mem_cons_of_mem _ e)
    simp [indexOfChar, hx, ih hxs]

theorem indexOfChar_of_mem (c : Char) (s : Str) (h : c ∈ s) :
    indexOfChar c s = some (beforeFirst c s).length ∧
      s.take (beforeFirst c s).length = beforeFirst c s ∧
      s.drop ((beforeFirst c s).length + 1) = afterFirst c s := by
  induction s with
  | nil => cases h
  | cons x xs ih =>
    by_cases hx : x = c
    · subst hx
      simp [indexOfChar, beforeFirst, afterFirst]
    · have hxs : c ∈ xs := by
        rcases List.mem_cons.1 h with e | e
        · exact absurd e.symm hx
        · exact e
      obtain ⟨i1, i2, i3⟩ := ih hxs
      unfold beforeFirst afterFirst at *
      simp [indexOfChar, hx, i1, i2, i3]

theorem find_of_not_mem (c : Char) (s : Str) (h : c ∉ s) : find s c 0 = -1 := by
  unfold find
  simp [indexOfChar_of_not_mem c s h]

theorem find_of_mem (c : Char) (s : Str) (h : c ∈ s) :
    find s c 0 = ((beforeFirst c s).length : Int) := by
  unfold find
  simp [(indexOfChar_of_mem c s h).1]

theorem find_ne_iff (c : Char) (s : Str) : find s c 0 ≠ -1 ↔ c ∈ s := by
  constructor
  · intro h
    by_contra hc
    exact h (find_of_not_mem c s hc)
  · intro h
    rw [find_of_mem c s h]
    omega

theorem substr_find (c : Char) (s : Str) : substr s 0 (find s c 0) = beforeFirst c s := by
  by_cases h : c ∈ s
  · rw [find_of_mem c s h]
    unfold substr
    rw [if_neg (by omega)]
    simpa using (indexOfChar_of_mem c s h).2.1
  · rw [find_of_not_mem c s h]
    unfold substr beforeFirst
    simp only [Int.reduceNeg, Int.reduceLT, if_true, Int.toNat_zero, List.drop_zero]
    symm
    rw [List.takeWhile_eq_self_iff]
    intro x hx
    simp only [Bool.not_eq_true', decide_eq_false_iff_not]
    intro e
    exact h (e ▸ hx)

theorem substrFrom_find_of_mem (c : Char) (s : Str) (h : c ∈ s) :
    substrFrom s (find s c 0 + 1) = afterFirst c s := by
  rw [find_of_mem c s h]
  unfold substrFrom
  have : ((beforeFirst c s).length + 1 : Int).toNat = (beforeFirst c s).length + 1 := by omega
  rw [this]
  exact (indexOfChar_of_mem c s h).2.2

theorem substrFrom_find_of_not_mem (c : Char) (s : Str) (h : c ∉ s) :
    substrFrom s (find s c 0 + 1) = s := by
  rw [find_of_not_mem c s h]
  rfl

theorem mem_of_mem_trim (c : Char) (s : Str) (h : c ∈ trim s) : c ∈ s := by
  unfold trim trim_left trim_right at h
  have h1 := (List.dropWhile_sublist isspace).mem h
  have h2 := (List.dropWhile_sublist isspace).mem (List.mem_reverse.1 h1)
  exact List.mem_reverse.1 h2

theorem mem_dropWhile_of_not (p : Char → Bool) (c : Char) (s : Str) (h : c ∈ s)
    (hc : p c = false) : c ∈ s.dropWhile p := by
  induction s with
  | nil => cases h
  | cons x xs ih =>
    by_cases hx : p x = true
    · rw [List.dropWhile_cons_of_pos hx]
      rcases List.mem_cons.1 h with e | e
      · rw [e, hx] at hc
        cases hc
      · exact ih e
    · rw [List.dropWhile_cons_of_neg hx]
      exact h

theorem mem_trim_of_mem (c : Char) (s : Str) (h : c ∈ s) (hc : isspace c = false) :
    c ∈ trim s := by
  unfold trim trim_left trim_right
  apply mem_dropWhile_of_not _ _ _ _ hc
  apply List.mem_reverse.2
  apply mem_dropWhile_of_not _ _ _ _ hc
  exact List.mem_reverse.2 h

theorem parseIntervalTry_not_a_date_time :
    validateInterval not_a_date_time not_a_date_time = .error .InvalidIntervalException := by
  decide

theorem parseInterval_error_of_try (strings : Str → Str) (today : date) (now : ptime)
    (input : Str) (W : time_period)
    (h : ∀ cbd dow, ∃ e, parseIntervalTry strings today now input cbd dow = .error e) :
    ∀ r, parseInterval strings today now input W ≠ .ok r := by
  intro r hr
  obtain ⟨cbd, dow, _, _, h3⟩ := parseInterval_ok _ _ _ _ _ _ hr
  obtain ⟨e, he⟩ := h cbd dow
  rw [he] at h3
  cases h3

theorem defaultStrings_today : defaultStrings "today".toList = "today".toList := by decide
theorem defaultStrings_prev : defaultStrings "prev".toList = "prev".toList := by decide
theorem defaultStrings_this : defaultStrings "this".toList = "this".toList := by decide
theorem defaultStrings_next : defaultStrings "next".toList = "next".toList := by decide
theorem defaultStrings_day : defaultStrings "day".toList = "day".toList := by decide
theorem defaultStrings_week : defaultStrings "week".toList = "week".toList := by decide

/-- The shortcut branch of `parseInterval`, reached when the trimmed input has neither
`'-'` nor `'/'`. -/
theorem parseIntervalTry_shortcut (strings : Str → Str) (today : date) (now : ptime)
    (input : Str) (cbd : date) (dow : Nat)
    (h1 : '-' ∉ trim input) (h2 : '/' ∉ trim input) :
    parseIntervalTry strings today now input cbd dow =
      ((if beforeFirst ' ' (trim input) = strings "today".toList then
        (.ok (ptime.of_date today, (ptime.of_date today).add (hours 24)) : Except Exn (ptime × ptime))
      else if beforeFirst ' ' (trim input) = strings "prev".toList then
        (if substrFrom (trim input) (find (trim input) ' ' 0 + 1) = strings "day".toList then
          .ok (ptime.of_date (cbd.add_days (-1)), (ptime.of_date (cbd.add_days (-1))).add (hours 24))
        else if substrFrom (trim input) (find (trim input) ' ' 0 + 1) = strings "week".toList then
          .ok (ptime.of_date ((cbd.add_days (-(dow : Int))).add_days (-7)),
            (ptime.of_date ((cbd.add_days (-(dow : Int))).add_days (-7))).add ⟨(hours 24).ticks * 7⟩)
        else .ok (not_a_date_time, not_a_date_time))
      else if beforeFirst ' ' (trim input) = strings "this".toList then
        (if substrFrom (trim input) (find (trim input) ' ' 0 + 1) = strings "day".toList then
          .ok (ptime.of_date cbd, (ptime.of_date cbd).add (hours 24))
        else if substrFrom (trim input) (find (trim input) ' ' 0 + 1) = strings "week".toList then
          .ok (ptime.of_date (cbd.add_days (-(dow : Int))),
            (ptime.of_date (cbd.add_days (-(dow : Int)))).add ⟨(hours 24).ticks * 7⟩)
        else .ok (not_a_date_time, not_a_date_time))
      else if beforeFirst ' ' (trim input) = strings "next".toList then
        (if substrFrom (trim input) (find (trim input) ' ' 0 + 1) = strings "day".toList then
          .ok (ptime.of_date (cbd.add_days 1), (ptime.of_date (cbd.add_days 1)).add (hours 24))
        else if substrFrom (trim input) (find (trim input) ' ' 0 + 1) = strings "week".toList then
          .ok (ptime.of_date ((cbd.add_days (-(dow : Int))).add_days 7),
            (ptime.of_date ((cbd.add_days (-(dow : Int))).add_days 7)).add ⟨(hours 24).ticks * 7⟩)
        else .ok (not_a_date_time, not_a_date_time))
      else .error .InvalidIntervalException) >>= fun be => validateInterval be.1 be.2) := by
  unfold parseIntervalTry
  simp only [find_of_not_mem _ _ h1, find_of_not_mem _ _ h2, ne_eq, not_true_eq_false, if_false]
  rw [← substr_find ' ' (trim input)]
  rfl

/-- C1: whenever `parseInterval` returns an interval, its begin is not after its end and
both ends lie between `min_date_time` and `max_date_time`; so an input whose sides give
`begin > end` never yields an interval. -/
theorem C1_parseInterval_validated (strings : Str → Str) (today : date) (now : ptime)
    (input : Str) (W r : time_period)
    (h : parseInterval strings today now input W = .ok r) :
    r.begin ≤ r.end_ ∧ min_date_time ≤ r.begin ∧ r.begin ≤ max_date_time ∧
      min_date_time ≤ r.end_ ∧ r.end_ ≤ max_date_time := by
  obtain ⟨cbd, dow, _, _, h3⟩ := parseInterval_ok _ _ _ _ _ _ h
  obtain ⟨b, e, hv⟩ := parseIntervalTry_validated _ _ _ _ _ _ _ h3
  obtain ⟨hr, c1, c2, c3, c4, c5⟩ := validateInterval_ok b e r hv
  have hmin := min_date_time_eq
  have hmax := max_date_time_eq
  have c4' := c4
  have c5' := c5
  rw [hmin, ptime_le_iff] at c4'
  rw [hmax, ptime_le_iff] at c5'
  dsimp only at c4' c5'
  obtain ⟨e1, e2⟩ := of_begin_end_ends b e (by omega) (by omega)
  rw [hr, e1, e2]
  exact ⟨c1, c2, c3, c4, c5⟩

/-- C1, at "3/15-3/20" (returned, and validated) and at "3/20 - 3/15" (rejected). -/
theorem C1_parseInterval_validated_witness :
    parseInterval defaultStrings sampleDay sampleNow "3/15-3/20".toList sampleInterval
        = .ok (time_period.of_begin_end (atTime 2011 3 15 0 0) (atTime 2011 3 20 0 0)) ∧
      ((time_period.of_begin_end (atTime 2011 3 15 0 0) (atTime 2011 3 20 0 0)).begin
          ≤ (time_period.of_begin_end (atTime 2011 3 15 0 0) (atTime 2011 3 20 0 0)).end_ ∧
        min_date_time ≤ (time_period.of_begin_end (atTime 2011 3 15 0 0) (atTime 2011 3 20 0 0)).begin ∧
        (time_period.of_begin_end (atTime 2011 3 15 0 0) (atTime 2011 3 20 0 0)).begin ≤ max_date_time ∧
        min_date_time ≤ (time_period.of_begin_end (atTime 2011 3 15 0 0) (atTime 2011 3 20 0 0)).end_ ∧
        (time_period.of_begin_end (atTime 2011 3 15 0 0) (atTime 2011 3 20 0 0)).end_ ≤ max_date_time) ∧
      parseInterval defaultStrings sampleDay sampleNow "3/20 - 3/15".toList sampleInterval
        = .error .std_exception :=
  ⟨by decide,
   C1_parseInterval_validated defaultStrings sampleDay sampleNow "3/15-3/20".toList
     sampleInterval _ (by decide),
   by decide⟩

/-- C6: with the literal string table, an input without `'-'` and `'/'` whose first word is
"prev", "this" or "next" and whose second word (the text after the first space) is neither
"day" nor "week" makes the `try` block throw `InvalidIntervalException`, and
`parseInterval` returns no interval. -/
theorem C6_unknown_second_word_fails (today : date) (now : ptime) (input : Str)
    (W : time_period) (h1 : '-' ∉ input) (h2 : '/' ∉ input)
    (hfw : beforeFirst ' ' (trim input) = "prev".toList ∨
      beforeFirst ' ' (trim input) = "this".toList ∨
      beforeFirst ' ' (trim input) = "next".toList)
    (hsw : afterFirst ' ' (trim input) ≠ "day".toList ∧
      afterFirst ' ' (trim input) ≠ "week".toList) :
    (∀ cbd dow, parseIntervalTry defaultStrings today now input cbd dow
        = .error .InvalidIntervalException) ∧
      (∃ e, parseInterval defaultStrings today now input W = .error e) ∧
      ∀ r, parseInterval defaultStrings today now input W ≠ .ok r := by
  have h1' : '-' ∉ trim input := fun h => h1 (mem_of_mem_trim _ _ h)
  have h2' : '/' ∉ trim input := fun h => h2 (mem_of_mem_trim _ _ h)
  have hsw' : substrFrom (trim input) (find (trim input) ' ' 0 + 1) ≠ "day".toList ∧
      substrFrom (trim input) (find (trim input) ' ' 0 + 1) ≠ "week".toList := by
    by_cases hsp : ' ' ∈ trim input
    · rw [substrFrom_find_of_mem _ _ hsp]
      exact hsw
    · rw [substrFrom_find_of_not_mem _ _ hsp]
      have hb : beforeFirst ' ' (trim input) = trim input := by
        rw [← substr_find, find_of_not_mem _ _ hsp]
        rfl
      rw [hb] at hfw
      rcases hfw with e | e | e <;> rw [e] <;> decide
  have key : ∀ cbd dow, parseIntervalTry defaultStrings today now input cbd dow
      = .error .InvalidIntervalException := by
    intro cbd dow
    rw [parseIntervalTry_shortcut _ _ _ _ _ _ h1' h2']
    simp only [defaultStrings_today, defaultStrings_prev, defaultStrings_this,
      defaultStrings_next, defaultStrings_day, defaultStrings_week]
    rcases hfw with e | e | e
    · rw [e, if_neg (by decide), if_pos rfl, if_neg hsw'.1, if_neg hsw'.2]
      exact parseIntervalTry_not_a_date_time
    · rw [e, if_neg (by decide), if_neg (by decide), if_pos rfl, if_neg hsw'.1, if_neg hsw'.2]
      exact parseIntervalTry_not_a_date_time
    · rw [e, if_neg (by decide), if_neg (by decide), if_neg (by decide), if_pos rfl,
        if_neg hsw'.1, if_neg hsw'.2]
      exact parseIntervalTry_not_a_date_time
  have hno := parseInterval_error_of_try defaultStrings today now input W
    (fun cbd dow => ⟨_, key cbd dow⟩)
  refine ⟨key, ?_, hno⟩
  cases hp : parseInterval defaultStrings today now input W with
  | error e => exact ⟨e, rfl⟩
  | ok r => exact absurd hp (hno r)

/-- C6 at the inputs "prev month", "next" and "this year". -/
theorem C6_unknown_second_word_fails_witness :
    ('-' ∉ "prev month".toList ∧ '/' ∉ "prev month".toList ∧
      (beforeFirst ' ' (trim "prev month".toList) = "prev".toList ∨
        beforeFirst ' ' (trim "prev month".toList) = "this".toList ∨
        beforeFirst ' ' (trim "prev month".toList) = "next".toList) ∧
      (afterFirst ' ' (trim "prev month".toList) ≠ "day".toList ∧
        afterFirst ' ' (trim "prev month".toList) ≠ "week".toList)) ∧
    ((∀ cbd dow, parseIntervalTry defaultStrings sampleDay sampleNow "prev month".toList cbd dow
        = .error .InvalidIntervalException) ∧
      (∃ e, parseInterval defaultStrings sampleDay sampleNow "prev month".toList sampleInterval
        = .error e) ∧
      ∀ r, parseInterval defaultStrings sampleDay sampleNow "prev month".toList sampleInterval
        ≠ .ok r) ∧
    parseInterval defaultStrings sampleDay sampleNow "next".toList sampleInterval
      = .error .std_exception ∧
    parseInterval defaultStrings sampleDay sampleNow "this year".toList sampleInterval
      = .error .std_exception :=
  ⟨⟨by decide, by decide, by decide, by decide⟩,
   C6_unknown_second_word_fails sampleDay sampleNow "prev month".toList sampleInterval
     (by decide) (by decide) (by decide) (by decide),
   by decide, by decide⟩

/-- C7: with the literal string table, an input without `'-'` and `'/'` whose first word
(the trimmed text up to its first space) is none of "today", "prev", "this", "next" makes
the `try` block throw `InvalidIntervalException`, and `parseInterval` returns no interval;
the empty input is such an input. -/
theorem C7_unknown_first_word_fails (today : date) (now : ptime) (input : Str)
    (W : time_period) (h1 : '-' ∉ input) (h2 : '/' ∉ input)
    (hfw : beforeFirst ' ' (trim input) ≠ "today".toList ∧
      beforeFirst ' ' (trim input) ≠ "prev".toList ∧
      beforeFirst ' ' (trim input) ≠ "this".toList ∧
      beforeFirst ' ' (trim input) ≠ "next".toList) :
    (∀ cbd dow, parseIntervalTry defaultStrings today now input cbd dow
        = .error .InvalidIntervalException) ∧
      (∃ e, parseInterval defaultStrings today now input W = .error e) ∧
      ∀ r, parseInterval defaultStrings today now input W ≠ .ok r := by
  have h1' : '-' ∉ trim input := fun h => h1 (mem_of_mem_trim _ _ h)
  have h2' : '/' ∉ trim input := fun h => h2 (mem_of_mem_trim _ _ h)
  have key : ∀ cbd dow, parseIntervalTry defaultStrings today now input cbd dow
      = .error .InvalidIntervalException := by
    intro cbd dow
    rw [parseIntervalTry_shortcut _ _ _ _ _ _ h1' h2']
    simp only [defaultStrings_today, defaultStrings_prev, defaultStrings_this,
      defaultStrings_next]
    rw [if_neg hfw.1, if_neg hfw.2.1, if_neg hfw.2.2.1, if_neg hfw.2.2.2]
    rfl
  have hno := parseInterval_error_of_try defaultStrings today now input W
    (fun cbd dow => ⟨_, key cbd dow⟩)
  refine ⟨key, ?_, hno⟩
  cases hp : parseInterval defaultStrings today now input W with
  | error e => exact ⟨e, rfl⟩
  | ok r => exact absurd hp (hno r)

/-- C7 at the empty input, and at "tomorrow" and "day next". -/
theorem C7_unknown_first_word_fails_witness :
    ('-' ∉ ([] : Str) ∧ '/' ∉ ([] : Str) ∧
      (beforeFirst ' ' (trim []) ≠ "today".toList ∧ beforeFirst ' ' (trim []) ≠ "prev".toList ∧
        beforeFirst ' ' (trim []) ≠ "this".toList ∧ beforeFirst ' ' (trim []) ≠ "next".toList)) ∧
    ((∀ cbd dow, parseIntervalTry defaultStrings sampleDay sampleNow [] cbd dow
        = .error .InvalidIntervalException) ∧
      (∃ e, parseInterval defaultStrings sampleDay sampleNow [] sampleInterval = .error e) ∧
      ∀ r, parseInterval defaultStrings sampleDay sampleNow [] sampleInterval ≠ .ok r) ∧
    parseInterval defaultStrings sampleDay sampleNow "tomorrow".toList sampleInterval
      = .error .std_exception ∧
    parseInterval defaultStrings sampleDay sampleNow "day next".toList sampleInterval
      = .error .std_exception :=
  ⟨⟨by decide, by decide, by decide⟩,
   C7_unknown_first_word_fails sampleDay sampleNow [] sampleInterval
     (by decide) (by decide) (by decide),
   by decide, by decide⟩

/-- C8: `parseDateTime` maps "<" to `min_date_time` and ">" to `max_date_time`, whatever
the default time, the default year, today and the clock are. -/
theorem C8_sentinels (now : ptime) (defaultTime : time_duration) (defaultYear : Int)
    (today : date) :
    parseDateTime now "<".toList defaultTime defaultYear today = .ok min_date_time ∧
      parseDateTime now ">".toList defaultTime defaultYear today = .ok max_date_time := by
  constructor
  · unfold parseDateTime
    rw [if_pos rfl]
  · unfold parseDateTime
    rw [if_neg (by decide), if_pos rfl]

theorem frac_sec_per_day_eq : frac_sec_per_day = 86400000000 := rfl

/-- The date of an ordinary time point that lies between `min_date_time` and
`max_date_time`: a valid calendar date, whose day number is the tick count divided by the
ticks per day. -/
theorem date_in_range (t : ptime) (h1 : min_date_time ≤ t) (h2 : t ≤ max_date_time) :
    ∃ ymd : ymd_type, ymd.valid ∧ from_day_number (day_number ymd) = .ok ymd ∧
      t.date = .ok ⟨day_number ymd⟩ ∧
      (day_number ymd : Int) = t.time_count / 86400000000 := by
  obtain ⟨s1, s2, s3⟩ := not_special_of_range t h1 h2
  rw [min_date_time_eq, ptime_le_iff] at h1
  rw [max_date_time_eq, ptime_le_iff] at h2
  dsimp only at h1 h2
  have hdiv : Int.tdiv t.time_count frac_sec_per_day = t.time_count / 86400000000 := by
    rw [frac_sec_per_day_eq, Int.tdiv_eq_ediv (by omega) (by omega)]
  have hn : ((t.time_count / 86400000000) % 4294967296).toNat
      = (t.time_count / 86400000000).toNat := by
    omega
  obtain ⟨ymd, hf, hv, hdn⟩ := from_day_number_in_range (t.time_count / 86400000000).toNat
    (by omega) (by omega)
  refine ⟨ymd, hv, ?_, ?_, ?_⟩
  · rw [hdn]; exact hf
  · unfold ptime.date
    rw [if_neg s1, if_neg s2, if_neg s3, hdiv, hn, hf]
    rfl
  · rw [hdn]; omega

theorem parseInterval_of_try (strings : Str → Str) (today : date) (now : ptime)
    (input : Str) (W : time_period) (d : date) (k : Nat) (r : time_period)
    (hd : W.begin.date = .ok d) (hk : d.day_of_week = .ok k)
    (h : parseIntervalTry strings today now input d k = .ok r) :
    parseInterval strings today now input W = .ok r := by
  unfold parseInterval
  rw [hd]
  simp only [bind, Except.bind, hk, h]

theorem add_days_eq (n : Nat) (j : Int) (h1 : 1 ≤ n) (h2 : n < 4294967294)
    (h3 : 0 ≤ (n : Int) + j) (h4 : (n : Int) + j < 4294967296) :
    (⟨n⟩ : date).add_days j = ⟨((n : Int) + j).toNat⟩ := by
  unfold date.add_days date.is_special
  have e1 : n ≠ 0 := by omega
  have e2 : n ≠ 4294967295 := by omega
  have e3 : n ≠ 4294967294 := by omega
  simp only [e1, e2, e3, or_self, decide_False, Bool.false_eq_true, if_false]
  congr 1
  omega

theorem of_date_eq (n : Nat) (h1 : 1 ≤ n) (h2 : n < 4294967294) :
    ptime.of_date ⟨n⟩ = midnight n := by
  unfold ptime.of_date ptime.of_date_time midnight
  have e1 : n ≠ 0 := by omega
  have e2 : n ≠ 4294967295 := by omega
  have e3 : n ≠ 4294967294 := by omega
  simp only [e1, e2, e3, if_false]
  apply ptime_ext
  simp [time_duration.of_hms]

theorem midnight_add_days (n j : Int) (h1 : 0 ≤ n) (h2 : n < 100000000) :
    (midnight n).add ⟨(hours 24).ticks * j⟩ = midnight (n + j) := by
  rw [add_of_range _ _ (by simp only [midnight, frac_sec_per_day]; omega)
    (by simp only [midnight, frac_sec_per_day]; omega)]
  apply ptime_ext
  rw [hours_ticks 24 (by omega)]
  simp only [midnight, frac_sec_per_day]
  ring

theorem midnight_add_day (n : Int) (h1 : 0 ≤ n) (h2 : n < 100000000) :
    (midnight n).add (hours 24) = midnight (n + 1) := by
  have h := midnight_add_days n 1 h1 h2
  rw [mul_one] at h
  exact h

theorem day_of_week_lt (d : date) (k : Nat) (h : d.day_of_week = .ok k) : k < 7 := by
  unfold date.day_of_week at h
  obtain ⟨ymd, _, h2⟩ := except_bind_ok _ _ _ h
  cases h2
  unfold TimeField.day_of_week
  dsimp only
  omega

theorem midnight_le_iff (a b : Int) : midnight a ≤ midnight b ↔ a ≤ b := by
  rw [ptime_le_iff]
  simp only [midnight, frac_sec_per_day]
  omega

theorem min_le_midnight_iff (a : Int) : min_date_time ≤ midnight a ↔ 2232400 ≤ a := by
  rw [min_date_time_eq, ptime_le_iff]
  simp only [midnight, frac_sec_per_day]
  omega

theorem midnight_le_max_iff (a : Int) : midnight a ≤ max_date_time ↔ a ≤ 5373484 := by
  rw [max_date_time_eq, ptime_le_iff]
  simp only [midnight, frac_sec_per_day]
  omega

/-- An interval of whole days that lies between `min_date_time` and `max_date_time`
passes the validation and is returned with exactly these ends. -/
theorem validate_midnights (a b : Int) (hab : a ≤ b) (h1 : 2232400 ≤ a) (h2 : b ≤ 5373484) :
    ∃ r, validateInterval (midnight a) (midnight b) = .ok r ∧ r.begin = midnight a ∧
      r.end_ = midnight b := by
  refine ⟨_, validateInterval_of _ _ ((midnight_le_iff a b).2 hab)
    ((min_le_midnight_iff a).2 h1) ((midnight_le_max_iff b).2 h2), ?_⟩
  exact of_begin_end_ends _ _ (by simp only [midnight, frac_sec_per_day]; omega)
    (by simp only [midnight, frac_sec_per_day]; omega)

theorem try_prev_day (today : date) (now : ptime) (d : date) (k : Nat) :
    parseIntervalTry defaultStrings today now "prev day".toList d k =
      validateInterval (ptime.of_date (d.add_days (-1)))
        ((ptime.of_date (d.add_days (-1))).add (hours 24)) := by
  rw [parseIntervalTry_shortcut _ _ _ _ _ _ (by decide) (by decide),
    if_neg (by decide), if_pos (by decide), if_pos (by decide)]
  rfl

theorem try_this_day (today : date) (now : ptime) (d : date) (k : Nat) :
    parseIntervalTry defaultStrings today now "this day".toList d k =
      validateInterval (ptime.of_date d) ((ptime.of_date d).add (hours 24)) := by
  rw [parseIntervalTry_shortcut _ _ _ _ _ _ (by decide) (by decide),
    if_neg (by decide), if_neg (by decide), if_pos (by decide), if_pos (by decide)]
  rfl

theorem try_next_day (today : date) (now : ptime) (d : date) (k : Nat) :
    parseIntervalTry defaultStrings today now "next day".toList d k =
      validateInterval (ptime.of_date (d.add_days 1))
        ((ptime.of_date (d.add_days 1)).add (hours 24)) := by
  rw [parseIntervalTry_shortcut _ _ _ _ _ _ (by decide) (by decide),
    if_neg (by decide), if_neg (by decide), if_neg (by decide), if_pos (by decide),
    if_pos (by decide)]
  rfl

theorem try_prev_week (today : date) (now : ptime) (d : date) (k : Nat) :
    parseIntervalTry defaultStrings today now "prev week".toList d k =
      validateInterval (ptime.of_date ((d.add_days (-(k : Int))).add_days (-7)))
        ((ptime.of_date ((d.add_days (-(k : Int))).add_days (-7))).add
          ⟨(hours 24).ticks * 7⟩) := by
  rw [parseIntervalTry_shortcut _ _ _ _ _ _ (by decide) (by decide),
    if_neg (by decide), if_pos (by decide), if_neg (by decide), if_pos (by decide)]
  rfl

theorem try_this_week (today : date) (now : ptime) (d : date) (k : Nat) :
    parseIntervalTry defaultStrings today now "this week".toList d k =
      validateInterval (ptime.of_date (d.add_days (-(k : Int))))
        ((ptime.of_date (d.add_days (-(k : Int)))).add ⟨(hours 24).ticks * 7⟩) := by
  rw [parseIntervalTry_shortcut _ _ _ _ _ _ (by decide) (by decide),
    if_neg (by decide), if_neg (by decide), if_pos (by decide), if_neg (by decide),
    if_pos (by decide)]
  rfl

theorem try_next_week (today : date) (now : ptime) (d : date) (k : Nat) :
    parseIntervalTry defaultStrings today now "next week".toList d k =
      validateInterval (ptime.of_date ((d.add_days (-(k : Int))).add_days 7))
        ((ptime.of_date ((d.add_days (-(k : Int))).add_days 7)).add
          ⟨(hours 24).ticks * 7⟩) := by
  rw [parseIntervalTry_shortcut _ _ _ _ _ _ (by decide) (by decide),
    if_neg (by decide), if_neg (by decide), if_neg (by decide), if_pos (by decide),
    if_neg (by decide), if_pos (by decide)]
  rfl

/-- The begin computed for a shortcut phrase: the date `n`, moved by `i` and then by `j`
days, at midnight, and the end `len` days later. -/
theorem shifted_interval (n : Nat) (i j len : Int)
    (h1 : 2232400 ≤ (n : Int) + i + j) (h2 : (n : Int) + i + j + len ≤ 5373484)
    (hn1 : 1 ≤ n) (hn2 : n < 4294967294) (hi1 : 1 ≤ (n : Int) + i)
    (hi2 : (n : Int) + i < 4294967294) (hlen : 0 ≤ len) :
    ∃ r, validateInterval (ptime.of_date (((⟨n⟩ : date).add_days i).add_days j))
        ((ptime.of_date (((⟨n⟩ : date).add_days i).add_days j)).add ⟨(hours 24).ticks * len⟩)
          = .ok r ∧
      r.begin = midnight ((n : Int) + i + j) ∧ r.end_ = midnight ((n : Int) + i + j + len) := by
  rw [add_days_eq n i hn1 hn2 (by omega) (by omega),
    add_days_eq _ j (by omega) (by omega) (by omega) (by omega),
    of_date_eq _ (by omega) (by omega)]
  have e : (((((n : Int) + i).toNat : Int) + j).toNat : Int) = (n : Int) + i + j := by omega
  rw [e, midnight_add_days _ _ (by omega) (by omega)]
  exact validate_midnights _ _ (by omega) h1 h2

theorem from_day_number_checked (n : Nat) (ymd : ymd_type) (h : from_day_number n = .ok ymd) :
    ymd.checked := by
  unfold from_day_number at h
  dsimp only at h
  split_ifs at h with c1 c2 c3
  cases h
  exact ⟨c1.1, c1.2, c2.1, c2.2, c3.1, c3.2⟩

/-- What `ptime::date` returns is a special date or the day number of a range-checked
triple. -/
theorem date_ok_cases (t : ptime) (d : date) (h : t.date = .ok d) :
    d.is_special = true ∨ ∃ ymd : ymd_type, ymd.checked ∧ d = ⟨day_number ymd⟩ := by
  unfold ptime.date at h
  split_ifs at h with c1 c2 c3
  · left; rw [← Except.ok.inj h]; simp [date.is_special]
  · left; rw [← Except.ok.inj h]; simp [date.is_special]
  · left; rw [← Except.ok.inj h]; simp [date.is_special]
  · right
    obtain ⟨ymd, h1, h2⟩ := except_bind_ok _ _ _ h
    exact ⟨ymd, from_day_number_checked _ _ h1, (Except.ok.inj h2).symm⟩

theorem day_of_week_of_range (n : Nat) (h1 : 2232400 ≤ n) (h2 : n ≤ 5373484) :
    (⟨n⟩ : date).day_of_week = .ok ((n + 1) % 7) := by
  obtain ⟨ymd, hf, hv, hdn⟩ := from_day_number_in_range n h1 h2
  unfold date.day_of_week date.year_month_day
  dsimp only
  rw [hf]
  show Except.ok (TimeField.day_of_week ymd) = _
  rw [day_of_week_eq ymd (valid_checked ymd hv), hdn]

theorem year_month_day_of_valid (ymd : ymd_type) (hv : ymd.valid) :
    (⟨day_number ymd⟩ : date).year_month_day = .ok ymd :=
  from_day_number_day_number ymd hv

theorem date_midnight (n : Nat) (r : Int) (h1 : 2232400 ≤ n) (h2 : n ≤ 5373484)
    (hr1 : 0 ≤ r) (hr2 : r < 86400000000) :
    (⟨(n : Int) * 86400000000 + r⟩ : ptime).date = .ok ⟨n⟩ := by
  have hmin : min_date_time ≤ (⟨(n : Int) * 86400000000 + r⟩ : ptime) := by
    rw [min_date_time_eq, ptime_le_iff]; dsimp only; omega
  have hmax : (⟨(n : Int) * 86400000000 + r⟩ : ptime) ≤ max_date_time := by
    rw [max_date_time_eq, ptime_le_iff]; dsimp only; omega
  obtain ⟨ymd, _, _, hd, hn⟩ := date_in_range _ hmin hmax
  dsimp only at hn
  have : day_number ymd = n := by omega
  rw [hd, this]

theorem special_add_days (d : date) (j : Int) (h : d.is_special = true) :
    d.add_days j = d := by
  unfold date.add_days
  rw [if_pos h]

theorem of_date_special (d : date) (h : d.is_special = true) :
    (ptime.of_date d).is_special = true := by
  unfold date.is_special at h
  unfold ptime.of_date ptime.of_date_time
  simp only [decide_eq_true_eq] at h
  rcases h with h | h | h <;> rw [h] <;>
    simp [ptime.is_special, not_a_date_time, pos_infin, neg_infin]

theorem special_not_in_range (t : ptime) (h : t.is_special = true) (h1 : min_date_time ≤ t)
    (h2 : t ≤ max_date_time) : False := by
  obtain ⟨s1, s2, s3⟩ := not_special_of_range t h1 h2
  unfold ptime.is_special at h
  simp only [decide_eq_true_eq] at h
  rcases h with h | h | h
  · exact s1 h
  · exact s2 h
  · exact s3 h

theorem shifted_day (n : Nat) (i : Int)
    (h1 : 2232400 ≤ (n : Int) + i) (h2 : (n : Int) + i + 1 ≤ 5373484)
    (hn1 : 1 ≤ n) (hn2 : n < 4294967294) :
    ∃ r, validateInterval (ptime.of_date ((⟨n⟩ : date).add_days i))
        ((ptime.of_date ((⟨n⟩ : date).add_days i)).add (hours 24)) = .ok r ∧
      r.begin = midnight ((n : Int) + i) ∧ r.end_ = midnight ((n : Int) + i + 1) := by
  rw [add_days_eq n i hn1 hn2 (by omega) (by omega), of_date_eq _ (by omega) (by omega)]
  have e : ((((n : Int) + i).toNat : Nat) : Int) = (n : Int) + i := by omega
  rw [e, midnight_add_day _ (by omega) (by omega)]
  exact validate_midnights _ _ (by omega) h1 h2

theorem shifted_week (n : Nat) (i : Int)
    (h1 : 2232400 ≤ (n : Int) + i) (h2 : (n : Int) + i + 7 ≤ 5373484)
    (hn1 : 1 ≤ n) (hn2 : n < 4294967294) :
    ∃ r, validateInterval (ptime.of_date ((⟨n⟩ : date).add_days i))
        ((ptime.of_date ((⟨n⟩ : date).add_days i)).add ⟨(hours 24).ticks * 7⟩) = .ok r ∧
      r.begin = midnight ((n : Int) + i) ∧ r.end_ = midnight ((n : Int) + i + 7) := by
  rw [add_days_eq n i hn1 hn2 (by omega) (by omega), of_date_eq _ (by omega) (by omega)]
  have e : ((((n : Int) + i).toNat : Nat) : Int) = (n : Int) + i := by omega
  rw [e, midnight_add_days _ _ (by omega) (by omega)]
  exact validate_midnights _ _ (by omega) h1 h2

theorem this_day_interval (n : Nat)
    (h1 : 2232400 ≤ (n : Int)) (h2 : (n : Int) + 1 ≤ 5373484) :
    ∃ r, validateInterval (ptime.of_date (⟨n⟩ : date))
        ((ptime.of_date (⟨n⟩ : date)).add (hours 24)) = .ok r ∧
      r.begin = midnight (n : Int) ∧ r.end_ = midnight ((n : Int) + 1) := by
  rw [of_date_eq _ (by omega) (by omega), midnight_add_day _ (by omega) (by omega)]
  exact validate_midnights _ _ (by omega) h1 h2

/-- C3: with `d` the date of the working interval's begin and `k` its weekday (0 = Sunday,
the start of the week), the six shortcut phrases give these intervals of whole days,
whenever the interval lies between `min_date_time` and `max_date_time`:
"prev day" `(d-1, d)`, "this day" `(d, d+1)`, "next day" `(d+1, d+2)`,
"prev week" `(d-k-7, d-k)`, "this week" `(d-k, d-k+7)`, "next week" `(d-k+7, d-k+14)`. -/
theorem C3_relative_shortcuts (today : date) (now : ptime) (W : time_period) (d : date)
    (k : Nat) (hd : W.begin.date = .ok d) (hk : d.day_of_week = .ok k) :
    (min_date_time ≤ midnight ((d.days_ : Int) - 1) → midnight (d.days_ : Int) ≤ max_date_time →
      ∃ r, parseInterval defaultStrings today now "prev day".toList W = .ok r ∧
        r.begin = midnight ((d.days_ : Int) - 1) ∧ r.end_ = midnight (d.days_ : Int)) ∧
    (min_date_time ≤ midnight (d.days_ : Int) → midnight ((d.days_ : Int) + 1) ≤ max_date_time →
      ∃ r, parseInterval defaultStrings today now "this day".toList W = .ok r ∧
        r.begin = midnight (d.days_ : Int) ∧ r.end_ = midnight ((d.days_ : Int) + 1)) ∧
    (min_date_time ≤ midnight ((d.days_ : Int) + 1) →
      midnight ((d.days_ : Int) + 2) ≤ max_date_time →
      ∃ r, parseInterval defaultStrings today now "next day".toList W = .ok r ∧
        r.begin = midnight ((d.days_ : Int) + 1) ∧ r.end_ = midnight ((d.days_ : Int) + 2)) ∧
    (min_date_time ≤ midnight ((d.days_ : Int) - k - 7) →
      midnight ((d.days_ : Int) - k) ≤ max_date_time →
      ∃ r, parseInterval defaultStrings today now "prev week".toList W = .ok r ∧
        r.begin = midnight ((d.days_ : Int) - k - 7) ∧ r.end_ = midnight ((d.days_ : Int) - k)) ∧
    (min_date_time ≤ midnight ((d.days_ : Int) - k) →
      midnight ((d.days_ : Int) - k + 7) ≤ max_date_time →
      ∃ r, parseInterval defaultStrings today now "this week".toList W = .ok r ∧
        r.begin = midnight ((d.days_ : Int) - k) ∧
        r.end_ = midnight ((d.days_ : Int) - k + 7)) ∧
    (min_date_time ≤ midnight ((d.days_ : Int) - k + 7) →
      midnight ((d.days_ : Int) - k + 14) ≤ max_date_time →
      ∃ r, parseInterval defaultStrings today now "next week".toList W = .ok r ∧
        r.begin = midnight ((d.days_ : Int) - k + 7) ∧
        r.end_ = midnight ((d.days_ : Int) - k + 14)) := by
  obtain ⟨n⟩ := d
  have hk7 := day_of_week_lt _ _ hk
  dsimp only
  refine ⟨?_, ?_, ?_, ?_, ?_, ?_⟩
  · intro h1 h2
    rw [min_le_midnight_iff] at h1
    rw [midnight_le_max_iff] at h2
    obtain ⟨r, hr, hb, he⟩ := shifted_day n (-1) (by omega) (by omega) (by omega) (by omega)
    refine ⟨r, parseInterval_of_try _ _ _ _ _ _ _ _ hd hk ?_, ?_, ?_⟩
    · rw [try_prev_day]; exact hr
    · rw [hb]; congr 1
    · rw [he]; congr 1; omega
  · intro h1 h2
    rw [min_le_midnight_iff] at h1
    rw [midnight_le_max_iff] at h2
    obtain ⟨r, hr, hb, he⟩ := this_day_interval n (by omega) (by omega)
    refine ⟨r, parseInterval_of_try _ _ _ _ _ _ _ _ hd hk ?_, hb, he⟩
    rw [try_this_day]; exact hr
  · intro h1 h2
    rw [min_le_midnight_iff] at h1
    rw [midnight_le_max_iff] at h2
    obtain ⟨r, hr, hb, he⟩ := shifted_day n 1 (by omega) (by omega) (by omega) (by omega)
    refine ⟨r, parseInterval_of_try _ _ _ _ _ _ _ _ hd hk ?_, hb, ?_⟩
    · rw [try_next_day]; exact hr
    · rw [he]; congr 1
  · intro h1 h2
    rw [min_le_midnight_iff] at h1
    rw [midnight_le_max_iff] at h2
    obtain ⟨r, hr, hb, he⟩ := shifted_interval n (-(k : Int)) (-7) 7 (by omega) (by omega)
      (by omega) (by omega) (by omega) (by omega) (by omega)
    refine ⟨r, parseInterval_of_try _ _ _ _ _ _ _ _ hd hk ?_, ?_, ?_⟩
    · rw [try_prev_week]; exact hr
    · rw [hb]; congr 1
    · rw [he]; congr 1; omega
  · intro h1 h2
    rw [min_le_midnight_iff] at h1
    rw [midnight_le_max_iff] at h2
    obtain ⟨r, hr, hb, he⟩ := shifted_week n (-(k : Int)) (by omega) (by omega)
      (by omega) (by omega)
    refine ⟨r, parseInterval_of_try _ _ _ _ _ _ _ _ hd hk ?_, ?_, ?_⟩
    · rw [try_this_week]; exact hr
    · rw [hb]; congr 1
    · rw [he]; congr 1
  · intro h1 h2
    rw [min_le_midnight_iff] at h1
    rw [midnight_le_max_iff] at h2
    obtain ⟨r, hr, hb, he⟩ := shifted_interval n (-(k : Int)) 7 7 (by omega) (by omega)
      (by omega) (by omega) (by omega) (by omega) (by omega)
    refine ⟨r, parseInterval_of_try _ _ _ _ _ _ _ _ hd hk ?_, ?_, ?_⟩
    · rw [try_next_week]; exact hr
    · rw [hb]; congr 1
    · rw [he]; congr 1; omega

/-- C3 at the working interval of Saturday 10 December 2011 and the input "next week":
the interval from 11 December 2011 00:00 to 18 December 2011 00:00. -/
theorem C3_relative_shortcuts_witness :
    (sampleInterval.begin.date = .ok sampleDay ∧ sampleDay.day_of_week = .ok 6 ∧
      min_date_time ≤ midnight ((sampleDay.days_ : Int) - (6 : Nat) + 7) ∧
      midnight ((sampleDay.days_ : Int) - (6 : Nat) + 14) ≤ max_date_time) ∧
    ∃ r, parseInterval defaultStrings sampleDay sampleNow "next week".toList sampleInterval
        = .ok r ∧
      r.begin = atTime 2011 12 11 0 0 ∧ r.end_ = atTime 2011 12 18 0 0 := by
  obtain ⟨r, h1, h2, h3⟩ :=
    (C3_relative_shortcuts sampleDay sampleNow sampleInterval sampleDay 6
      (by decide) (by decide)).2.2.2.2.2 (by decide) (by decide)
  exact ⟨⟨by decide, by decide, by decide, by decide⟩,
    r, h1, h2.trans (by decide), h3.trans (by decide)⟩

/-- The interval that `parseInterval` returns for a "week" phrase, read back from a
successful validation: the begin is midnight of a day in the supported range. -/
theorem week_begin_of_ok (d : date) (j : Int) (r : time_period) (b : ptime)
    (hb : b = ptime.of_date (d.add_days j))
    (h : validateInterval b (b.add ⟨(hours 24).ticks * 7⟩) = .ok r)
    (hn : d.is_special = true ∨ (2232400 ≤ d.days_ ∧ d.days_ ≤ 5373484))
    (hj : -7 ≤ j ∧ j ≤ 0) :
    2232400 ≤ (d.days_ : Int) + j ∧ (d.days_ : Int) + j + 7 ≤ 5373484 ∧
      r.begin = midnight ((d.days_ : Int) + j) := by
  obtain ⟨hr, c1, c2, c3, c4, c5⟩ := validateInterval_ok _ _ r h
  rcases hn with hs | ⟨n1, n2⟩
  · exfalso
    rw [special_add_days d j hs] at hb
    have := of_date_special d hs
    rw [← hb] at this
    exact special_not_in_range b this c2 c3
  · obtain ⟨n⟩ := d
    dsimp only at n1 n2 ⊢
    rw [add_days_eq n j (by omega) (by omega) (by omega) (by omega),
      of_date_eq _ (by omega) (by omega)] at hb
    have e : ((((n : Int) + j).toNat : Nat) : Int) = (n : Int) + j := by omega
    rw [e] at hb
    subst hb
    rw [midnight_add_days _ _ (by omega) (by omega)] at c5 hr
    rw [min_le_midnight_iff] at c2
    rw [midnight_le_max_iff] at c5
    refine ⟨c2, c5, ?_⟩
    rw [hr]
    rfl

theorem week_begin_of_ok2 (n : Nat) (i j : Int) (r : time_period)
    (h : validateInterval (ptime.of_date (((⟨n⟩ : date).add_days i).add_days j))
      ((ptime.of_date (((⟨n⟩ : date).add_days i).add_days j)).add ⟨(hours 24).ticks * 7⟩)
        = .ok r)
    (n1 : 2232400 ≤ n) (n2 : n ≤ 5373484) (hi : -7 ≤ i ∧ i ≤ 0) (hj : -7 ≤ j ∧ j ≤ 7) :
    2232400 ≤ (n : Int) + i + j ∧ (n : Int) + i + j + 7 ≤ 5373484 ∧
      r.begin = midnight ((n : Int) + i + j) := by
  rw [add_days_eq n i (by omega) (by omega) (by omega) (by omega),
    add_days_eq _ j (by omega) (by omega) (by omega) (by omega),
    of_date_eq _ (by omega) (by omega)] at h
  have e : (((((n : Int) + i).toNat : Int) + j).toNat : Int) = (n : Int) + i + j := by omega
  rw [e, midnight_add_days _ _ (by omega) (by omega)] at h
  obtain ⟨hr, c1, c2, c3, c4, c5⟩ := validateInterval_ok _ _ r h
  rw [min_le_midnight_iff] at c2
  rw [midnight_le_max_iff] at c5
  refine ⟨c2, c5, ?_⟩
  rw [hr]
  rfl

theorem date_range_of_ok (t : ptime) (d : date) (h : t.date = .ok d) :
    d.is_special = true ∨ (2232400 ≤ d.days_ ∧ d.days_ ≤ 5373484) := by
  rcases date_ok_cases t d h with hs | ⟨ymd, hc, hd⟩
  · exact Or.inl hs
  · right
    rw [hd]
    exact day_number_bounds ymd hc

/-- C4: when both "this week" and "next week" are parsed successfully against the same
working interval, the begin of "this week" falls on weekday 0 (the start of the week) and
the begin of "next week" is exactly 7 days (7 times 24 hours) later. -/
theorem C4_week_alignment (today : date) (now : ptime) (W r1 r2 : time_period)
    (h1 : parseInterval defaultStrings today now "this week".toList W = .ok r1)
    (h2 : parseInterval defaultStrings today now "next week".toList W = .ok r2) :
    (∃ d, r1.begin.date = .ok d ∧ d.day_of_week = .ok 0) ∧
      r2.begin = r1.begin.add ⟨7 * frac_sec_per_day⟩ ∧
      r2.begin.time_count = r1.begin.time_count + 7 * 86400000000 := by
  obtain ⟨d, k, hd, hk, t1⟩ := parseInterval_ok _ _ _ _ _ _ h1
  obtain ⟨d', k', hd', hk', t2⟩ := parseInterval_ok _ _ _ _ _ _ h2
  rw [hd] at hd'
  have hdd : d' = d := (Except.ok.inj hd').symm
  subst hdd
  rw [hk] at hk'
  have hkk : k' = k := (Except.ok.inj hk').symm
  subst hkk
  have hk7 := day_of_week_lt _ _ hk
  have hrange := date_range_of_ok _ _ hd
  rw [try_this_week] at t1
  rw [try_next_week] at t2
  obtain ⟨a1, a2, a3⟩ := week_begin_of_ok d' (-(k' : Int)) r1 _ rfl t1 hrange (by omega)
  rcases hrange with hs | ⟨n1, n2⟩
  · exfalso
    obtain ⟨_, _, c2, c3, _, _⟩ := validateInterval_ok _ _ _ t1
    rw [special_add_days d' _ hs] at c2 c3
    exact special_not_in_range _ (of_date_special d' hs) c2 c3
  · obtain ⟨n⟩ := d'
    dsimp only at n1 n2 a1 a2 a3
    have hkv : k' = (n + 1) % 7 := by
      have := day_of_week_of_range n n1 n2
      rw [hk] at this
      exact (Except.ok.inj this)
    obtain ⟨b1, b2, b3⟩ := week_begin_of_ok2 n (-(k' : Int)) 7 r2 t2 n1 n2 (by omega) (by omega)
    have hm : ((((n : Int) + -(k' : Int)).toNat : Nat) : Int) = (n : Int) + -(k' : Int) := by
      omega
    refine ⟨⟨⟨((n : Int) + -(k' : Int)).toNat⟩, ?_, ?_⟩, ?_, ?_⟩
    · rw [a3]
      have := date_midnight ((n : Int) + -(k' : Int)).toNat 0 (by omega) (by omega)
        (by omega) (by omega)
      rw [hm, add_zero] at this
      exact this
    · rw [day_of_week_of_range _ (by omega) (by omega)]
      congr 1
      omega
    · rw [a3, b3, add_of_range _ _ (by simp only [midnight, frac_sec_per_day]; omega)
        (by simp only [midnight, frac_sec_per_day]; omega)]
      apply ptime_ext
      simp only [midnight, frac_sec_per_day]
      omega
    · rw [a3, b3]
      simp only [midnight, frac_sec_per_day]
      omega

/-- C4 at the working interval of Saturday 10 December 2011: "this week" begins on
Sunday 4 December and "next week" on Sunday 11 December. -/
theorem C4_week_alignment_witness :
    (parseInterval defaultStrings sampleDay sampleNow "this week".toList sampleInterval
        = .ok (time_period.of_begin_end (atTime 2011 12 4 0 0) (atTime 2011 12 11 0 0)) ∧
      parseInterval defaultStrings sampleDay sampleNow "next week".toList sampleInterval
        = .ok (time_period.of_begin_end (atTime 2011 12 11 0 0) (atTime 2011 12 18 0 0))) ∧
    ((∃ d, (time_period.of_begin_end (atTime 2011 12 4 0 0) (atTime 2011 12 11 0 0)).begin.date
        = .ok d ∧ d.day_of_week = .ok 0) ∧
      (time_period.of_begin_end (atTime 2011 12 11 0 0) (atTime 2011 12 18 0 0)).begin
        = (time_period.of_begin_end (atTime 2011 12 4 0 0) (atTime 2011 12 11 0 0)).begin.add
          ⟨7 * frac_sec_per_day⟩ ∧
      (time_period.of_begin_end (atTime 2011 12 11 0 0) (atTime 2011 12 18 0 0)).begin.time_count
        = (time_period.of_begin_end (atTime 2011 12 4 0 0)
            (atTime 2011 12 11 0 0)).begin.time_count + 7 * 86400000000) :=
  ⟨⟨by decide, by decide⟩,
   C4_week_alignment sampleDay sampleNow sampleInterval _ _ (by decide) (by decide)⟩

/-- The explicit-range branch of `parseInterval`, reached when the trimmed input has a
`'-'`: both sides of the first `'-'` are trimmed and given to `parseDateTime` with the
default time `hours(0)` and the year of the working interval's begin. -/
theorem parseIntervalTry_range (strings : Str → Str) (today : date) (now : ptime)
    (input : Str) (cbd : date) (dow : Nat) (h1 : '-' ∈ trim input) :
    parseIntervalTry strings today now input cbd dow =
      ((do
        let y1 ← cbd.year
        let b ← parseDateTime now (trim (beforeFirst '-' (trim input))) (hours 0) y1 today
        let y2 ← cbd.year
        let e ← parseDateTime now (trim (afterFirst '-' (trim input))) (hours 0) y2 today
        pure (b, e) : Except Exn (ptime × ptime)) >>= fun be => validateInterval be.1 be.2) := by
  unfold parseIntervalTry
  simp only [(find_ne_iff '-' (trim input)).2 h1, ne_eq, not_false_eq_true, if_true]
  rw [substr_find, substrFrom_find_of_mem _ _ h1]

/-- C5: for an input that contains `'-'`, the trimmed input is split at its first `'-'`,
both sides are trimmed and parsed by `parseDateTime` with the default time 00:00, the
year of the working interval's begin and today; when both sides parse to `b` and `e`
that pass the validation, `parseInterval` returns exactly the interval from `b` to `e`. -/
theorem C5_explicit_range (strings : Str → Str) (today : date) (now : ptime) (input : Str)
    (W : time_period) (d : date) (k y : Nat) (b e : ptime)
    (hdash : '-' ∈ input)
    (hd : W.begin.date = .ok d) (hk : d.day_of_week = .ok k) (hy : d.year = .ok y)
    (hb : parseDateTime now (trim (beforeFirst '-' (trim input))) (hours 0) y today = .ok b)
    (he : parseDateTime now (trim (afterFirst '-' (trim input))) (hours 0) y today = .ok e)
    (hv : b ≤ e ∧ min_date_time ≤ b ∧ e ≤ max_date_time) :
    ∃ r, parseInterval strings today now input W = .ok r ∧ r.begin = b ∧ r.end_ = e := by
  have h1 : '-' ∈ trim input := mem_trim_of_mem _ _ hdash (by decide)
  obtain ⟨v0, v1, v2⟩ := hv
  have hmin := v1
  have hmax := v2
  rw [min_date_time_eq, ptime_le_iff] at hmin
  rw [max_date_time_eq, ptime_le_iff] at hmax
  rw [ptime_le_iff] at v0
  dsimp only at hmin hmax
  refine ⟨time_period.of_begin_end b e, parseInterval_of_try _ _ _ _ _ _ _ _ hd hk ?_,
    of_begin_end_ends b e (by omega) (by omega)⟩
  rw [parseIntervalTry_range _ _ _ _ _ _ h1]
  simp only [bind, Except.bind, hy, hb, he, pure, Except.pure]
  exact validateInterval_of b e ((ptime_le_iff b e).2 v0) v1 v2

/-- C5 at "< - 3/1/2012" (begin `min_date_time`, end 1 March 2012 00:00) and at
"3/15-3/20" in the year 2011 (15 March 2011 00:00 to 20 March 2011 00:00). -/
theorem C5_explicit_range_witness :
    ('-' ∈ "< - 3/1/2012".toList ∧
      sampleInterval.begin.date = .ok sampleDay ∧ sampleDay.day_of_week = .ok 6 ∧
      sampleDay.year = .ok 2011 ∧
      parseDateTime sampleNow (trim (beforeFirst '-' (trim "< - 3/1/2012".toList))) (hours 0)
        (2011 : Nat) sampleDay = .ok min_date_time ∧
      parseDateTime sampleNow (trim (afterFirst '-' (trim "< - 3/1/2012".toList))) (hours 0)
        (2011 : Nat) sampleDay = .ok (atTime 2012 3 1 0 0) ∧
      (min_date_time ≤ atTime 2012 3 1 0 0 ∧ min_date_time ≤ min_date_time ∧
        atTime 2012 3 1 0 0 ≤ max_date_time)) ∧
    (∃ r, parseInterval defaultStrings sampleDay sampleNow "< - 3/1/2012".toList sampleInterval
        = .ok r ∧ r.begin = min_date_time ∧ r.end_ = atTime 2012 3 1 0 0) ∧
    parseInterval defaultStrings sampleDay sampleNow "3/15-3/20".toList sampleInterval
      = .ok (time_period.of_begin_end (atTime 2011 3 15 0 0) (atTime 2011 3 20 0 0)) ∧
    (time_period.of_begin_end (atTime 2011 3 15 0 0) (atTime 2011 3 20 0 0)).end_
      = atTime 2011 3 20 0 0 :=
  ⟨⟨by decide, by decide, by decide, by decide, by decide, by decide, by decide⟩,
   C5_explicit_range defaultStrings sampleDay sampleNow "< - 3/1/2012".toList sampleInterval
     sampleDay 6 2011 min_date_time (atTime 2012 3 1 0 0)
     (by decide) (by decide) (by decide) (by decide) (by decide) (by decide) (by decide),
   by decide, by decide⟩

theorem isdigit_digitChar (d : Nat) (h : d < 10) : isdigit (digitChar d) = true := by
  interval_cases d <;> decide

theorem natDigits_isdigit (fuel n : Nat) (acc : Str) (h : ∀ c ∈ acc, isdigit c = true) :
    ∀ c ∈ natDigits fuel n acc, isdigit c = true := by
  induction fuel generalizing n acc with
  | zero => exact h
  | succ f ih =>
    have hd := isdigit_digitChar (n % 10) (Nat.mod_lt _ (by omega))
    have hacc : ∀ c ∈ digitChar (n % 10) :: acc, isdigit c = true := by
      intro c hc
      rcases List.mem_cons.1 hc with e | e
      · rw [e]; exact hd
      · exact h c e
    unfold natDigits
    split_ifs
    · exact hacc
    · exact ih _ _ hacc

theorem showNat_isdigit (n : Nat) : ∀ c ∈ showNat n, isdigit c = true :=
  natDigits_isdigit _ _ [] (fun _ h => by cases h)

theorem plainChar_of_isdigit (c : Char) (h : isdigit c = true) : plainChar c = true := by
  unfold isdigit at h
  unfold plainChar
  simp only [decide_eq_true_eq, Bool.decide_and, Bool.and_eq_true] at h ⊢
  constructor <;> intro e <;> rw [e] at h <;> revert h <;> decide

theorem monthShortName_plain (m : Nat) : ∀ c ∈ monthShortName m, plainChar c = true := by
  unfold monthShortName
  split <;> decide

theorem isPrefixOf_mem (pat l : Str) (h : pat.isPrefixOf l = true) : ∀ c ∈ pat, c ∈ l := by
  induction pat generalizing l with
  | nil => intro c hc; cases hc
  | cons p ps ih =>
    cases l with
    | nil => simp [List.isPrefixOf] at h
    | cons x xs =>
      simp only [List.isPrefixOf, Bool.and_eq_true, beq_iff_eq] at h
      intro c hc
      rcases List.mem_cons.1 hc with e | e
      · rw [e, h.1]; exact List.mem_cons_self _ _
      · exact List.mem_cons_of_mem _ (ih xs h.2 c e)

theorem containsStr_mem (s pat : Str) (h : containsStr s pat = true) : ∀ c ∈ pat, c ∈ s := by
  induction s with
  | nil =>
    unfold containsStr at h
    intro c hc
    cases pat with
    | nil => cases hc
    | cons p ps => simp at h
  | cons x xs ih =>
    unfold containsStr at h
    rw [Bool.or_eq_true] at h
    rcases h with h1 | h1
    · exact isPrefixOf_mem _ _ h1
    · intro c hc
      exact List.mem_cons_of_mem _ (ih h1 c hc)

theorem not_containsStr_of_plain (s pat : Str) (c : Char) (hc : c ∈ pat)
    (hp : plainChar c = false) (hs : ∀ x ∈ s, plainChar x = true) :
    containsStr s pat = false := by
  by_contra h
  rw [Bool.not_eq_false] at h
  have := hs c (containsStr_mem s pat h c hc)
  rw [hp] at this
  cases this

theorem getTimeString_of_midnight (t : ptime) (h : t.time_of_day = ⟨0⟩) :
    getTimeString t = " 00:00".toList := by
  unfold getTimeString
  rw [h]
  decide

theorem time_of_day_midnight (n : Int) (h1 : 0 ≤ n) (h2 : n < 100000000) :
    (midnight n).time_of_day = ⟨0⟩ := by
  unfold ptime.time_of_day
  rw [is_special_false _ (by simp only [midnight, frac_sec_per_day]; omega)
    (by simp only [midnight, frac_sec_per_day]; omega)
    (by simp only [midnight, frac_sec_per_day]; omega)]
  simp only [Bool.false_eq_true, if_false, midnight, frac_sec_per_day]
  congr 1
  rw [Int.tmod_eq_emod (by omega) (by omega)]
  omega

theorem ok_bind {α β : Type} (a : α) (f : α → Except Exn β) : (Except.ok a >>= f) = f a := rfl

theorem date_accessors (ymd : ymd_type) (hf : from_day_number (day_number ymd) = .ok ymd) :
    (⟨day_number ymd⟩ : date).day = .ok ymd.day ∧
      (⟨day_number ymd⟩ : date).month = .ok ymd.month ∧
      (⟨day_number ymd⟩ : date).year = .ok ymd.year := by
  unfold date.day date.month date.year date.year_month_day
  dsimp only
  rw [hf]
  exact ⟨rfl, rfl, rfl⟩

theorem getDateTimeString_in_range (t : ptime) (ts : Str) (h1 : min_date_time ≤ t)
    (h2 : t ≤ max_date_time) :
    ∃ ymd : ymd_type, ymd.valid ∧ t.date = .ok ⟨day_number ymd⟩ ∧
      (day_number ymd : Int) = t.time_count / 86400000000 ∧
      getDateTimeString t ts = .ok (if t = min_date_time then "<".toList
        else if t = max_date_time then ">".toList else renderDate ymd ++ ts) := by
  obtain ⟨ymd, hv, hf, hd, hn⟩ := date_in_range t h1 h2
  obtain ⟨a1, a2, a3⟩ := date_accessors ymd hf
  refine ⟨ymd, hv, hd, hn, ?_⟩
  unfold getDateTimeString
  by_cases c1 : t = min_date_time
  · rw [if_pos c1, if_pos c1]
  · rw [if_neg c1, if_neg c1]
    by_cases c2 : t = max_date_time
    · rw [if_pos c2, if_pos c2]
    · rw [if_neg c2, if_neg c2, hd]
      rw [ok_bind, a1, ok_bind, ok_bind, a2, ok_bind, ok_bind, a3, ok_bind]
      rfl

theorem renderDate_plain (ymd : ymd_type) : ∀ c ∈ renderDate ymd, plainChar c = true := by
  intro c hc
  unfold renderDate at hc
  simp only [List.mem_append] at hc
  rcases hc with (((h | h) | h) | h) | h
  · exact plainChar_of_isdigit c (showNat_isdigit _ c h)
  · revert h; revert c; decide
  · exact monthShortName_plain _ c h
  · revert h; revert c; decide
  · exact plainChar_of_isdigit c (showNat_isdigit _ c h)

/-- The formatter on an interval of exactly one whole day in the supported range: the
single-day form, the begin rendered without a time of day. -/
theorem buildIntervalString_one_day (r : time_period) (n : Nat)
    (hb : r.begin = midnight n) (he : r.end_ = midnight ((n : Int) + 1))
    (h1 : 2232400 ≤ n) (h2 : n + 1 ≤ 5373484) :
    ∃ rb, getDateTimeString r.begin [] = .ok rb ∧
      buildIntervalString r = .ok ("[".toList ++ rb ++ "]".toList) ∧
      ∀ c ∈ rb, plainChar c = true ∨ c = '<' := by
  have hbmin : min_date_time ≤ midnight n := (min_le_midnight_iff _).2 (by omega)
  have hbmax : midnight n ≤ max_date_time := (midnight_le_max_iff _).2 (by omega)
  have hemin : min_date_time ≤ midnight ((n : Int) + 1) := (min_le_midnight_iff _).2 (by omega)
  have hemax : midnight ((n : Int) + 1) ≤ max_date_time := (midnight_le_max_iff _).2 (by omega)
  have hbts := getTimeString_of_midnight _ (time_of_day_midnight n (by omega) (by omega))
  have hets := getTimeString_of_midnight _
    (time_of_day_midnight ((n : Int) + 1) (by omega) (by omega))
  obtain ⟨y1, v1, d1, n1, g1⟩ := getDateTimeString_in_range (midnight n) [] hbmin hbmax
  obtain ⟨y2, v2, d2, n2, g2⟩ := getDateTimeString_in_range (midnight ((n : Int) + 1)) []
    hemin hemax
  have e1 : day_number y1 = n := by
    simp only [midnight, frac_sec_per_day] at n1; omega
  have e2 : day_number y2 = n + 1 := by
    simp only [midnight, frac_sec_per_day] at n2; omega
  have hne : midnight ((n : Int) + 1) ≠ max_date_time := by
    rw [max_date_time_eq]
    intro h
    have := congrArg ptime.time_count h
    simp only [midnight, frac_sec_per_day] at this
    omega
  have hadd : (⟨n⟩ : date).add_days 1 = ⟨n + 1⟩ := by
    rw [add_days_eq n 1 (by omega) (by omega) (by omega) (by omega)]
    congr 1
  refine ⟨_, by rw [hb]; exact g1, ?_, ?_⟩
  · unfold buildIntervalString
    dsimp only
    rw [hb, he, hbts, hets]
    have hc : containsStr " 00:00".toList "00:00".toList = true := by decide
    rw [hc]
    simp only [Bool.true_or, Bool.and_self, if_true]
    rw [g1, ok_bind, g2, ok_bind, d1, ok_bind, d2, ok_bind, e1, e2, hadd]
    rw [if_neg (by simp)]
    rfl
  · intro c hc
    by_cases c1 : midnight n = min_date_time
    · rw [if_pos c1] at hc
      right
      simpa using hc
    · rw [if_neg c1] at hc
      by_cases c2 : midnight n = max_date_time
      · exfalso
        rw [max_date_time_eq] at c2
        have := congrArg ptime.time_count c2
        simp only [midnight, frac_sec_per_day] at this
        omega
      · rw [if_neg c2, List.append_nil] at hc
        exact Or.inl (renderDate_plain _ c hc)

theorem toUShort_lt (x : Int) : toUShort x < 65536 := by
  unfold toUShort
  omega

/-- A date built by the constructor `date(year, month, day)` is the day number of a valid
calendar date. -/
theorem of_ints_ok (y m d : Int) (dt : date) (h : date.of_ints y m d = .ok dt) :
    ∃ ymd : ymd_type, ymd.valid ∧ dt = ⟨day_number ymd⟩ ∧ ymd.year = toUShort y ∧
      ymd.month = toUShort m ∧ ymd.day = toUShort d := by
  unfold date.of_ints at h
  dsimp only at h
  split_ifs at h with c1 c2 c3 c4
  refine ⟨⟨toUShort y, toUShort m, toUShort d⟩, ⟨c1.1, c1.2, c2.1, c2.2, c3.1, ?_⟩,
    (Except.ok.inj h).symm, rfl, rfl, rfl⟩
  dsimp only
  omega

/-- The single-date branch of `parseInterval`, reached when the trimmed input has no `'-'`
but has a `'/'`: a returned interval is one whole day, from midnight of a valid calendar
date to the next midnight. -/
theorem parseIntervalTry_single (strings : Str → Str) (today : date) (now : ptime)
    (input : Str) (cbd : date) (dow : Nat) (r : time_period)
    (h1 : '-' ∉ trim input) (h2 : '/' ∈ trim input)
    (h : parseIntervalTry strings today now input cbd dow = .ok r) :
    ∃ ymd : ymd_type, ymd.valid ∧
      validateInterval (ptime.of_date ⟨day_number ymd⟩)
        ((ptime.of_date ⟨day_number ymd⟩).add (hours 24)) = .ok r := by
  unfold parseIntervalTry at h
  simp only [find_of_not_mem _ _ h1, (find_ne_iff '/' (trim input)).2 h2, ne_eq,
    not_true_eq_false, not_false_eq_true, if_false, if_true] at h
  obtain ⟨⟨b, e⟩, hB, hV⟩ := except_bind_ok _ _ _ h
  obtain ⟨month, _, hB2⟩ := except_bind_ok _ _ _ hB
  obtain ⟨dt, hdt, hB3⟩ := except_bind_ok _ _ _ hB2
  have hbe := Prod.mk.inj (Except.ok.inj hB3)
  have hdate : ∃ ymd : ymd_type, ymd.valid ∧ dt = ⟨day_number ymd⟩ := by
    split_ifs at hdt
    · obtain ⟨day, _, hd2⟩ := except_bind_ok _ _ _ hdt
      obtain ⟨year, _, hd3⟩ := except_bind_ok _ _ _ hd2
      obtain ⟨ymd, hv, he, _⟩ := of_ints_ok _ _ _ _ hd3
      exact ⟨ymd, hv, he⟩
    · obtain ⟨day, _, hd2⟩ := except_bind_ok _ _ _ hdt
      obtain ⟨year, _, hd3⟩ := except_bind_ok _ _ _ hd2
      obtain ⟨ymd, hv, he, _⟩ := of_ints_ok _ _ _ _ hd3
      exact ⟨ymd, hv, he⟩
  obtain ⟨ymd, hv, he⟩ := hdate
  refine ⟨ymd, hv, ?_⟩
  rw [← he, hbe.2, hbe.1]
  exact hV

/-- C10: for an input without `'-'` that contains `'/'` (a single date "M/D" or "M/D/Y")
on which `parseInterval` succeeds with result `I`, `buildIntervalString I` is the
single-day form: an opening bracket, the rendering of the begin without a time of day, and
a closing bracket; it has no `" - "` separator and no `':'`. -/
theorem C10_single_day_shape (strings : Str → Str) (today : date) (now : ptime)
    (input : Str) (W I : time_period) (h1 : '-' ∉ input) (h2 : '/' ∈ input)
    (h : parseInterval strings today now input W = .ok I) :
    ∃ rb, getDateTimeString I.begin [] = .ok rb ∧
      buildIntervalString I = .ok ("[".toList ++ rb ++ "]".toList) ∧
      containsStr ("[".toList ++ rb ++ "]".toList) " - ".toList = false ∧
      ':' ∉ ("[".toList ++ rb ++ "]".toList) := by
  have h1' : '-' ∉ trim input := fun hc => h1 (mem_of_mem_trim _ _ hc)
  have h2' : '/' ∈ trim input := mem_trim_of_mem _ _ h2 (by decide)
  obtain ⟨cbd, dow, _, _, ht⟩ := parseInterval_ok _ _ _ _ _ _ h
  obtain ⟨ymd, hv, hval⟩ := parseIntervalTry_single _ _ _ _ _ _ _ h1' h2' ht
  obtain ⟨n1, n2⟩ := day_number_bounds ymd (valid_checked ymd hv)
  rw [of_date_eq _ (by omega) (by omega), midnight_add_day _ (by omega) (by omega)] at hval
  obtain ⟨hr, c1, c2, c3, c4, c5⟩ := validateInterval_ok _ _ _ hval
  rw [midnight_le_max_iff] at c5
  obtain ⟨e1, e2⟩ := of_begin_end_ends (midnight (day_number ymd))
    (midnight ((day_number ymd : Int) + 1))
    (by simp only [midnight, frac_sec_per_day]; omega)
    (by simp only [midnight, frac_sec_per_day]; omega)
  rw [← hr] at e1 e2
  obtain ⟨rb, g1, g2, g3⟩ := buildIntervalString_one_day I (day_number ymd) e1 e2 n1 (by omega)
  have hplain : ∀ c ∈ "[".toList ++ rb ++ "]".toList, c ≠ ':' ∧ c ≠ '-' := by
    intro c hc
    simp only [List.mem_append] at hc
    rcases hc with (hc | hc) | hc
    · revert hc; revert c; decide
    · rcases g3 c hc with hp | hp
      · simpa [plainChar] using hp
      · rw [hp]; decide
    · revert hc; revert c; decide
  refine ⟨rb, g1, g2, ?_, ?_⟩
  · by_contra hc
    rw [Bool.not_eq_false] at hc
    exact (hplain '-' (containsStr_mem _ _ hc '-' (by decide))).2 rfl
  · intro hc
    exact (hplain ':' hc).1 rfl

/-- C10 at "3/15" in the year 2011 and at "3/15/2012": the renderings `[15 Mar 2011]` and
`[15 Mar 2012]`. -/
theorem C10_single_day_shape_witness :
    ('-' ∉ "3/15".toList ∧ '/' ∈ "3/15".toList ∧
      parseInterval defaultStrings sampleDay sampleNow "3/15".toList sampleInterval
        = .ok (time_period.of_begin_end (atTime 2011 3 15 0 0) (atTime 2011 3 16 0 0))) ∧
    (∃ rb, getDateTimeString
          (time_period.of_begin_end (atTime 2011 3 15 0 0) (atTime 2011 3 16 0 0)).begin []
          = .ok rb ∧
      buildIntervalString (time_period.of_begin_end (atTime 2011 3 15 0 0) (atTime 2011 3 16 0 0))
        = .ok ("[".toList ++ rb ++ "]".toList) ∧
      containsStr ("[".toList ++ rb ++ "]".toList) " - ".toList = false ∧
      ':' ∉ ("[".toList ++ rb ++ "]".toList)) ∧
    buildIntervalString (time_period.of_begin_end (atTime 2011 3 15 0 0) (atTime 2011 3 16 0 0))
      = .ok "[15 Mar 2011]".toList ∧
    (parseInterval defaultStrings sampleDay sampleNow "3/15/2012".toList sampleInterval
      >>= buildIntervalString) = .ok "[15 Mar 2012]".toList :=
  ⟨⟨by decide, by decide, by decide⟩,
   C10_single_day_shape defaultStrings sampleDay sampleNow "3/15".toList sampleInterval _
     (by decide) (by decide) (by decide),
   by decide, by decide⟩

theorem timeStr_midnight_iff : ∀ h, h < 24 → ∀ m, m < 60 →
    containsStr (timeStr h m) "00:00".toList = decide (h = 0 ∧ m = 0) := by
  decide!

theorem timeStr_2359_iff : ∀ h, h < 24 → ∀ m, m < 60 →
    containsStr (timeStr h m ++ " - >]".toList) "23:59".toList = decide (h = 23 ∧ m = 59) := by
  decide!

theorem showInt_natCast (n : Nat) : showInt (n : Int) = showNat n := by
  unfold showInt
  rw [if_neg (by omega)]
  congr 1

/-- The hours and minutes of an ordinary time point in the supported range, and the
string `getTimeString` makes of them. -/
theorem getTimeString_in_range (t : ptime) (h1 : min_date_time ≤ t) (h2 : t ≤ max_date_time) :
    ∃ h m : Nat, h < 24 ∧ m < 60 ∧ t.time_of_day.hours = (h : Int) ∧
      t.time_of_day.minutes = (m : Int) ∧ getTimeString t = timeStr h m := by
  obtain ⟨s1, s2, s3⟩ := not_special_of_range t h1 h2
  rw [min_date_time_eq, ptime_le_iff] at h1
  rw [max_date_time_eq, ptime_le_iff] at h2
  dsimp only at h1 h2
  have htod : t.time_of_day = ⟨t.time_count % 86400000000⟩ := by
    unfold ptime.time_of_day
    have : t.is_special = false := by
      unfold ptime.is_special
      simp [s1, s2, s3]
    rw [this]
    simp only [Bool.false_eq_true, if_false, frac_sec_per_day]
    congr 1
    exact Int.tmod_eq_emod (by omega) (by omega)
  have hh : t.time_of_day.hours = ((t.time_count % 86400000000 / 3600000000).toNat : Int) := by
    rw [htod]
    unfold time_duration.hours
    dsimp only
    rw [Int.tdiv_eq_ediv (by omega) (by omega)]
    omega
  have hm : t.time_of_day.minutes
      = ((t.time_count % 86400000000 / 60000000 % 60).toNat : Int) := by
    rw [htod]
    unfold time_duration.minutes
    dsimp only
    rw [Int.tdiv_eq_ediv (by omega) (by omega), Int.tmod_eq_emod (by omega) (by omega)]
    omega
  refine ⟨_, _, ?_, ?_, hh, hm, ?_⟩
  · omega
  · omega
  · unfold getTimeString timeStr
    rw [hh, hm, showInt_natCast, showInt_natCast]

theorem containsStr_cons (c : Char) (cs pat : Str) :
    containsStr (c :: cs) pat = (pat.isPrefixOf (c :: cs) || containsStr cs pat) := by
  rw [containsStr]

theorem skip_plain_prefix (u w : Str) (hu : ∀ c ∈ u, c ≠ ':') :
    containsStr (u ++ ' ' :: w) "23:59".toList = containsStr (' ' :: w) "23:59".toList := by
  induction u with
  | nil => rfl
  | cons c u ih =>
    have ih' := ih (fun x hx => hu x (List.mem_cons_of_mem _ hx))
    have hp : List.isPrefixOf "23:59".toList (c :: (u ++ ' ' :: w)) = false := by
      cases u with
      | nil => simp [List.isPrefixOf]
      | cons x u' =>
        cases u' with
        | nil => simp [List.isPrefixOf]
        | cons y u'' =>
          have hy : y ≠ ':' := hu y (by simp)
          simp [List.isPrefixOf]
          intro _ _ h
          exact absurd h.symm hy
    show containsStr (c :: (u ++ ' ' :: w)) "23:59".toList = _
    rw [containsStr_cons, hp, Bool.false_or, ih']

theorem getDateTimeString_max (ts : Str) : getDateTimeString max_date_time ts = .ok ">".toList := by
  unfold getDateTimeString
  rw [if_neg (by decide), if_pos rfl]

theorem getTimeString_max : getTimeString max_date_time = " 23:59".toList := by decide

theorem date_max : max_date_time.date = .ok ⟨5373484⟩ := by decide

/-- What `buildIntervalString` returns for an interval that ends at `max_date_time` and
begins in the supported range, in terms of the begin's calendar date, hours and minutes. -/
theorem buildIntervalString_max_end (I : time_period) (he : I.end_ = max_date_time)
    (h1 : min_date_time ≤ I.begin) (h2 : I.begin ≤ max_date_time) :
    ∃ (ymd : ymd_type) (h m : Nat), h < 24 ∧ m < 60 ∧
      I.begin.time_of_day.hours = (h : Int) ∧ I.begin.time_of_day.minutes = (m : Int) ∧
      (I.begin = min_date_time → h = 0 ∧ m = 0) ∧
      (I.begin = max_date_time → h = 23 ∧ m = 59) ∧
      buildIntervalString I = .ok
        (if h = 0 ∧ m = 0 then
          (if day_number ymd + 1 = 5373484 then
            "[".toList ++ (if I.begin = min_date_time then "<".toList else renderDate ymd)
              ++ "]".toList
          else "[".toList ++ (if I.begin = min_date_time then "<".toList else renderDate ymd)
              ++ " - ".toList ++ ">".toList ++ "]".toList)
        else
          "[".toList ++ (if I.begin = max_date_time then ">".toList
              else renderDate ymd ++ timeStr h m)
            ++ " - ".toList ++ ">".toList ++ "]".toList) := by
  obtain ⟨h, m, hh, hm, eh, em, ets⟩ := getTimeString_in_range I.begin h1 h2
  have hmid := timeStr_midnight_iff h hh m hm
  by_cases hz : h = 0 ∧ m = 0
  · obtain ⟨ymd, hv, hd, hn, hg⟩ := getDateTimeString_in_range I.begin [] h1 h2
    obtain ⟨n1, n2⟩ := day_number_bounds ymd (valid_checked ymd hv)
    have hnemax : I.begin ≠ max_date_time := by
      intro hc
      rw [hc] at eh
      have : max_date_time.time_of_day.hours = 23 := by decide
      rw [this] at eh
      omega
    refine ⟨ymd, h, m, hh, hm, eh, em, fun _ => hz, fun hc => absurd hc hnemax, ?_⟩
    rw [if_pos hz]
    rw [if_neg hnemax] at hg
    unfold buildIntervalString
    dsimp only
    rw [he, ets, hmid, getTimeString_max]
    simp only [hz, and_self, decide_True, decide_eq_true_eq, Bool.or_true, Bool.and_self,
      if_true]
    rw [List.append_nil] at hg
    rw [hg, ok_bind, getDateTimeString_max, ok_bind, hd, ok_bind, date_max, ok_bind,
      add_days_eq _ 1 (by omega) (by omega) (by omega) (by omega)]
    have hdate : ((⟨((day_number ymd : Int) + 1).toNat⟩ : date) = ⟨5373484⟩)
        ↔ day_number ymd + 1 = 5373484 := by
      rw [date.mk.injEq]
      omega
    simp only [hdate, and_true]
    by_cases hs : day_number ymd + 1 = 5373484
    · rw [if_pos hs, if_neg (not_not.2 hs)]
      rfl
    · rw [if_neg hs, if_pos hs]
      rfl
  · obtain ⟨ymd, hv, hd, hn, hg⟩ := getDateTimeString_in_range I.begin (timeStr h m) h1 h2
    obtain ⟨n1, n2⟩ := day_number_bounds ymd (valid_checked ymd hv)
    have hmin0 : I.begin = min_date_time → h = 0 ∧ m = 0 := by
      intro hc
      rw [hc] at eh em
      have e1 : min_date_time.time_of_day.hours = 0 := by decide
      have e2 : min_date_time.time_of_day.minutes = 0 := by decide
      rw [e1] at eh
      rw [e2] at em
      omega
    have hmax0 : I.begin = max_date_time → h = 23 ∧ m = 59 := by
      intro hc
      rw [hc] at eh em
      have e1 : max_date_time.time_of_day.hours = 23 := by decide
      have e2 : max_date_time.time_of_day.minutes = 59 := by decide
      rw [e1] at eh
      rw [e2] at em
      omega
    have hnemin : I.begin ≠ min_date_time := fun hc => hz (hmin0 hc)
    refine ⟨ymd, h, m, hh, hm, eh, em, hmin0, hmax0, ?_⟩
    rw [if_neg hz]
    rw [if_neg hnemin] at hg
    unfold buildIntervalString
    dsimp only
    rw [he, ets, hmid, getTimeString_max]
    simp only [hz, decide_False, Bool.false_and, Bool.false_eq_true, if_false, and_false,
      not_false_eq_true, if_true]
    rw [hg, ok_bind, getDateTimeString_max, ok_bind, hd, ok_bind, date_max, ok_bind]
    rfl

theorem timeStr_cons (h m : Nat) :
    timeStr h m = ' ' :: (padLeft 2 '0' (showNat h) ++ ":".toList ++ padLeft 2 '0' (showNat m)) := by
  unfold timeStr
  rfl

theorem no_colon_of_plain (s : Str) (hs : ∀ c ∈ s, plainChar c = true ∨ c = '<' ∨ c = '>'
    ∨ c = '[' ∨ c = ']' ∨ c = ' ' ∨ c = '-') : ':' ∉ s := by
  intro hc
  rcases hs ':' hc with h | h | h | h | h | h | h <;> revert h <;> decide

/-- C9, counterexample: the interval from 15 March 2011 23:59 to `max_date_time` (what
`parseInterval` returns for "3/15 23:59 - >") ends at `max_date_time`, begins before its
end, and is rendered as `[15 Mar 2011 23:59 - >]`, which contains "23:59". -/
theorem C9_counterexample :
    parseInterval defaultStrings sampleDay sampleNow "3/15 23:59 - >".toList sampleInterval
      = .ok (time_period.of_begin_end (atTime 2011 3 15 23 59) max_date_time) ∧
    (time_period.of_begin_end (atTime 2011 3 15 23 59) max_date_time).end_ = max_date_time ∧
    (time_period.of_begin_end (atTime 2011 3 15 23 59) max_date_time).begin
      ≤ (time_period.of_begin_end (atTime 2011 3 15 23 59) max_date_time).end_ ∧
    buildIntervalString (time_period.of_begin_end (atTime 2011 3 15 23 59) max_date_time)
      = .ok "[15 Mar 2011 23:59 - >]".toList ∧
    containsStr "[15 Mar 2011 23:59 - >]".toList "23:59".toList = true := by
  decide

/-- For an interval that ends at `max_date_time` and begins between `min_date_time` and
its end, the string `buildIntervalString` returns contains "23:59" exactly when the begin
is not `max_date_time` and the begin's own time of day is 23:59; the string ends with
` - >]` or has no `':'` at all. -/
theorem max_end_contains_2359 (I : time_period) (he : I.end_ = max_date_time)
    (h1 : min_date_time ≤ I.begin) (h2 : I.begin ≤ I.end_) :
    ∃ s, buildIntervalString I = .ok s ∧
      (containsStr s "23:59".toList = true ↔
        (I.begin ≠ max_date_time ∧ I.begin.time_of_day.hours = 23 ∧
          I.begin.time_of_day.minutes = 59)) ∧
      ((∃ rb, s = "[".toList ++ rb ++ " - >]".toList) ∨ ':' ∉ s) := by
  rw [he] at h2
  obtain ⟨ymd, h, m, hh, hm, eh, em, hmin0, hmax0, hs⟩ := buildIntervalString_max_end I he h1 h2
  refine ⟨_, hs, ?_⟩
  have hrd := renderDate_plain ymd
  by_cases hz : h = 0 ∧ m = 0
  · rw [if_pos hz]
    have hX : ∀ c ∈ (if I.begin = min_date_time then "<".toList else renderDate ymd),
        plainChar c = true ∨ c = '<' ∨ c = '>' ∨ c = '[' ∨ c = ']' ∨ c = ' ' ∨ c = '-' := by
      intro c hc
      split_ifs at hc
      · right; left; simpa using hc
      · left; exact hrd c hc
    have hnc : ':' ∉ (if day_number ymd + 1 = 5373484 then
          "[".toList ++ (if I.begin = min_date_time then "<".toList else renderDate ymd)
            ++ "]".toList
        else "[".toList ++ (if I.begin = min_date_time then "<".toList else renderDate ymd)
            ++ " - ".toList ++ ">".toList ++ "]".toList) := by
      apply no_colon_of_plain
      intro c hc
      split_ifs at hc <;> simp only [List.mem_append] at hc
      · rcases hc with (hc | hc) | hc
        · right; right; right; left; simpa using hc
        · right; left; simpa using hc
        · right; right; right; right; left; simpa using hc
      · rcases hc with (hc | hc) | hc
        · right; right; right; left; simpa using hc
        · left; exact hrd c hc
        · right; right; right; right; left; simpa using hc
      · rcases hc with (((hc | hc) | hc) | hc) | hc
        · right; right; right; left; simpa using hc
        · right; left; simpa using hc
        · revert hc; revert c; decide
        · right; right; left; simpa using hc
        · right; right; right; right; left; simpa using hc
      · rcases hc with (((hc | hc) | hc) | hc) | hc
        · right; right; right; left; simpa using hc
        · left; exact hrd c hc
        · revert hc; revert c; decide
        · right; right; left; simpa using hc
        · right; right; right; right; left; simpa using hc
    refine ⟨?_, Or.inr hnc⟩
    constructor
    · intro hc
      exact absurd (containsStr_mem _ _ hc ':' (by decide)) hnc
    · rintro ⟨_, e1, _⟩
      rw [eh] at e1
      omega
  · rw [if_neg hz]
    by_cases hb : I.begin = max_date_time
    · rw [if_pos hb]
      refine ⟨?_, Or.inl ⟨">".toList, by decide⟩⟩
      constructor
      · intro hc
        have hf : containsStr ("[".toList ++ ">".toList ++ " - ".toList ++ ">".toList
            ++ "]".toList) "23:59".toList = false := by decide
        rw [hf] at hc
        cases hc
      · rintro ⟨e0, _⟩
        exact absurd hb e0
    · rw [if_neg hb]
      have hassoc : "[".toList ++ (renderDate ymd ++ timeStr h m) ++ " - ".toList ++ ">".toList
          ++ "]".toList
          = ("[".toList ++ renderDate ymd) ++ ' ' ::
            (padLeft 2 '0' (showNat h) ++ ":".toList ++ padLeft 2 '0' (showNat m)
              ++ " - >]".toList) := by
        rw [timeStr_cons]
        simp only [List.append_assoc, List.cons_append]
        rfl
      have hu : ∀ c ∈ "[".toList ++ renderDate ymd, c ≠ ':' := by
        intro c hc
        simp only [List.mem_append] at hc
        rcases hc with hc | hc
        · revert hc; revert c; decide
        · have := hrd c hc
          intro e
          rw [e] at this
          revert this
          decide
      have hk := timeStr_2359_iff h hh m hm
      rw [timeStr_cons] at hk
      refine ⟨?_, Or.inl ⟨renderDate ymd ++ timeStr h m, ?_⟩⟩
      · rw [hassoc, skip_plain_prefix _ _ hu]
        have hk' : containsStr (' ' :: (padLeft 2 '0' (showNat h) ++ ":".toList
            ++ padLeft 2 '0' (showNat m) ++ " - >]".toList)) "23:59".toList
            = decide (h = 23 ∧ m = 59) := hk
        rw [hk', decide_eq_true_eq, eh, em]
        constructor
        · rintro ⟨a, b⟩
          exact ⟨hb, by omega, by omega⟩
        · rintro ⟨_, a, b⟩
          exact ⟨by omega, by omega⟩
      · simp only [List.append_assoc]
        rfl

theorem isspace_of_isdigit (c : Char) (h : isdigit c = true) : isspace c = false := by
  by_contra hc
  rw [Bool.not_eq_false] at hc
  unfold isspace at hc
  simp only [Bool.decide_or, Bool.or_eq_true, decide_eq_true_eq] at hc
  rcases hc with e | e | e | e | e | e <;> subst e <;> revert h <;> decide

theorem ne_of_isdigit (c x : Char) (h : isdigit c = true) (hx : isdigit x = false) : c ≠ x := by
  intro e
  rw [e, hx] at h
  cases h

theorem dropWhile_eq_self (p : Char → Bool) (x : Char) (xs : Str) (h : p x = false) :
    (x :: xs).dropWhile p = x :: xs := by
  rw [List.dropWhile_cons_of_neg (by rw [h]; exact Bool.false_ne_true)]

/-- Trimming leaves a string alone that begins and ends with a character that is not
white space. -/
theorem trim_eq_self (a : Char) (mid : Str) (b : Char) (ha : isspace a = false)
    (hb : isspace b = false) : trim (a :: (mid ++ [b])) = a :: (mid ++ [b]) := by
  unfold trim trim_right trim_left
  have hr : (a :: (mid ++ [b])).reverse = b :: (mid.reverse ++ [a]) := by simp
  rw [hr, dropWhile_eq_self _ _ _ hb]
  have hr2 : (b :: (mid.reverse ++ [a])).reverse = a :: (mid ++ [b]) := by simp
  rw [hr2, dropWhile_eq_self _ _ _ ha]

theorem trim_eq_self_of_ends (s : Str) (hs : s ≠ [])
    (h1 : ∀ c, s.head? = some c → isspace c = false)
    (h2 : ∀ c, s.getLast? = some c → isspace c = false) : trim s = s := by
  cases s with
  | nil => exact absurd rfl hs
  | cons a t =>
    have ha := h1 a rfl
    rcases List.eq_nil_or_concat t with e | ⟨mid, b, e⟩
    · subst e
      unfold trim trim_right trim_left
      have hr : [a].reverse = [a] := rfl
      rw [hr, dropWhile_eq_self _ _ _ ha, hr, dropWhile_eq_self _ _ _ ha]
    · subst e
      have hb : isspace b = false := by
        apply h2
        rw [List.concat_eq_append, ← List.cons_append, List.getLast?_append]
        rfl
      have := trim_eq_self a mid b ha hb
      simpa using this

theorem find_from (s : Str) (c : Char) (pos : Nat) :
    find s c (pos : Int) = match indexOfChar c (s.drop pos) with
      | some i => ((pos + i : Nat) : Int)
      | none => -1 := by
  unfold find
  simp only [Int.toNat_ofNat]
  split <;> simp_all

theorem indexOfChar_append (c : Char) (a b : Str) (ha : c ∉ a) :
    indexOfChar c (a ++ c :: b) = some a.length := by
  induction a with
  | nil => simp [indexOfChar]
  | cons x xs ih =>
    have hx : x ≠ c := fun e => ha (by rw [e]; exact List.mem_cons_self _ _)
    have hxs : c ∉ xs := fun e => ha (List.mem_cons_of_mem _ e)
    simp [indexOfChar, hx, ih hxs]

theorem decimalValue_nonneg_cast (s : Str) (n : Nat) (h : IsDecimal s n) (hn : n ≤ 2147483647) :
    lexical_cast_int s = .ok (n : Int) := by
  obtain ⟨h1, h2, h3⟩ := h
  cases s with
  | nil => exact absurd rfl h1
  | cons a t =>
    have ha : isdigit a = true := h2 a (List.mem_cons_self _ _)
    have hm : a ≠ '-' := ne_of_isdigit a '-' ha (by decide)
    have hp : a ≠ '+' := ne_of_isdigit a '+' ha (by decide)
    have hall : (a :: t).all isdigit = true := by
      rw [List.all_eq_true]
      exact h2
    unfold lexical_cast_int
    simp only [List.head?_cons, Option.some.injEq, hm, hp, or_self, if_false, decide_False,
      hall, Bool.true_eq_false, or_false, Bool.false_eq_true, h3, hn, if_true, reduceCtorEq]

theorem not_mem_of_digits (s : Str) (x : Char) (h : ∀ c ∈ s, isdigit c = true)
    (hx : isdigit x = false) : x ∉ s := by
  intro hc
  have := h x hc
  rw [hx] at this
  cases this

theorem toNat_len_succ (n : Nat) : ((n : Int) + 1).toNat = n + 1 := by omega

theorem drop_past_sep (a : Str) (c : Char) (b : Str) :
    (a ++ c :: b).drop (a.length + 1) = b := by
  rw [List.drop_append]
  rfl

theorem find_first_sep (a b : Str) (c : Char) (ha : c ∉ a) :
    find (a ++ c :: b) c 0 = (a.length : Int) := by
  unfold find
  simp only [Int.toNat_zero, List.drop_zero, indexOfChar_append c a b ha]
  omega

theorem find_second_none (a b : Str) (c : Char) (hb : c ∉ b) :
    find (a ++ c :: b) c ((a.length : Int) + 1) = -1 := by
  unfold find
  rw [toNat_len_succ, drop_past_sep, indexOfChar_of_not_mem c b hb]

theorem find_second_some (a b y : Str) (c : Char) (hb : c ∉ b) :
    find (a ++ c :: (b ++ c :: y)) c ((a.length : Int) + 1)
      = (a.length : Int) + 1 + (b.length : Int) := by
  unfold find
  rw [toNat_len_succ, drop_past_sep, indexOfChar_append c b y hb]
  dsimp only
  omega

theorem substr_first (a b : Str) (c : Char) :
    substr (a ++ c :: b) 0 (a.length : Int) = a := by
  unfold substr
  rw [if_neg (by omega)]
  simp

theorem substrFrom_second (a b : Str) (c : Char) :
    substrFrom (a ++ c :: b) ((a.length : Int) + 1) = b := by
  unfold substrFrom
  rw [toNat_len_succ, drop_past_sep]

theorem substr_second (a b y : Str) (c : Char) :
    substr (a ++ c :: (b ++ c :: y)) ((a.length : Int) + 1)
      ((a.length : Int) + 1 + (b.length : Int) - ((a.length : Int) + 1)) = b := by
  unfold substr
  rw [if_neg (by omega), toNat_len_succ, drop_past_sep]
  have : ((a.length : Int) + 1 + (b.length : Int) - ((a.length : Int) + 1)).toNat = b.length := by
    omega
  rw [this]
  simp

theorem substrFrom_third (a b y : Str) (c : Char) :
    substrFrom (a ++ c :: (b ++ c :: y)) ((a.length : Int) + 1 + (b.length : Int) + 1) = y := by
  unfold substrFrom
  have : ((a.length : Int) + 1 + (b.length : Int) + 1).toNat = a.length + 1 + (b.length + 1) := by
    omega
  rw [this, ← List.drop_drop, drop_past_sep, drop_past_sep]

/-- A single-date input made of decimal numerals and slashes is left alone by `trim`,
and it has no `'-'`. -/
theorem single_date_input (ms rest : Str) (last : Char) (hms : ms ≠ [])
    (hm : ∀ c ∈ ms, isdigit c = true) (hlast : isdigit last = true)
    (hrest : ∀ c ∈ rest, isdigit c = true ∨ c = '/') :
    trim (ms ++ '/' :: (rest ++ [last])) = ms ++ '/' :: (rest ++ [last]) ∧
      '-' ∉ ms ++ '/' :: (rest ++ [last]) := by
  constructor
  · cases ms with
    | nil => exact absurd rfl hms
    | cons a t =>
      have ha := isspace_of_isdigit a (hm a (List.mem_cons_self _ _))
      have hb := isspace_of_isdigit last hlast
      have := trim_eq_self a (t ++ '/' :: rest) last ha hb
      simpa using this
  · intro hc
    simp only [List.mem_append, List.mem_cons, List.mem_singleton, List.not_mem_nil,
      or_false] at hc
    rcases hc with hc | hc | hc | hc
    · exact not_mem_of_digits ms '-' hm (by decide) hc
    · revert hc; decide
    · rcases hrest '-' hc with h | h
      · revert h; decide
      · revert h; decide
    · rw [← hc] at hlast
      revert hlast
      decide

theorem isDecimal_split_last (s : Str) (n : Nat) (h : IsDecimal s n) :
    ∃ init last, s = init ++ [last] ∧ isdigit last = true ∧ ∀ c ∈ init, isdigit c = true := by
  obtain ⟨h1, h2, _⟩ := h
  rcases List.eq_nil_or_concat s with e | ⟨init, last, e⟩
  · exact absurd e h1
  · rw [List.concat_eq_append] at e
    refine ⟨init, last, e, ?_, ?_⟩
    · apply h2; rw [e]; simp
    · intro c hc; apply h2; rw [e]; simp [hc]

/-- The `try` block on an input "M/D". -/
theorem try_month_day (strings : Str → Str) (today : date) (now : ptime) (cbd : date)
    (dow : Nat) (ms ds : Str) (M D : Nat) (hm : IsDecimal ms M) (hd : IsDecimal ds D)
    (hM : M ≤ 2147483647) (hD : D ≤ 2147483647) :
    parseIntervalTry strings today now (ms ++ '/' :: ds) cbd dow =
      (cbd.year >>= fun year => date.of_ints (year : Int) (M : Int) (D : Int) >>= fun dt =>
        validateInterval (ptime.of_date dt) ((ptime.of_date dt).add (hours 24))) := by
  obtain ⟨init, last, e, hl, hi⟩ := isDecimal_split_last ds D hd
  have hmd : ∀ c ∈ ms, isdigit c = true := hm.2.1
  obtain ⟨ht, hdash⟩ := single_date_input ms init last hm.1 hmd hl (fun c hc => Or.inl (hi c hc))
  rw [← e] at ht hdash
  have hs1 : '/' ∉ ms := not_mem_of_digits ms '/' hmd (by decide)
  have hs2 : '/' ∉ ds := not_mem_of_digits ds '/' hd.2.1 (by decide)
  have hc1 := decimalValue_nonneg_cast ms M hm hM
  have hc2 := decimalValue_nonneg_cast ds D hd hD
  unfold parseIntervalTry
  dsimp only
  rw [ht]
  simp only [find_of_not_mem '-' _ hdash, find_first_sep ms ds '/' hs1,
    find_second_none ms ds '/' hs2, substr_first, substrFrom_second, hc1, hc2, ne_eq,
    not_true_eq_false, if_false]
  rw [if_pos (by omega)]
  rw [ok_bind, ok_bind]
  cases hy : cbd.year with
  | error err => rfl
  | ok y =>
    rw [ok_bind, ok_bind]
    cases hdt : date.of_ints (y : Int) (M : Int) (D : Int) with
    | error err => rfl
    | ok dt => rfl

/-- The `try` block on an input "M/D/Y". -/
theorem try_month_day_year (strings : Str → Str) (today : date) (now : ptime) (cbd : date)
    (dow : Nat) (ms ds ys : Str) (M D Y : Nat) (hm : IsDecimal ms M) (hd : IsDecimal ds D)
    (hy : IsDecimal ys Y) (hM : M ≤ 2147483647) (hD : D ≤ 2147483647) (hY : Y ≤ 2147483647) :
    parseIntervalTry strings today now (ms ++ '/' :: (ds ++ '/' :: ys)) cbd dow =
      (date.of_ints (Y : Int) (M : Int) (D : Int) >>= fun dt =>
        validateInterval (ptime.of_date dt) ((ptime.of_date dt).add (hours 24))) := by
  obtain ⟨init, last, e, hl, hi⟩ := isDecimal_split_last ys Y hy
  have hmd : ∀ c ∈ ms, isdigit c = true := hm.2.1
  obtain ⟨ht, hdash⟩ := single_date_input ms (ds ++ '/' :: init) last hm.1 hmd hl (by
    intro c hc
    simp only [List.mem_append, List.mem_cons] at hc
    rcases hc with hc | hc | hc
    · exact Or.inl (hd.2.1 c hc)
    · exact Or.inr hc
    · exact Or.inl (hi c hc))
  have hin : ms ++ '/' :: ((ds ++ '/' :: init) ++ [last]) = ms ++ '/' :: (ds ++ '/' :: ys) := by
    rw [e]; simp
  rw [hin] at ht hdash
  have hs1 : '/' ∉ ms := not_mem_of_digits ms '/' hmd (by decide)
  have hs2 : '/' ∉ ds := not_mem_of_digits ds '/' hd.2.1 (by decide)
  have hc1 := decimalValue_nonneg_cast ms M hm hM
  have hc2 := decimalValue_nonneg_cast ds D hd hD
  have hc3 := decimalValue_nonneg_cast ys Y hy hY
  unfold parseIntervalTry
  dsimp only
  rw [ht]
  simp only [find_of_not_mem '-' _ hdash, find_first_sep ms _ '/' hs1,
    find_second_some ms ds ys '/' hs2, substr_first, substr_second, substrFrom_third, hc1, hc2,
    hc3, ne_eq, not_true_eq_false, if_false]
  rw [if_pos (by omega)]
  rw [ok_bind, ok_bind, ok_bind]
  cases hdt : date.of_ints (Y : Int) (M : Int) (D : Int) with
  | error err => rfl
  | ok dt => rfl

theorem toUShort_natCast (n : Nat) (h : n < 65536) : toUShort (n : Int) = n := by
  unfold toUShort
  omega

theorem of_ints_valid (ymd : ymd_type) (hv : ymd.valid) :
    date.of_ints (ymd.year : Int) (ymd.month : Int) (ymd.day : Int) = .ok ⟨day_number ymd⟩ := by
  obtain ⟨y, m, d⟩ := ymd
  have hc := valid_checked _ hv
  obtain ⟨h1, h2, h3, h4, h5, h6⟩ := hv
  obtain ⟨_, _, _, _, _, h7⟩ := hc
  dsimp only at h1 h2 h3 h4 h5 h6 h7 ⊢
  unfold date.of_ints
  dsimp only
  rw [toUShort_natCast y (by omega), toUShort_natCast m (by omega),
    toUShort_natCast d (by omega)]
  rw [if_neg (by omega), if_neg (by omega), if_neg (by omega), if_neg (by omega)]

theorem atTime_midnight (ymd : ymd_type) (hv : ymd.valid) :
    atTime ymd.year ymd.month ymd.day 0 0 = midnight (day_number ymd) := by
  obtain ⟨n1, n2⟩ := day_number_bounds ymd (valid_checked ymd hv)
  unfold atTime
  exact of_date_eq (day_number ymd) (by omega) (by omega)

theorem wellFormed_date (W : time_period) (hW : W.wellFormed) :
    ∃ (ymd : ymd_type) (k : Nat), ymd.valid ∧ W.begin.date = .ok ⟨day_number ymd⟩ ∧
      (⟨day_number ymd⟩ : date).day_of_week = .ok k ∧
      (⟨day_number ymd⟩ : date).year = .ok ymd.year := by
  obtain ⟨w1, w2, w3⟩ := hW
  have hmax : W.begin ≤ max_date_time := by
    rw [ptime_le_iff] at w2 w3 ⊢
    omega
  obtain ⟨ymd, hv, hf, hd, _⟩ := date_in_range W.begin w1 hmax
  obtain ⟨n1, n2⟩ := day_number_bounds ymd (valid_checked ymd hv)
  exact ⟨ymd, _, hv, hd, day_of_week_of_range _ n1 n2, (date_accessors ymd hf).2.2⟩

theorem midnight_eq (n : Nat) : midnight (n : Int) = ⟨(n : Int) * 86400000000 + 0⟩ := by
  unfold midnight
  rw [frac_sec_per_day_eq, add_zero]

theorem decode_midnight (ymd : ymd_type) (hv : ymd.valid) :
    ((midnight (day_number ymd)).date >>= date.year_month_day) = .ok ymd ∧
      (midnight (day_number ymd)).time_of_day = ⟨0⟩ := by
  obtain ⟨n1, n2⟩ := day_number_bounds ymd (valid_checked ymd hv)
  constructor
  · rw [midnight_eq, date_midnight _ 0 n1 n2 (by omega) (by omega), ok_bind]
    exact from_day_number_day_number ymd hv
  · exact time_of_day_midnight _ (by omega) (by omega)

/-- The interval of one whole day that starts on a valid calendar date other than the
last supported day passes the validation; its ends are the two midnights. -/
theorem one_day_validated (ymd : ymd_type) (hv : ymd.valid) (hlast : ymd ≠ ⟨9999, 12, 31⟩) :
    ∃ r, validateInterval (ptime.of_date ⟨day_number ymd⟩)
        ((ptime.of_date ⟨day_number ymd⟩).add (hours 24)) = .ok r ∧
      r.begin = atTime ymd.year ymd.month ymd.day 0 0 ∧
      r.end_ = atTime (nextCalendarDay ymd).year (nextCalendarDay ymd).month
        (nextCalendarDay ymd).day 0 0 ∧
      (r.begin.date >>= date.year_month_day) = .ok ymd ∧
      r.begin.time_of_day = ⟨0⟩ ∧
      (r.end_.date >>= date.year_month_day) = .ok (nextCalendarDay ymd) ∧
      r.end_.time_of_day = ⟨0⟩ := by
  obtain ⟨nv, nn⟩ := nextCalendarDay_spec ymd hv hlast
  obtain ⟨n1, n2⟩ := day_number_bounds ymd (valid_checked ymd hv)
  obtain ⟨m1, m2⟩ := day_number_bounds _ (valid_checked _ nv)
  obtain ⟨r, hr, hb, he⟩ := this_day_interval (day_number ymd) (by omega) (by omega)
  have hnext : midnight ((day_number ymd : Int) + 1) = midnight (day_number (nextCalendarDay ymd)) := by
    rw [nn]
    congr 1
  rw [hnext] at he
  obtain ⟨b1, b2⟩ := decode_midnight ymd hv
  obtain ⟨e1, e2⟩ := decode_midnight _ nv
  refine ⟨r, hr, ?_, ?_, ?_, ?_, ?_, ?_⟩
  · rw [hb, atTime_midnight ymd hv]
  · rw [he, atTime_midnight _ nv]
  · rw [hb]; exact b1
  · rw [hb]; exact b2
  · rw [he]; exact e1
  · rw [he]; exact e2

/-- C2: for a well-formed working interval and an input "M/D" or "M/D/Y" made of decimal
numerals, where (Y, M, D) (Y being the year of the working interval's begin when the year
part is omitted) is a valid calendar date of the supported range other than its last day,
`parseInterval` returns the interval that begins at 00:00 of that date and ends at 00:00
of the following calendar day. -/
theorem C2_single_date (strings : Str → Str) (today : date) (now : ptime) (W : time_period)
    (ms ds : Str) (ys : Option Str) (M D Y : Nat)
    (hW : W.wellFormed) (hm : IsDecimal ms M) (hd : IsDecimal ds D) (hy : yearMeant W ys Y)
    (hv : ymd_type.valid ⟨Y, M, D⟩) (hlast : (⟨Y, M, D⟩ : ymd_type) ≠ ⟨9999, 12, 31⟩) :
    ∃ r, parseInterval strings today now (singleDateText ms ds ys) W = .ok r ∧
      r.begin = atTime Y M D 0 0 ∧
      r.end_ = atTime (nextCalendarDay ⟨Y, M, D⟩).year (nextCalendarDay ⟨Y, M, D⟩).month
        (nextCalendarDay ⟨Y, M, D⟩).day 0 0 ∧
      (r.begin.date >>= date.year_month_day) = .ok ⟨Y, M, D⟩ ∧
      r.begin.time_of_day = ⟨0⟩ ∧
      (r.end_.date >>= date.year_month_day) = .ok (nextCalendarDay ⟨Y, M, D⟩) ∧
      r.end_.time_of_day = ⟨0⟩ := by
  obtain ⟨ymdW, k, hvW, hdW, hk, hyW⟩ := wellFormed_date W hW
  obtain ⟨r, hr, rest⟩ := one_day_validated ⟨Y, M, D⟩ hv hlast
  have hc := valid_checked _ hv
  obtain ⟨c1, c2, c3, c4, c5, c6⟩ := hc
  dsimp only at c1 c2 c3 c4 c5 c6
  have hof := of_ints_valid ⟨Y, M, D⟩ hv
  dsimp only at hof
  refine ⟨r, parseInterval_of_try _ _ _ _ _ _ _ _ hdW hk ?_, rest⟩
  cases ys with
  | none =>
    have hyear : ymdW.year = Y := by
      unfold yearMeant at hy
      dsimp only at hy
      rw [hdW, ok_bind, hyW] at hy
      exact Except.ok.inj hy
    have hin : singleDateText ms ds none = ms ++ '/' :: ds := by
      unfold singleDateText
      simp
    rw [hin, try_month_day _ _ _ _ _ ms ds M D hm hd (by omega) (by omega), hyW, ok_bind,
      hyear, hof, ok_bind]
    exact hr
  | some y =>
    have hin : singleDateText ms ds (some y) = ms ++ '/' :: (ds ++ '/' :: y) := rfl
    rw [hin, try_month_day_year _ _ _ _ _ ms ds y M D Y hm hd hy (by omega) (by omega)
      (by omega), hof, ok_bind]
    exact hr

/-- C2 at "3/15" with a working interval that begins in the year 2011 (15 March 2011 00:00
to 16 March 2011 00:00), and at "12/31/2012" (ending on 1 January 2013). -/
theorem C2_single_date_witness :
    (sampleInterval.wellFormed ∧ IsDecimal "3".toList 3 ∧ IsDecimal "15".toList 15 ∧
      yearMeant sampleInterval none 2011 ∧ ymd_type.valid ⟨2011, 3, 15⟩ ∧
      (⟨2011, 3, 15⟩ : ymd_type) ≠ ⟨9999, 12, 31⟩) ∧
    (∃ r, parseInterval defaultStrings sampleDay sampleNow
        (singleDateText "3".toList "15".toList none) sampleInterval = .ok r ∧
      r.begin = atTime 2011 3 15 0 0 ∧
      r.end_ = atTime (nextCalendarDay ⟨2011, 3, 15⟩).year (nextCalendarDay ⟨2011, 3, 15⟩).month
        (nextCalendarDay ⟨2011, 3, 15⟩).day 0 0 ∧
      (r.begin.date >>= date.year_month_day) = .ok ⟨2011, 3, 15⟩ ∧
      r.begin.time_of_day = ⟨0⟩ ∧
      (r.end_.date >>= date.year_month_day) = .ok (nextCalendarDay ⟨2011, 3, 15⟩) ∧
      r.end_.time_of_day = ⟨0⟩) ∧
    singleDateText "3".toList "15".toList none = "3/15".toList ∧
    nextCalendarDay ⟨2011, 3, 15⟩ = ⟨2011, 3, 16⟩ ∧
    parseInterval defaultStrings sampleDay sampleNow "3/15".toList sampleInterval
      = .ok (time_period.of_begin_end (atTime 2011 3 15 0 0) (atTime 2011 3 16 0 0)) ∧
    parseInterval defaultStrings sampleDay sampleNow "12/31/2012".toList sampleInterval
      = .ok (time_period.of_begin_end (atTime 2012 12 31 0 0) (atTime 2013 1 1 0 0)) :=
  ⟨⟨by decide, by decide, by decide, by decide, by decide, by decide⟩,
   C2_single_date defaultStrings sampleDay sampleNow sampleInterval "3".toList "15".toList
     none 3 15 2011 (by decide) (by decide) (by decide) (by decide) (by decide) (by decide),
   by decide, by decide, by decide, by decide⟩

theorem parseDateTime_neither (now : ptime) (s : Str) (defaultTime : time_duration)
    (defaultYear : Int) (today : date)
    (h1 : s ≠ "<".toList) (h2 : s ≠ ">".toList) (h3 : s ≠ "now".toList)
    (hsp : ' ' ∉ s) (hsl : '/' ∉ s) (hco : ':' ∉ s) :
    parseDateTime now s defaultTime defaultYear today = .error .InvalidIntervalException := by
  unfold parseDateTime
  rw [if_neg h1, if_neg h2, if_neg h3]
  dsimp only
  rw [find_of_not_mem ' ' s hsp, find_of_not_mem '/' s hsl, find_of_not_mem ':' s hco]
  rfl

/-- C14: a text other than "<", ">" and "now" with no space, no '/' and no ':' (the empty
text included) is neither a date nor a time: `parseDateTime` throws
`InvalidIntervalException`, whatever the default time, the default year, today and the
clock are. -/
theorem C14_neither_date_nor_time (now : ptime) (s : Str) (defaultTime : time_duration)
    (defaultYear : Int) (today : date)
    (h1 : s ≠ "<".toList) (h2 : s ≠ ">".toList) (h3 : s ≠ "now".toList)
    (hsp : ' ' ∉ s) (hsl : '/' ∉ s) (hco : ':' ∉ s) :
    parseDateTime now s defaultTime defaultYear today = .error .InvalidIntervalException :=
  parseDateTime_neither now s defaultTime defaultYear today h1 h2 h3 hsp hsl hco

/-- C14 at the text "tomorrow", and the evaluation of the empty text. -/
theorem C14_neither_date_nor_time_witness :
    ("tomorrow".toList ≠ "<".toList ∧ "tomorrow".toList ≠ ">".toList ∧
      "tomorrow".toList ≠ "now".toList ∧ ' ' ∉ "tomorrow".toList ∧ '/' ∉ "tomorrow".toList ∧
      ':' ∉ "tomorrow".toList) ∧
    parseDateTime sampleNow "tomorrow".toList (hours 0) 2011 sampleDay
        = .error .InvalidIntervalException ∧
      parseDateTime sampleNow [] (hours 0) 2011 sampleDay = .error .InvalidIntervalException :=
  ⟨⟨by decide, by decide, by decide, by decide, by decide, by decide⟩,
   C14_neither_date_nor_time sampleNow "tomorrow".toList (hours 0) 2011 sampleDay
      (by decide) (by decide) (by decide) (by decide) (by decide) (by decide),
   by decide⟩

theorem except_ok_or_error {α : Type} (x : Except Exn α) :
    (∃ e, x = .error e) ∨ ∃ a, x = .ok a := by
  cases x with
  | error e => exact Or.inl ⟨e, rfl⟩
  | ok a => exact Or.inr ⟨a, rfl⟩

/-- C16: for an input that contains '-', if `parseDateTime` throws on the trimmed text
before the first '-' or on the trimmed text after it (called, as `parseInterval` calls
it, with the default time 00:00, the year of the working interval's begin and today),
then `parseInterval` throws: no interval is returned, for any working interval. -/
theorem C16_nested_failure_propagates (strings : Str → Str) (today : date) (now : ptime)
    (input : Str) (W : time_period) (hdash : '-' ∈ input)
    (hf : ∀ y : Nat, (W.begin.date >>= date.year) = .ok y →
      (∃ e, parseDateTime now (trim (beforeFirst '-' (trim input))) (hours 0) y today
          = .error e) ∨
      (∃ e, parseDateTime now (trim (afterFirst '-' (trim input))) (hours 0) y today
          = .error e)) :
    (∃ e, parseInterval strings today now input W = .error e) ∧
      ∀ r, parseInterval strings today now input W ≠ .ok r := by
  have h1 : '-' ∈ trim input := mem_trim_of_mem _ _ hdash (by decide)
  have hno : ∀ r, parseInterval strings today now input W ≠ .ok r := by
    intro r hr
    obtain ⟨cbd, dow, hd, _, h3⟩ := parseInterval_ok _ _ _ _ _ _ hr
    rw [parseIntervalTry_range _ _ _ _ _ _ h1] at h3
    rcases except_ok_or_error cbd.year with ⟨e, hy⟩ | ⟨y, hy⟩
    · rw [hy] at h3
      cases h3
    · have hyW : (W.begin.date >>= date.year) = .ok y := by
        rw [hd, ok_bind, hy]
      rw [hy, ok_bind] at h3
      rcases except_ok_or_error
          (parseDateTime now (trim (beforeFirst '-' (trim input))) (hours 0) y today)
        with ⟨e, hb⟩ | ⟨b, hb⟩
      · rw [hb] at h3
        cases h3
      · rw [hb, ok_bind, ok_bind] at h3
        rcases hf y hyW with ⟨e, he⟩ | ⟨e, he⟩
        · rw [hb] at he
          cases he
        · rw [he] at h3
          cases h3
  refine ⟨?_, hno⟩
  rcases except_ok_or_error (parseInterval strings today now input W) with h | ⟨r, hr⟩
  · exact h
  · exact absurd hr (hno r)

/-- C16 at "3/15 - 13/40" (the end has month 13) and at "soon - 3/15" (the begin is
neither a date nor a time). -/
theorem C16_nested_failure_propagates_witness :
    ('-' ∈ "3/15 - 13/40".toList ∧
      parseDateTime sampleNow (trim (afterFirst '-' (trim "3/15 - 13/40".toList))) (hours 0)
        (2011 : Nat) sampleDay = .error .bad_month) ∧
    ((∃ e, parseInterval defaultStrings sampleDay sampleNow "3/15 - 13/40".toList sampleInterval
        = .error e) ∧
      ∀ r, parseInterval defaultStrings sampleDay sampleNow "3/15 - 13/40".toList sampleInterval
        ≠ .ok r) ∧
    parseInterval defaultStrings sampleDay sampleNow "soon - 3/15".toList sampleInterval
      = .error .std_exception :=
  ⟨⟨by decide, by decide⟩,
   C16_nested_failure_propagates defaultStrings sampleDay sampleNow "3/15 - 13/40".toList
     sampleInterval (by decide)
     (fun y hy => by
       have h0 : (sampleInterval.begin.date >>= date.year) = .ok 2011 := by decide
       rw [h0] at hy
       rw [← Except.ok.inj hy]
       exact Or.inr ⟨.bad_month, by decide⟩),
   by decide⟩

/-- On a well-formed working interval the date and the weekday of the begin are computed
without an exception, and `parseInterval` is its `try` block with every exception
replaced by `std::exception`. -/
theorem parseInterval_wellFormed (strings : Str → Str) (today : date) (now : ptime)
    (input : Str) (W : time_period) (hW : W.wellFormed) :
    ∃ (d : date) (k : Nat), W.begin.date = .ok d ∧ d.day_of_week = .ok k ∧
      (∀ p, parseIntervalTry strings today now input d k = .ok p →
        parseInterval strings today now input W = .ok p) ∧
      (∀ e, parseIntervalTry strings today now input d k = .error e →
        parseInterval strings today now input W = .error .std_exception) := by
  obtain ⟨ymd, k, _, hd, hk, _⟩ := wellFormed_date W hW
  refine ⟨_, k, hd, hk, ?_, ?_⟩
  · intro p hp
    exact parseInterval_of_try _ _ _ _ _ _ _ _ hd hk hp
  · intro e he
    unfold parseInterval
    rw [hd, ok_bind, hk, ok_bind, he]

/-- The shortcut branch on an input whose first word is the table's word for "today". -/
theorem try_today (strings : Str → Str) (today : date) (now : ptime) (input : Str)
    (d : date) (k : Nat) (h1 : '-' ∉ trim input) (h2 : '/' ∉ trim input)
    (hfw : beforeFirst ' ' (trim input) = strings "today".toList) :
    parseIntervalTry strings today now input d k =
      validateInterval (ptime.of_date today) ((ptime.of_date today).add (hours 24)) := by
  rw [parseIntervalTry_shortcut _ _ _ _ _ _ h1 h2, if_pos hfw]
  rfl

/-- C11: with the word "today" in the string table, `parseInterval("today", W)` is the
same for every two well-formed working intervals `W1` and `W2` at the same reading of
today's date; and when today is the calendar date `x` (any but 31 December 9999, whose
next day is out of range) the result is the interval from `x` 00:00 to the next calendar
day 00:00. -/
theorem C11_today_independent (strings : Str → Str) (today : date) (now : ptime)
    (W1 W2 : time_period) (hs : strings "today".toList = "today".toList)
    (h1 : W1.wellFormed) (h2 : W2.wellFormed) :
    parseInterval strings today now "today".toList W1
        = parseInterval strings today now "today".toList W2 ∧
      ∀ x : ymd_type, x.valid → x ≠ ⟨9999, 12, 31⟩ → today = ⟨day_number x⟩ →
        ∃ r, parseInterval strings today now "today".toList W1 = .ok r ∧
          parseInterval strings today now "today".toList W2 = .ok r ∧
          r.begin = atTime x.year x.month x.day 0 0 ∧
          r.end_ = atTime (nextCalendarDay x).year (nextCalendarDay x).month
            (nextCalendarDay x).day 0 0 := by
  have hfw : beforeFirst ' ' (trim "today".toList) = strings "today".toList := by
    rw [hs]
    decide
  obtain ⟨d1, k1, _, _, a1, b1⟩ :=
    parseInterval_wellFormed strings today now "today".toList W1 h1
  obtain ⟨d2, k2, _, _, a2, b2⟩ :=
    parseInterval_wellFormed strings today now "today".toList W2 h2
  rw [try_today strings today now _ d1 k1 (by decide) (by decide) hfw] at a1 b1
  rw [try_today strings today now _ d2 k2 (by decide) (by decide) hfw] at a2 b2
  constructor
  · rcases except_ok_or_error
        (validateInterval (ptime.of_date today) ((ptime.of_date today).add (hours 24)))
      with ⟨e, he⟩ | ⟨p, hp⟩
    · rw [b1 e he, b2 e he]
    · rw [a1 p hp, a2 p hp]
  · intro x hv hlast hx
    subst hx
    obtain ⟨r, hr, hb, he, _⟩ := one_day_validated x hv hlast
    exact ⟨r, a1 r hr, a2 r hr, hb, he⟩

/-- C11 at two different working intervals (10 December 2011, and the week from
13 March 2011), today being 10 December 2011. -/
theorem C11_today_independent_witness :
    (defaultStrings "today".toList = "today".toList ∧ sampleInterval.wellFormed ∧
      (time_period.of_begin_end (atTime 2011 3 13 0 0) (atTime 2011 3 20 0 0)).wellFormed) ∧
    (parseInterval defaultStrings sampleDay sampleNow "today".toList sampleInterval
        = parseInterval defaultStrings sampleDay sampleNow "today".toList
            (time_period.of_begin_end (atTime 2011 3 13 0 0) (atTime 2011 3 20 0 0)) ∧
      ∀ x : ymd_type, x.valid → x ≠ ⟨9999, 12, 31⟩ → sampleDay = ⟨day_number x⟩ →
        ∃ r, parseInterval defaultStrings sampleDay sampleNow "today".toList sampleInterval
            = .ok r ∧
          parseInterval defaultStrings sampleDay sampleNow "today".toList
            (time_period.of_begin_end (atTime 2011 3 13 0 0) (atTime 2011 3 20 0 0)) = .ok r ∧
          r.begin = atTime x.year x.month x.day 0 0 ∧
          r.end_ = atTime (nextCalendarDay x).year (nextCalendarDay x).month
            (nextCalendarDay x).day 0 0) ∧
    parseInterval defaultStrings sampleDay sampleNow "today".toList sampleInterval
      = .ok (time_period.of_begin_end (atTime 2011 12 10 0 0) (atTime 2011 12 11 0 0)) :=
  ⟨⟨by decide, by decide, by decide⟩,
   C11_today_independent defaultStrings sampleDay sampleNow sampleInterval
     (time_period.of_begin_end (atTime 2011 3 13 0 0) (atTime 2011 3 20 0 0))
     (by decide) (by decide) (by decide),
   by decide⟩

theorem of_date_time_eq (n : Nat) (td : time_duration) (h1 : 1 ≤ n) (h2 : n < 4294967294) :
    ptime.of_date_time ⟨n⟩ td = ⟨(n : Int) * 86400000000 + td.ticks⟩ := by
  unfold ptime.of_date_time
  dsimp only
  rw [if_neg (by omega), if_neg (by omega), if_neg (by omega)]
  rfl

/-- The time point built from a date in the supported range and a time of day within
the day has that date and that time of day. -/
theorem of_date_time_decode (n : Nat) (td : time_duration) (h1 : 2232400 ≤ n)
    (h2 : n ≤ 5373484) (hr1 : 0 ≤ td.ticks) (hr2 : td.ticks < 86400000000) :
    (ptime.of_date_time ⟨n⟩ td).date = .ok ⟨n⟩ ∧ (ptime.of_date_time ⟨n⟩ td).time_of_day = td := by
  rw [of_date_time_eq n td (by omega) (by omega)]
  refine ⟨date_midnight n td.ticks h1 h2 hr1 hr2, ?_⟩
  unfold ptime.time_of_day
  rw [is_special_false _ (by dsimp only; omega) (by dsimp only; omega) (by dsimp only; omega)]
  simp only [Bool.false_eq_true, if_false, frac_sec_per_day]
  obtain ⟨r⟩ := td
  dsimp only at hr1 hr2 ⊢
  congr 1
  rw [Int.tmod_eq_emod (by omega) (by omega)]
  omega

/-- A text that contains a character other than '<', '>', 'n', 'o', 'w' is none of the
three special texts of `parseDateTime`. -/
theorem not_special_text (s : Str) (c : Char) (hc : c ∈ s) (h1 : c ≠ '<') (h2 : c ≠ '>')
    (h3 : c ≠ 'n') (h4 : c ≠ 'o') (h5 : c ≠ 'w') :
    s ≠ "<".toList ∧ s ≠ ">".toList ∧ s ≠ "now".toList := by
  refine ⟨?_, ?_, ?_⟩ <;>
  · intro h
    rw [h] at hc
    simp only [String.toList, List.mem_cons, List.mem_singleton, List.not_mem_nil,
      or_false] at hc
    tauto

/-- `parseDateTime` on a text "M/D" of two numerals: the date constructor is called with
the default year, and the default time is used. -/
theorem parseDateTime_month_day (now : ptime) (ms ds : Str) (M D : Nat)
    (defaultTime : time_duration) (defaultYear : Int) (today : date)
    (hm : IsDecimal ms M) (hd : IsDecimal ds D) (hM : M ≤ 2147483647) (hD : D ≤ 2147483647) :
    parseDateTime now (ms ++ '/' :: ds) defaultTime defaultYear today =
      (date.of_ints defaultYear (M : Int) (D : Int) >>= fun dt =>
        pure (ptime.of_date_time dt defaultTime)) := by
  have hmd : ∀ c ∈ ms, isdigit c = true := hm.2.1
  have hs1 : '/' ∉ ms := not_mem_of_digits ms '/' hmd (by decide)
  have hs2 : '/' ∉ ds := not_mem_of_digits ds '/' hd.2.1 (by decide)
  have hsp : ' ' ∉ ms ++ '/' :: ds := by
    intro hc
    simp only [List.mem_append, List.mem_cons] at hc
    rcases hc with hc | hc | hc
    · exact not_mem_of_digits ms ' ' hmd (by decide) hc
    · revert hc; decide
    · exact not_mem_of_digits ds ' ' hd.2.1 (by decide) hc
  obtain ⟨n1, n2, n3⟩ := not_special_text (ms ++ '/' :: ds) '/' (by simp) (by decide)
    (by decide) (by decide) (by decide) (by decide)
  have hne : ms ++ '/' :: ds ≠ [] := by simp
  have hc1 := decimalValue_nonneg_cast ms M hm hM
  have hc2 := decimalValue_nonneg_cast ds D hd hD
  unfold parseDateTime
  rw [if_neg n1, if_neg n2, if_neg n3]
  dsimp only
  simp only [find_of_not_mem ' ' _ hsp, find_first_sep ms ds '/' hs1, ne_eq,
    not_true_eq_false, if_false]
  rw [if_pos (by omega), ok_bind]
  dsimp only
  simp only [find_first_sep ms ds '/' hs1, find_second_none ms ds '/' hs2, substr_first,
    substrFrom_second, hc1, hc2, hne, ne_eq, not_true_eq_false, not_false_eq_true, if_false,
    if_true]
  rw [ok_bind, ok_bind]
  cases hdt : date.of_ints defaultYear (M : Int) (D : Int) with
  | error err => rfl
  | ok dt => rfl

/-- `parseDateTime` on a text "M/D/Y" of three numerals. -/
theorem parseDateTime_month_day_year (now : ptime) (ms ds ys : Str) (M D Y : Nat)
    (defaultTime : time_duration) (defaultYear : Int) (today : date)
    (hm : IsDecimal ms M) (hd : IsDecimal ds D) (hy : IsDecimal ys Y)
    (hM : M ≤ 2147483647) (hD : D ≤ 2147483647) (hY : Y ≤ 2147483647) :
    parseDateTime now (ms ++ '/' :: (ds ++ '/' :: ys)) defaultTime defaultYear today =
      (date.of_ints (Y : Int) (M : Int) (D : Int) >>= fun dt =>
        pure (ptime.of_date_time dt defaultTime)) := by
  have hmd : ∀ c ∈ ms, isdigit c = true := hm.2.1
  have hs1 : '/' ∉ ms := not_mem_of_digits ms '/' hmd (by decide)
  have hs2 : '/' ∉ ds := not_mem_of_digits ds '/' hd.2.1 (by decide)
  have hsp : ' ' ∉ ms ++ '/' :: (ds ++ '/' :: ys) := by
    intro hc
    simp only [List.mem_append, List.mem_cons] at hc
    rcases hc with hc | hc | hc | hc | hc
    · exact not_mem_of_digits ms ' ' hmd (by decide) hc
    · revert hc; decide
    · exact not_mem_of_digits ds ' ' hd.2.1 (by decide) hc
    · revert hc; decide
    · exact not_mem_of_digits ys ' ' hy.2.1 (by decide) hc
  obtain ⟨n1, n2, n3⟩ := not_special_text (ms ++ '/' :: (ds ++ '/' :: ys)) '/' (by simp)
    (by decide) (by decide) (by decide) (by decide) (by decide)
  have hne : ms ++ '/' :: (ds ++ '/' :: ys) ≠ [] := by simp
  have hc1 := decimalValue_nonneg_cast ms M hm hM
  have hc2 := decimalValue_nonneg_cast ds D hd hD
  have hc3 := decimalValue_nonneg_cast ys Y hy hY
  unfold parseDateTime
  rw [if_neg n1, if_neg n2, if_neg n3]
  dsimp only
  simp only [find_of_not_mem ' ' _ hsp, find_first_sep ms _ '/' hs1, ne_eq,
    not_true_eq_false, if_false]
  rw [if_pos (by omega), ok_bind]
  dsimp only
  simp only [find_first_sep ms _ '/' hs1, find_second_some ms ds ys '/' hs2, substr_first,
    substr_second, substrFrom_third, hc1, hc2, hc3, hne, ne_eq, not_true_eq_false,
    not_false_eq_true, if_false, if_true]
  rw [ok_bind, if_pos (by omega), ok_bind, ok_bind]
  cases hdt : date.of_ints (Y : Int) (M : Int) (D : Int) with
  | error err => rfl
  | ok dt => rfl

/-- C12: on a date-only text "M/D" or "M/D/Y" of decimal numerals that denotes a valid
calendar date (the year being the default year when it is omitted), `parseDateTime`
returns the time point built from that date and the default time; the value depends
neither on today nor on the clock.  When the default time lies within a day, the
returned time point has the calendar date (Y, M, D) and the time of day `defaultTime`. -/
theorem C12_date_only (now : ptime) (ms ds : Str) (ys : Option Str) (M D Y : Nat)
    (defaultTime : time_duration) (defaultYear : Int) (today : date)
    (hm : IsDecimal ms M) (hd : IsDecimal ds D) (hy : yearWritten defaultYear ys Y)
    (hv : ymd_type.valid ⟨Y, M, D⟩) :
    parseDateTime now (singleDateText ms ds ys) defaultTime defaultYear today
        = .ok (ptime.of_date_time ⟨day_number ⟨Y, M, D⟩⟩ defaultTime) ∧
      (0 ≤ defaultTime.ticks → defaultTime.ticks < frac_sec_per_day →
        ((ptime.of_date_time ⟨day_number ⟨Y, M, D⟩⟩ defaultTime).date >>= date.year_month_day)
            = .ok ⟨Y, M, D⟩ ∧
          (ptime.of_date_time ⟨day_number ⟨Y, M, D⟩⟩ defaultTime).time_of_day = defaultTime) := by
  have hc := valid_checked _ hv
  obtain ⟨n1, n2⟩ := day_number_bounds _ hc
  obtain ⟨c1, c2, c3, c4, c5, c6⟩ := hc
  dsimp only at c1 c2 c3 c4 c5 c6
  have hof := of_ints_valid ⟨Y, M, D⟩ hv
  dsimp only at hof
  constructor
  · cases ys with
    | none =>
      have hy' : defaultYear = (Y : Int) := hy
      show parseDateTime now (ms ++ '/' :: (ds ++ [])) defaultTime defaultYear today = _
      rw [List.append_nil, parseDateTime_month_day now ms ds M D defaultTime defaultYear today
        hm hd (by omega) (by omega), hy', hof]
      rfl
    | some y =>
      have hy' : IsDecimal y Y := hy
      show parseDateTime now (ms ++ '/' :: (ds ++ '/' :: y)) defaultTime defaultYear today = _
      rw [parseDateTime_month_day_year now ms ds y M D Y defaultTime defaultYear today
        hm hd hy' (by omega) (by omega) (by omega), hof]
      rfl
  · intro t1 t2
    rw [frac_sec_per_day_eq] at t2
    obtain ⟨e1, e2⟩ := of_date_time_decode _ defaultTime n1 n2 t1 t2
    refine ⟨?_, e2⟩
    rw [e1, ok_bind]
    exact from_day_number_day_number _ hv

/-- C12 at "3/15" with the default year 2011 and the default time 09:00, and at
"2/29/2012" with the default time 00:00, for two different readings of today. -/
theorem C12_date_only_witness :
    (IsDecimal "3".toList 3 ∧ IsDecimal "15".toList 15 ∧ yearWritten 2011 none 2011 ∧
      ymd_type.valid ⟨2011, 3, 15⟩) ∧
    (parseDateTime sampleNow (singleDateText "3".toList "15".toList none)
        (time_duration.of_hms 9 0 0) 2011 sampleDay
        = .ok (ptime.of_date_time ⟨day_number ⟨2011, 3, 15⟩⟩ (time_duration.of_hms 9 0 0)) ∧
      (0 ≤ (time_duration.of_hms 9 0 0).ticks →
        (time_duration.of_hms 9 0 0).ticks < frac_sec_per_day →
        ((ptime.of_date_time ⟨day_number ⟨2011, 3, 15⟩⟩ (time_duration.of_hms 9 0 0)).date
            >>= date.year_month_day) = .ok ⟨2011, 3, 15⟩ ∧
          (ptime.of_date_time ⟨day_number ⟨2011, 3, 15⟩⟩ (time_duration.of_hms 9 0 0)).time_of_day
            = time_duration.of_hms 9 0 0)) ∧
    singleDateText "3".toList "15".toList none = "3/15".toList ∧
    parseDateTime sampleNow "3/15".toList (time_duration.of_hms 9 0 0) 2011 sampleDay
      = .ok (atTime 2011 3 15 9 0) ∧
    parseDateTime sampleNow "2/29/2012".toList (hours 0) 2011 sampleDay
      = .ok (atTime 2012 2 29 0 0) ∧
    parseDateTime sampleNow "2/29/2012".toList (hours 0) 2011 ⟨day_number ⟨1999, 1, 1⟩⟩
      = .ok (atTime 2012 2 29 0 0) :=
  ⟨⟨by decide, by decide, by decide, by decide⟩,
   C12_date_only sampleNow "3".toList "15".toList none 3 15 2011 (time_duration.of_hms 9 0 0)
     2011 sampleDay (by decide) (by decide) (by decide) (by decide),
   by decide, by decide, by decide, by decide⟩

/-- `parseDateTime` on a text "H:M" of two numerals: the date is today, the time is
built by `time_duration(H, M, 0)`. -/
theorem parseDateTime_time_only (now : ptime) (hs ms : Str) (H Mi : Nat)
    (defaultTime : time_duration) (defaultYear : Int) (today : date)
    (hh : IsDecimal hs H) (hm : IsDecimal ms Mi) (hH : H ≤ 2147483647)
    (hM : Mi ≤ 2147483647) :
    parseDateTime now (hs ++ ':' :: ms) defaultTime defaultYear today =
      .ok (ptime.of_date_time today (time_duration.of_hms (H : Int) (Mi : Int) 0)) := by
  have hc1 : ':' ∉ hs := not_mem_of_digits hs ':' hh.2.1 (by decide)
  have hnot : ∀ x : Char, isdigit x = false → x ≠ ':' → x ∉ hs ++ ':' :: ms := by
    intro x hx hne hc
    simp only [List.mem_append, List.mem_cons] at hc
    rcases hc with hc | hc | hc
    · exact not_mem_of_digits hs x hh.2.1 hx hc
    · exact hne hc
    · exact not_mem_of_digits ms x hm.2.1 hx hc
  have hsp : ' ' ∉ hs ++ ':' :: ms := hnot ' ' (by decide) (by decide)
  have hsl : '/' ∉ hs ++ ':' :: ms := hnot '/' (by decide) (by decide)
  obtain ⟨n1, n2, n3⟩ := not_special_text (hs ++ ':' :: ms) ':' (by simp) (by decide)
    (by decide) (by decide) (by decide) (by decide)
  have hne : hs ++ ':' :: ms ≠ [] := by simp
  have e1 := decimalValue_nonneg_cast hs H hh hH
  have e2 := decimalValue_nonneg_cast ms Mi hm hM
  unfold parseDateTime
  rw [if_neg n1, if_neg n2, if_neg n3]
  dsimp only
  simp only [find_of_not_mem ' ' _ hsp, find_of_not_mem '/' _ hsl,
    find_first_sep hs ms ':' hc1, ne_eq, not_true_eq_false, if_false]
  rw [if_pos (by omega), ok_bind]
  dsimp only
  simp only [find_first_sep hs ms ':' hc1, substr_first, substrFrom_second, e1, e2, hne, ne_eq,
    not_true_eq_false, not_false_eq_true, if_false, if_true]
  rfl

theorem of_hms_ticks (h m : Nat) :
    (time_duration.of_hms (h : Int) (m : Int) 0).ticks = ((h : Int) * 3600 + (m : Int) * 60) * 1000000 := by
  unfold time_duration.of_hms
  rw [if_neg (by omega)]
  dsimp only
  omega

/-- C13: on a time-only text "H:M" of decimal numerals with `H < 24` and `M < 60`,
`parseDateTime` returns the time point built from today's date and the duration of `H`
hours, `M` minutes and 0 seconds; the value depends neither on the default time nor on
the default year.  When today is the calendar date `x`, the returned time point has the
date `x`, the hour `H`, the minute `M`, and nothing beyond the whole minutes. -/
theorem C13_time_only (now : ptime) (hs ms : Str) (H Mi : Nat)
    (defaultTime : time_duration) (defaultYear : Int) (today : date)
    (hh : IsDecimal hs H) (hm : IsDecimal ms Mi) (hH : H < 24) (hM : Mi < 60) :
    parseDateTime now (hs ++ ':' :: ms) defaultTime defaultYear today
        = .ok (ptime.of_date_time today (time_duration.of_hms (H : Int) (Mi : Int) 0)) ∧
      ∀ x : ymd_type, x.valid → today = ⟨day_number x⟩ →
        ∃ t, parseDateTime now (hs ++ ':' :: ms) defaultTime defaultYear today = .ok t ∧
          (t.date >>= date.year_month_day) = .ok x ∧
          t.time_of_day.hours = (H : Int) ∧ t.time_of_day.minutes = (Mi : Int) ∧
          t.time_of_day.ticks = (H : Int) * 3600000000 + (Mi : Int) * 60000000 := by
  have hp := parseDateTime_time_only now hs ms H Mi defaultTime defaultYear today hh hm
    (by omega) (by omega)
  refine ⟨hp, ?_⟩
  intro x hv hx
  subst hx
  obtain ⟨n1, n2⟩ := day_number_bounds _ (valid_checked _ hv)
  have ht := of_hms_ticks H Mi
  obtain ⟨d1, d2⟩ := of_date_time_decode (day_number x)
    (time_duration.of_hms (H : Int) (Mi : Int) 0) n1 n2 (by rw [ht]; omega) (by rw [ht]; omega)
  refine ⟨_, hp, ?_, ?_, ?_, ?_⟩
  · rw [d1, ok_bind]
    exact from_day_number_day_number _ hv
  · rw [d2]
    unfold time_duration.hours
    rw [ht, Int.tdiv_eq_ediv (by omega) (by omega)]
    omega
  · rw [d2]
    unfold time_duration.minutes
    rw [ht, Int.tdiv_eq_ediv (by omega) (by omega), Int.tmod_eq_emod (by omega) (by omega)]
    omega
  · rw [d2, ht]
    omega

/-- C13 at "14:30" with today 10 December 2011, for two different default times and
default years. -/
theorem C13_time_only_witness :
    (IsDecimal "14".toList 14 ∧ IsDecimal "30".toList 30 ∧ 14 < 24 ∧ 30 < 60) ∧
    (parseDateTime sampleNow ("14".toList ++ ':' :: "30".toList) (hours 0) 2011 sampleDay
        = .ok (ptime.of_date_time sampleDay (time_duration.of_hms (14 : Nat) (30 : Nat) 0)) ∧
      ∀ x : ymd_type, x.valid → sampleDay = ⟨day_number x⟩ →
        ∃ t, parseDateTime sampleNow ("14".toList ++ ':' :: "30".toList) (hours 0) 2011
            sampleDay = .ok t ∧
          (t.date >>= date.year_month_day) = .ok x ∧
          t.time_of_day.hours = ((14 : Nat) : Int) ∧ t.time_of_day.minutes = ((30 : Nat) : Int) ∧
          t.time_of_day.ticks = ((14 : Nat) : Int) * 3600000000 + ((30 : Nat) : Int) * 60000000) ∧
    parseDateTime sampleNow "14:30".toList (hours 0) 2011 sampleDay
      = .ok (atTime 2011 12 10 14 30) ∧
    parseDateTime sampleNow "14:30".toList (time_duration.of_hms 9 0 0) 1999 sampleDay
      = .ok (atTime 2011 12 10 14 30) :=
  ⟨⟨by decide, by decide, by decide, by decide⟩,
   C13_time_only sampleNow "14".toList "30".toList 14 30 (hours 0) 2011 sampleDay
     (by decide) (by decide) (by decide) (by decide),
   by decide, by decide⟩

/-- `buildIntervalString` written with the value of its local variable `fullDay`. -/
theorem buildIntervalString_eq (I : time_period) :
    buildIntervalString I =
      (getDateTimeString I.begin (if fullDay I = true then [] else getTimeString I.begin)
        >>= fun bs =>
      getDateTimeString I.end_ (if fullDay I = true then [] else getTimeString I.end_)
        >>= fun es =>
      I.begin.date >>= fun bd => I.end_.date >>= fun ed =>
        if ¬ (bd.add_days 1 = ed ∧ fullDay I = true) then
          pure ("[".toList ++ bs ++ " - ".toList ++ es ++ "]".toList)
        else pure ("[".toList ++ bs ++ "]".toList)) := rfl

theorem timeStr_eq_midnight_iff : ∀ h, h < 24 → ∀ m, m < 60 →
    decide (timeStr h m = " 00:00".toList) = decide (h = 0 ∧ m = 0) := by
  decide!

theorem wellFormed_bounds (I : time_period) (hW : I.wellFormed) :
    min_date_time ≤ I.begin ∧ I.begin ≤ max_date_time ∧ min_date_time ≤ I.end_ ∧
      I.end_ ≤ max_date_time := by
  obtain ⟨w1, w2, w3⟩ := hW
  rw [ptime_le_iff] at w1 w2 w3
  refine ⟨w1, ?_, ?_, w3⟩
  · rw [ptime_le_iff]; omega
  · rw [ptime_le_iff]; omega

/-- The value of `fullDay` on an interval with both ends in the supported range, in
terms of the hours and minutes of the two ends. -/
theorem fullDay_wellFormed (I : time_period) (hW : I.wellFormed) :
    ∃ hb mb he me : Nat, hb < 24 ∧ mb < 60 ∧ he < 24 ∧ me < 60 ∧
      I.begin.time_of_day.hours = (hb : Int) ∧ I.begin.time_of_day.minutes = (mb : Int) ∧
      I.end_.time_of_day.hours = (he : Int) ∧ I.end_.time_of_day.minutes = (me : Int) ∧
      getTimeString I.begin = timeStr hb mb ∧ getTimeString I.end_ = timeStr he me ∧
      (fullDay I = true ↔ (hb = 0 ∧ mb = 0) ∧ ((he = 0 ∧ me = 0) ∨ I.end_ = max_date_time)) := by
  obtain ⟨b1, b2, e1, e2⟩ := wellFormed_bounds I hW
  obtain ⟨hb, mb, hhb, hmb, ehb, emb, tb⟩ := getTimeString_in_range I.begin b1 b2
  obtain ⟨he, me, hhe, hme, ehe, eme, te⟩ := getTimeString_in_range I.end_ e1 e2
  refine ⟨hb, mb, he, me, hhb, hmb, hhe, hme, ehb, emb, ehe, eme, tb, te, ?_⟩
  unfold fullDay
  rw [tb, te, timeStr_midnight_iff hb hhb mb hmb, timeStr_midnight_iff he hhe me hme]
  simp only [Bool.and_eq_true, Bool.or_eq_true, decide_eq_true_eq]

/-- What `buildIntervalString` returns for an interval with both ends in the supported
range, in terms of the calendar dates, hours and minutes of the two ends. -/
theorem buildIntervalString_wellFormed (I : time_period) (hW : I.wellFormed) :
    ∃ (xb xe : ymd_type) (hb mb he me : Nat), xb.valid ∧ xe.valid ∧
      hb < 24 ∧ mb < 60 ∧ he < 24 ∧ me < 60 ∧
      I.begin.date = .ok ⟨day_number xb⟩ ∧ I.end_.date = .ok ⟨day_number xe⟩ ∧
      I.begin.time_of_day.hours = (hb : Int) ∧ I.begin.time_of_day.minutes = (mb : Int) ∧
      I.end_.time_of_day.hours = (he : Int) ∧ I.end_.time_of_day.minutes = (me : Int) ∧
      buildIntervalString I = .ok ("[".toList
        ++ (if I.begin = min_date_time then "<".toList
            else if I.begin = max_date_time then ">".toList
            else renderDate xb ++ (if fullDay I = true then [] else timeStr hb mb))
        ++ (if day_number xb + 1 = day_number xe ∧ fullDay I = true then []
            else " - ".toList
              ++ (if I.end_ = min_date_time then "<".toList
                  else if I.end_ = max_date_time then ">".toList
                  else renderDate xe ++ (if fullDay I = true then [] else timeStr he me)))
        ++ "]".toList) := by
  obtain ⟨b1, b2, e1, e2⟩ := wellFormed_bounds I hW
  obtain ⟨hb, mb, he, me, hhb, hmb, hhe, hme, ehb, emb, ehe, eme, tb, te, _⟩ :=
    fullDay_wellFormed I hW
  obtain ⟨xb, vb, db, _, gb⟩ := getDateTimeString_in_range I.begin
    (if fullDay I = true then [] else getTimeString I.begin) b1 b2
  obtain ⟨xe, ve, de, _, ge⟩ := getDateTimeString_in_range I.end_
    (if fullDay I = true then [] else getTimeString I.end_) e1 e2
  obtain ⟨n1, n2⟩ := day_number_bounds xb (valid_checked xb vb)
  obtain ⟨n3, n4⟩ := day_number_bounds xe (valid_checked xe ve)
  refine ⟨xb, xe, hb, mb, he, me, vb, ve, hhb, hmb, hhe, hme, db, de, ehb, emb, ehe, eme, ?_⟩
  rw [buildIntervalString_eq, gb, ok_bind, ge, ok_bind, db, ok_bind, de, ok_bind,
    add_days_eq _ 1 (by omega) (by omega) (by omega) (by omega), tb, te]
  have hdate : ((⟨((day_number xb : Int) + 1).toNat⟩ : date) = ⟨day_number xe⟩)
      ↔ day_number xb + 1 = day_number xe := by
    rw [date.mk.injEq]
    omega
  simp only [hdate]
  by_cases hs : day_number xb + 1 = day_number xe ∧ fullDay I = true
  · rw [if_neg (not_not.2 hs), if_pos hs]
    simp only [List.append_nil]
    rfl
  · rw [if_pos hs, if_neg hs]
    simp only [List.append_assoc]
    rfl

theorem colon_mem_timeStr (h m : Nat) : ':' ∈ timeStr h m := by
  unfold timeStr
  simp

/-- The characters of an endpoint rendered without a time of day. -/
theorem endpoint_plain (t : ptime) (x : ymd_type) :
    ∀ c ∈ (if t = min_date_time then "<".toList else if t = max_date_time then ">".toList
        else renderDate x ++ []),
      plainChar c = true ∨ c = '<' ∨ c = '>' ∨ c = '[' ∨ c = ']' ∨ c = ' ' ∨ c = '-' := by
  intro c hc
  split_ifs at hc
  · right; left; simpa using hc
  · right; right; left; simpa using hc
  · rw [List.append_nil] at hc
    left; exact renderDate_plain x c hc

/-- C17, counterexample: the interval from 10 December 2011 09:30 to `max_date_time` ends
exactly at `max_date_time`, yet its full-day status is false and the begin's time of day
is shown: the string is `[10 Dec 2011 09:30 - >]`. -/
theorem C17_counterexample :
    (time_period.of_begin_end (atTime 2011 12 10 9 30) max_date_time).wellFormed ∧
    (time_period.of_begin_end (atTime 2011 12 10 9 30) max_date_time).end_ = max_date_time ∧
    fullDay (time_period.of_begin_end (atTime 2011 12 10 9 30) max_date_time) = false ∧
    buildIntervalString (time_period.of_begin_end (atTime 2011 12 10 9 30) max_date_time)
      = .ok "[10 Dec 2011 09:30 - >]".toList ∧
    ¬ (fullDay (time_period.of_begin_end (atTime 2011 12 10 9 30) max_date_time) = true ↔
        ((getTimeString (time_period.of_begin_end (atTime 2011 12 10 9 30) max_date_time).begin
              = " 00:00".toList ∧
            getTimeString (time_period.of_begin_end (atTime 2011 12 10 9 30) max_date_time).end_
              = " 00:00".toList) ∨
          (time_period.of_begin_end (atTime 2011 12 10 9 30) max_date_time).end_
            = max_date_time)) := by
  refine ⟨by decide, by decide, by decide, by decide, ?_⟩
  intro h
  have h1 : (time_period.of_begin_end (atTime 2011 12 10 9 30) max_date_time).end_
      = max_date_time := by decide
  have h2 := h.2 (Or.inr h1)
  revert h2
  decide

/-- C17 (amended): for a well-formed interval, the full-day status is true exactly when
the begin's time of day renders as " 00:00" and, besides, the end's time of day renders
as " 00:00" or the end is `max_date_time`.  The status decides the time strings handed
to `getDateTimeString` (both empty when it is true), and the string returned contains
no ':' exactly when the status is true or the begin is `max_date_time` (both ends are
then rendered as ">"). -/
theorem C17_full_day_status (I : time_period) (hW : I.wellFormed) :
    (fullDay I = true ↔
      getTimeString I.begin = " 00:00".toList ∧
        (getTimeString I.end_ = " 00:00".toList ∨ I.end_ = max_date_time)) ∧
    buildIntervalString I =
      (getDateTimeString I.begin (if fullDay I = true then [] else getTimeString I.begin)
        >>= fun bs =>
      getDateTimeString I.end_ (if fullDay I = true then [] else getTimeString I.end_)
        >>= fun es =>
      I.begin.date >>= fun bd => I.end_.date >>= fun ed =>
        if ¬ (bd.add_days 1 = ed ∧ fullDay I = true) then
          pure ("[".toList ++ bs ++ " - ".toList ++ es ++ "]".toList)
        else pure ("[".toList ++ bs ++ "]".toList)) ∧
    ∃ s, buildIntervalString I = .ok s ∧
      (':' ∉ s ↔ fullDay I = true ∨ I.begin = max_date_time) := by
  obtain ⟨hb, mb, he, me, hhb, hmb, hhe, hme, ehb, emb, ehe, eme, tb, te, hfd⟩ :=
    fullDay_wellFormed I hW
  have kb := timeStr_eq_midnight_iff hb hhb mb hmb
  have ke := timeStr_eq_midnight_iff he hhe me hme
  have kb' : timeStr hb mb = " 00:00".toList ↔ hb = 0 ∧ mb = 0 := decide_eq_decide.1 kb
  have ke' : timeStr he me = " 00:00".toList ↔ he = 0 ∧ me = 0 := decide_eq_decide.1 ke
  refine ⟨?_, buildIntervalString_eq I, ?_⟩
  · rw [hfd, tb, te, kb', ke']
  · obtain ⟨xb, xe, hb2, mb2, he2, me2, vb, ve, _, _, _, _, db, de, ehb2, emb2, ehe2, eme2,
      hs⟩ := buildIntervalString_wellFormed I hW
    have q1 : hb = hb2 := by omega
    have q2 : mb = mb2 := by omega
    have q3 : he = he2 := by omega
    have q4 : me = me2 := by omega
    rw [q1, q2, q3, q4] at hfd
    refine ⟨_, hs, ?_⟩
    obtain ⟨w1, w2, w3⟩ := hW
    have min0 : ∀ t : ptime, t = min_date_time → ∀ a b : Nat,
        t.time_of_day.hours = (a : Int) → t.time_of_day.minutes = (b : Int) → a = 0 ∧ b = 0 := by
      intro t ht a b ha hb
      rw [ht] at ha hb
      have e1 : min_date_time.time_of_day.hours = 0 := by decide
      have e2 : min_date_time.time_of_day.minutes = 0 := by decide
      rw [e1] at ha
      rw [e2] at hb
      omega
    by_cases hf : fullDay I = true
    · simp only [hf, if_true, true_or, iff_true, and_true]
      apply no_colon_of_plain
      intro c hc
      simp only [List.mem_append] at hc
      rcases hc with ((hc | hc) | hc) | hc
      · right; right; right; left; simpa using hc
      · exact endpoint_plain I.begin xb c hc
      · by_cases hsd : day_number xb + 1 = day_number xe
        · rw [if_pos hsd] at hc
          cases hc
        · rw [if_neg hsd, List.mem_append] at hc
          rcases hc with hc | hc
          · revert hc; revert c; decide
          · exact endpoint_plain I.end_ xe c hc
      · right; right; right; right; left; simpa using hc
    · simp only [hf, if_false, false_or, and_false, Bool.false_eq_true]
      by_cases hbm : I.begin = max_date_time
      · have hem : I.end_ = max_date_time := by
          apply ptime_ext
          rw [ptime_le_iff] at w2 w3
          rw [hbm] at w2
          omega
        rw [if_neg (by rw [hbm]; decide), if_pos hbm, if_neg (by rw [hem]; decide), if_pos hem]
        simp only [hbm, iff_true]
        decide
      · simp only [hbm, iff_false, not_not, if_false]
        by_cases hbn : I.begin = min_date_time
        · have z : hb2 = 0 ∧ mb2 = 0 := min0 _ hbn _ _ ehb2 emb2
          have hne : ¬ ((he2 = 0 ∧ me2 = 0) ∨ I.end_ = max_date_time) := by
            intro hc
            exact hf (hfd.2 ⟨z, hc⟩)
          have hen : I.end_ ≠ min_date_time := by
            intro hc
            exact hne (Or.inl (min0 _ hc _ _ ehe2 eme2))
          have hex : I.end_ ≠ max_date_time := fun hc => hne (Or.inr hc)
          rw [if_pos hbn, if_neg hen, if_neg hex]
          simp only [List.mem_append]
          exact Or.inl (Or.inr (Or.inr (Or.inr (colon_mem_timeStr he2 me2))))
        · rw [if_neg hbn]
          simp only [List.mem_append]
          exact Or.inl (Or.inl (Or.inr (Or.inr (colon_mem_timeStr hb2 mb2))))

/-- C17 (amended) at the interval from 10 December 2011 00:00 to `max_date_time`, whose
full-day status is true, with its rendering. -/
theorem C17_full_day_status_witness :
    (time_period.of_begin_end (atTime 2011 12 10 0 0) max_date_time).wellFormed ∧
    ((fullDay (time_period.of_begin_end (atTime 2011 12 10 0 0) max_date_time) = true ↔
      getTimeString (time_period.of_begin_end (atTime 2011 12 10 0 0) max_date_time).begin
          = " 00:00".toList ∧
        (getTimeString (time_period.of_begin_end (atTime 2011 12 10 0 0) max_date_time).end_
            = " 00:00".toList ∨
          (time_period.of_begin_end (atTime 2011 12 10 0 0) max_date_time).end_
            = max_date_time)) ∧
     (∃ s, buildIntervalString (time_period.of_begin_end (atTime 2011 12 10 0 0) max_date_time)
        = .ok s ∧
      (':' ∉ s ↔ fullDay (time_period.of_begin_end (atTime 2011 12 10 0 0) max_date_time)
          = true ∨
        (time_period.of_begin_end (atTime 2011 12 10 0 0) max_date_time).begin
          = max_date_time))) ∧
    fullDay (time_period.of_begin_end (atTime 2011 12 10 0 0) max_date_time) = true ∧
    buildIntervalString (time_period.of_begin_end (atTime 2011 12 10 0 0) max_date_time)
      = .ok "[10 Dec 2011 - >]".toList ∧
    fullDay (time_period.of_begin_end (atTime 2011 12 10 0 0) (atTime 2011 12 12 0 0)) = true ∧
    fullDay (time_period.of_begin_end (atTime 2011 12 10 0 0) (atTime 2011 12 12 9 0)) = false :=
  ⟨by decide,
   ⟨(C17_full_day_status _ (by decide)).1, (C17_full_day_status _ (by decide)).2.2⟩,
   by decide, by decide, by decide, by decide⟩

theorem decimalValue_concat (ds : Str) (c : Char) :
    decimalValue (ds ++ [c]) = 10 * decimalValue ds + (c.toNat - 48) := by
  unfold decimalValue
  rw [List.foldl_append]
  rfl

theorem digitChar_toNat : ∀ d, d < 10 → (digitChar d).toNat - 48 = d := by
  decide

theorem digitChar_ne_zero : ∀ d, d < 10 → d ≠ 0 → digitChar d ≠ '0' := by
  decide

/-- The digits that `natDigits` puts in front of `acc` are the decimal numeral of `n`,
without a leading zero. -/
theorem natDigits_spec (fuel : Nat) : ∀ (n : Nat) (acc : Str), n < fuel →
    ∃ ds, natDigits fuel n acc = ds ++ acc ∧ IsDecimal ds n ∧
      (n ≠ 0 → ds.head? ≠ some '0') := by
  induction fuel with
  | zero => intro n acc h; omega
  | succ fuel ih =>
    intro n acc h
    unfold natDigits
    by_cases h0 : n / 10 = 0
    · rw [if_pos h0]
      have hn : n < 10 := by omega
      have hm : n % 10 = n := by omega
      rw [hm]
      refine ⟨[digitChar n], rfl, ⟨by simp, ?_, ?_⟩, ?_⟩
      · intro c hc
        rw [List.mem_singleton] at hc
        rw [hc]
        exact isdigit_digitChar n hn
      · have := decimalValue_concat [] (digitChar n)
        rw [List.nil_append] at this
        rw [this, digitChar_toNat n hn]
        have z : decimalValue [] = 0 := rfl
        rw [z]
        omega
      · intro hne
        simp only [List.head?_cons, ne_eq, Option.some.injEq]
        exact digitChar_ne_zero n hn hne
    · rw [if_neg h0]
      obtain ⟨ds, e, ⟨d1, d2, d3⟩, d4⟩ := ih (n / 10) (digitChar (n % 10) :: acc) (by omega)
      refine ⟨ds ++ [digitChar (n % 10)], ?_, ⟨by simp, ?_, ?_⟩, ?_⟩
      · rw [e]
        simp
      · intro c hc
        rw [List.mem_append, List.mem_singleton] at hc
        rcases hc with hc | hc
        · exact d2 c hc
        · rw [hc]
          exact isdigit_digitChar _ (by omega)
      · rw [decimalValue_concat, d3, digitChar_toNat _ (by omega)]
        omega
      · intro _
        have := d4 h0
        cases ds with
        | nil => exact absurd rfl d1
        | cons a t => simpa using this

/-- `showNat n` is the decimal numeral of `n` without a leading zero. -/
theorem showNat_decimal (n : Nat) :
    IsDecimal (showNat n) n ∧ (n ≠ 0 → (showNat n).head? ≠ some '0') := by
  obtain ⟨ds, e, h1, h2⟩ := natDigits_spec (n + 1) n [] (by omega)
  unfold showNat
  rw [e, List.append_nil]
  exact ⟨h1, h2⟩

theorem monthShortName_length : ∀ m, 1 ≤ m → m ≤ 12 → (monthShortName m).length = 3 := by
  decide

/-- C19, counterexample: 15 March 2011 with the time suffix " 14:30" is rendered as
"15 Mar 2011 14:30", the month as its abbreviated English name, not as "15 3 2011 14:30". -/
theorem C19_counterexample :
    ((atTime 2011 3 15 14 30).date >>= date.year_month_day) = .ok ⟨2011, 3, 15⟩ ∧
    getDateTimeString (atTime 2011 3 15 14 30) " 14:30".toList
      = .ok "15 Mar 2011 14:30".toList ∧
    renderDatePlain ⟨2011, 3, 15⟩ ++ " 14:30".toList = "15 3 2011 14:30".toList ∧
    getDateTimeString (atTime 2011 3 15 14 30) " 14:30".toList
      ≠ .ok (renderDatePlain ⟨2011, 3, 15⟩ ++ " 14:30".toList) ∧
    buildIntervalString (time_period.of_begin_end (atTime 2011 3 15 14 30) (atTime 2011 3 16 9 0))
      = .ok "[15 Mar 2011 14:30 - 16 Mar 2011 09:00]".toList := by
  refine ⟨by decide, by decide, by decide, by decide, by decide⟩

/-- C19 (amended): in the string `buildIntervalString` returns for a well-formed interval,
an endpoint equal to `min_date_time` is rendered as "<", one equal to `max_date_time` as
">", and any other endpoint as its date `renderDate x` followed by its time string
" HH:MM" unless the full-day status suppresses the times; the end is left out for a single
full day.  `renderDate x` is the day as a decimal numeral without a leading zero, the
three-letter English month name and the year as a decimal numeral, separated by single
spaces. -/
theorem C19_endpoint_rendering (I : time_period) (hW : I.wellFormed) :
    (∃ (xb xe : ymd_type) (hb mb he me : Nat), xb.valid ∧ xe.valid ∧
      hb < 24 ∧ mb < 60 ∧ he < 24 ∧ me < 60 ∧
      I.begin.date = .ok ⟨day_number xb⟩ ∧ I.end_.date = .ok ⟨day_number xe⟩ ∧
      I.begin.time_of_day.hours = (hb : Int) ∧ I.begin.time_of_day.minutes = (mb : Int) ∧
      I.end_.time_of_day.hours = (he : Int) ∧ I.end_.time_of_day.minutes = (me : Int) ∧
      buildIntervalString I = .ok ("[".toList
        ++ (if I.begin = min_date_time then "<".toList
            else if I.begin = max_date_time then ">".toList
            else renderDate xb ++ (if fullDay I = true then [] else timeStr hb mb))
        ++ (if day_number xb + 1 = day_number xe ∧ fullDay I = true then []
            else " - ".toList
              ++ (if I.end_ = min_date_time then "<".toList
                  else if I.end_ = max_date_time then ">".toList
                  else renderDate xe ++ (if fullDay I = true then [] else timeStr he me)))
        ++ "]".toList)) ∧
    ∀ x : ymd_type, x.valid →
      renderDate x = showNat x.day ++ " ".toList ++ monthShortName x.month ++ " ".toList
        ++ showNat x.year ∧
      IsDecimal (showNat x.day) x.day ∧ (showNat x.day).head? ≠ some '0' ∧
      (monthShortName x.month).length = 3 ∧
      IsDecimal (showNat x.year) x.year ∧ (showNat x.year).head? ≠ some '0' := by
  refine ⟨buildIntervalString_wellFormed I hW, ?_⟩
  intro x hv
  obtain ⟨h1, h2, h3, h4, h5, h6⟩ := hv
  refine ⟨rfl, (showNat_decimal x.day).1, (showNat_decimal x.day).2 (by omega),
    monthShortName_length x.month h3 h4, (showNat_decimal x.year).1,
    (showNat_decimal x.year).2 (by omega)⟩

/-- C19 (amended) at the interval from 15 March 2011 14:30 to 16 March 2011 09:00, with the
string returned for it and for the interval from `min_date_time` to `max_date_time`. -/
theorem C19_endpoint_rendering_witness :
    (time_period.of_begin_end (atTime 2011 3 15 14 30) (atTime 2011 3 16 9 0)).wellFormed ∧
    (∃ (xb xe : ymd_type) (hb mb he me : Nat), xb.valid ∧ xe.valid ∧
      hb < 24 ∧ mb < 60 ∧ he < 24 ∧ me < 60 ∧
      (time_period.of_begin_end (atTime 2011 3 15 14 30) (atTime 2011 3 16 9 0)).begin.date
        = .ok ⟨day_number xb⟩ ∧
      (time_period.of_begin_end (atTime 2011 3 15 14 30) (atTime 2011 3 16 9 0)).end_.date
        = .ok ⟨day_number xe⟩ ∧
      (time_period.of_begin_end (atTime 2011 3 15 14 30)
        (atTime 2011 3 16 9 0)).begin.time_of_day.hours = (hb : Int) ∧
      (time_period.of_begin_end (atTime 2011 3 15 14 30)
        (atTime 2011 3 16 9 0)).begin.time_of_day.minutes = (mb : Int) ∧
      (time_period.of_begin_end (atTime 2011 3 15 14 30)
        (atTime 2011 3 16 9 0)).end_.time_of_day.hours = (he : Int) ∧
      (time_period.of_begin_end (atTime 2011 3 15 14 30)
        (atTime 2011 3 16 9 0)).end_.time_of_day.minutes = (me : Int) ∧
      buildIntervalString (time_period.of_begin_end (atTime 2011 3 15 14 30)
          (atTime 2011 3 16 9 0)) = .ok ("[".toList
        ++ (if (time_period.of_begin_end (atTime 2011 3 15 14 30)
              (atTime 2011 3 16 9 0)).begin = min_date_time then "<".toList
            else if (time_period.of_begin_end (atTime 2011 3 15 14 30)
              (atTime 2011 3 16 9 0)).begin = max_date_time then ">".toList
            else renderDate xb ++ (if fullDay (time_period.of_begin_end (atTime 2011 3 15 14 30)
              (atTime 2011 3 16 9 0)) = true then [] else timeStr hb mb))
        ++ (if day_number xb + 1 = day_number xe ∧ fullDay (time_period.of_begin_end
              (atTime 2011 3 15 14 30) (atTime 2011 3 16 9 0)) = true then []
            else " - ".toList
              ++ (if (time_period.of_begin_end (atTime 2011 3 15 14 30)
                    (atTime 2011 3 16 9 0)).end_ = min_date_time then "<".toList
                  else if (time_period.of_begin_end (atTime 2011 3 15 14 30)
                    (atTime 2011 3 16 9 0)).end_ = max_date_time then ">".toList
                  else renderDate xe ++ (if fullDay (time_period.of_begin_end
                    (atTime 2011 3 15 14 30) (atTime 2011 3 16 9 0)) = true then []
                    else timeStr he me)))
        ++ "]".toList)) ∧
    buildIntervalString (time_period.of_begin_end (atTime 2011 3 15 14 30) (atTime 2011 3 16 9 0))
      = .ok "[15 Mar 2011 14:30 - 16 Mar 2011 09:00]".toList ∧
    buildIntervalString (time_period.of_begin_end min_date_time max_date_time)
      = .ok "[< - >]".toList ∧
    buildIntervalString (time_period.of_begin_end (atTime 2011 3 5 0 0) (atTime 2011 3 7 0 0))
      = .ok "[5 Mar 2011 - 7 Mar 2011]".toList :=
  ⟨by decide,
   (C19_endpoint_rendering
     (time_period.of_begin_end (atTime 2011 3 15 14 30) (atTime 2011 3 16 9 0)) (by decide)).1,
   by decide, by decide, by decide⟩

/-- C18, counterexample: with the clock reading 10 December 2011 09:30:45, "now" parses to
that reading, 45 seconds included, which is not the reading truncated to the minute
(09:30:00). -/
theorem C18_counterexample :
    parseDateTime (atTimeSec 2011 12 10 9 30 45) "now".toList (hours 0) 2011 sampleDay
      = .ok (atTimeSec 2011 12 10 9 30 45) ∧
    truncToMinute (atTimeSec 2011 12 10 9 30 45) = atTimeSec 2011 12 10 9 30 0 ∧
    (atTimeSec 2011 12 10 9 30 45).time_count
      = (atTimeSec 2011 12 10 9 30 0).time_count + 45 * 1000000 ∧
    parseDateTime (atTimeSec 2011 12 10 9 30 45) "now".toList (hours 0) 2011 sampleDay
      ≠ .ok (truncToMinute (atTimeSec 2011 12 10 9 30 45)) := by
  refine ⟨by decide, by decide, by decide, by decide⟩

/-- C18 (amended): `parseDateTime("now", ...)` returns the reading of the clock as it is,
whatever the default time, the default year and today are; the result is the reading
truncated to the minute exactly when the reading is itself a whole minute. -/
theorem C18_now_is_clock_reading (now : ptime) (defaultTime : time_duration)
    (defaultYear : Int) (today : date) :
    parseDateTime now "now".toList defaultTime defaultYear today = .ok now ∧
      (parseDateTime now "now".toList defaultTime defaultYear today = .ok (truncToMinute now)
        ↔ now.time_count % 60000000 = 0) := by
  have h : parseDateTime now "now".toList defaultTime defaultYear today = .ok now := by
    unfold parseDateTime
    rw [if_neg (by decide), if_neg (by decide), if_pos rfl]
  refine ⟨h, ?_⟩
  rw [h]
  constructor
  · intro e
    have e2 := congrArg ptime.time_count (Except.ok.inj e)
    unfold truncToMinute at e2
    dsimp only at e2
    omega
  · intro e
    have : truncToMinute now = now := by
      apply ptime_ext
      unfold truncToMinute
      dsimp only
      omega
    rw [this]

/-- C20: the change-working-interval command.  When `parseInterval` throws on the text
after the command character, the scheduler (working interval and task list) is left as
it was; when it returns an interval, that interval becomes the working interval and the
task list stays the same. -/
theorem C20_change_interval_frame (strings : Str → Str) (today : date) (now : ptime)
    (input : Str) (scheduler : Scheduler) :
    (∀ e, parseInterval strings today now (substrFrom input 1) scheduler.getWorkingInterval
        = .error e →
      main_case_c strings today now input scheduler = scheduler) ∧
    (∀ p, parseInterval strings today now (substrFrom input 1) scheduler.getWorkingInterval
        = .ok p →
      (main_case_c strings today now input scheduler).getWorkingInterval = p ∧
      (main_case_c strings today now input scheduler).getTaskList = scheduler.getTaskList ∧
      (main_case_c strings today now input scheduler).tasksFilename
        = scheduler.tasksFilename) := by
  constructor
  · intro e he
    unfold main_case_c
    rw [he]
  · intro p hp
    unfold main_case_c
    rw [hp]
    exact ⟨rfl, rfl, rfl⟩

/-- C20 on the sample scheduler: "c13/40" leaves it as it was, "c3/15" makes 15 March 2011
the working interval and keeps the tasks. -/
theorem C20_change_interval_frame_witness :
    parseInterval defaultStrings sampleDay sampleNow (substrFrom "c13/40".toList 1)
      sampleScheduler.getWorkingInterval = .error .std_exception ∧
    main_case_c defaultStrings sampleDay sampleNow "c13/40".toList sampleScheduler
      = sampleScheduler ∧
    parseInterval defaultStrings sampleDay sampleNow (substrFrom "c3/15".toList 1)
      sampleScheduler.getWorkingInterval
      = .ok (time_period.of_begin_end (atTime 2011 3 15 0 0) (atTime 2011 3 16 0 0)) ∧
    (main_case_c defaultStrings sampleDay sampleNow "c3/15".toList sampleScheduler
        ).getWorkingInterval
      = time_period.of_begin_end (atTime 2011 3 15 0 0) (atTime 2011 3 16 0 0) ∧
    (main_case_c defaultStrings sampleDay sampleNow "c3/15".toList sampleScheduler).getTaskList
      = sampleScheduler.getTaskList :=
  ⟨by decide,
   (C20_change_interval_frame defaultStrings sampleDay sampleNow "c13/40".toList
     sampleScheduler).1 .std_exception (by decide),
   by decide,
   ((C20_change_interval_frame defaultStrings sampleDay sampleNow "c3/15".toList
     sampleScheduler).2
       (time_period.of_begin_end (atTime 2011 3 15 0 0) (atTime 2011 3 16 0 0)) (by decide)).1,
   ((C20_change_interval_frame defaultStrings sampleDay sampleNow "c3/15".toList
     sampleScheduler).2
       (time_period.of_begin_end (atTime 2011 3 15 0 0) (atTime 2011 3 16 0 0))
       (by decide)).2.1⟩

/-- The date constructor throws on a triple of numbers below 65536 (no wrap-around in the
conversion to `unsigned short`) that is not a valid calendar date. -/
theorem of_ints_invalid (Y M D : Nat) (hY : Y < 65536) (hM : M < 65536) (hD : D < 65536)
    (hv : ¬ ymd_type.valid ⟨Y, M, D⟩) :
    ∃ e, date.of_ints (Y : Int) (M : Int) (D : Int) = .error e := by
  unfold date.of_ints
  dsimp only
  rw [toUShort_natCast Y hY, toUShort_natCast M hM, toUShort_natCast D hD]
  by_cases c1 : 1400 ≤ Y ∧ Y ≤ 9999
  · rw [if_neg (not_not.2 c1)]
    by_cases c2 : 1 ≤ M ∧ M ≤ 12
    · rw [if_neg (not_not.2 c2)]
      by_cases c3 : 1 ≤ D ∧ D ≤ 31
      · rw [if_neg (not_not.2 c3)]
        by_cases c4 : end_of_month_day Y M < D
        · rw [if_pos c4]
          exact ⟨_, rfl⟩
        · exact absurd ⟨c1.1, c1.2, c2.1, c2.2, c3.1, not_lt.1 c4⟩ hv
      · rw [if_pos c3]
        exact ⟨_, rfl⟩
    · rw [if_pos c2]
      exact ⟨_, rfl⟩
  · rw [if_pos c1]
    exact ⟨_, rfl⟩

/-- A text "M/D" or "M/D/Y" of numerals below 65536 that does not denote a valid calendar
date makes both `parseDateTime` and `parseInterval` throw. -/
theorem invalid_date_fails (strings : Str → Str) (today : date) (now : ptime)
    (W : time_period) (ms ds : Str) (ys : Option Str) (M D Y : Nat)
    (defaultTime : time_duration) (hW : W.wellFormed)
    (hm : IsDecimal ms M) (hd : IsDecimal ds D) (hy : yearMeant W ys Y)
    (hM : M < 65536) (hD : D < 65536) (hY : Y < 65536) (hv : ¬ ymd_type.valid ⟨Y, M, D⟩) :
    (∃ e, parseDateTime now (singleDateText ms ds ys) defaultTime (Y : Int) today = .error e) ∧
      parseInterval strings today now (singleDateText ms ds ys) W = .error .std_exception := by
  obtain ⟨e, he⟩ := of_ints_invalid Y M D hY hM hD hv
  obtain ⟨d, k, hdW, _, _, hfail⟩ :=
    parseInterval_wellFormed strings today now (singleDateText ms ds ys) W hW
  cases ys with
  | none =>
    have hy' : (W.begin.date >>= date.year) = .ok Y := hy
    rw [hdW, ok_bind] at hy'
    constructor
    · refine ⟨e, ?_⟩
      show parseDateTime now (ms ++ '/' :: (ds ++ [])) defaultTime (Y : Int) today = _
      rw [List.append_nil, parseDateTime_month_day now ms ds M D defaultTime (Y : Int) today
        hm hd (by omega) (by omega), he]
      rfl
    · apply hfail e
      show parseIntervalTry strings today now (ms ++ '/' :: (ds ++ [])) d k = _
      rw [List.append_nil, try_month_day strings today now d k ms ds M D hm hd (by omega)
        (by omega), hy', ok_bind, he]
      rfl
  | some y =>
    have hy' : IsDecimal y Y := hy
    constructor
    · refine ⟨e, ?_⟩
      show parseDateTime now (ms ++ '/' :: (ds ++ '/' :: y)) defaultTime (Y : Int) today = _
      rw [parseDateTime_month_day_year now ms ds y M D Y defaultTime (Y : Int) today
        hm hd hy' (by omega) (by omega) (by omega), he]
      rfl
    · apply hfail e
      show parseIntervalTry strings today now (ms ++ '/' :: (ds ++ '/' :: y)) d k = _
      rw [try_month_day_year strings today now d k ms ds y M D Y hm hd hy' (by omega)
        (by omega) (by omega), he]
      rfl

/-- C15: the dates the claim names are rejected ("13/40", "1/32", "2/30", "x/5" make
`parseDateTime` and `parseInterval` throw), but a month outside 1..12 is not always
rejected: the `int` 65539 is converted to the `unsigned short` 3 when it is passed to the
date constructor, so "65539/15" is accepted as 15 March, by `parseDateTime` and by
`parseInterval`. -/
theorem C15_wrapped_month_accepted :
    parseDateTime sampleNow "65539/15".toList (hours 0) 2011 sampleDay
      = .ok (atTime 2011 3 15 0 0) ∧
    parseInterval defaultStrings sampleDay sampleNow "65539/15".toList sampleInterval
      = .ok (time_period.of_begin_end (atTime 2011 3 15 0 0) (atTime 2011 3 16 0 0)) ∧
    lexical_cast_int "65539".toList = .ok 65539 ∧ toUShort 65539 = 3 ∧
    parseInterval defaultStrings sampleDay sampleNow "13/40".toList sampleInterval
      = .error .std_exception ∧
    parseDateTime sampleNow "13/40".toList (hours 0) 2011 sampleDay = .error .bad_month ∧
    parseInterval defaultStrings sampleDay sampleNow "1/32".toList sampleInterval
      = .error .std_exception ∧
    parseDateTime sampleNow "1/32".toList (hours 0) 2011 sampleDay = .error .bad_day_of_month ∧
    parseInterval defaultStrings sampleDay sampleNow "2/30".toList sampleInterval
      = .error .std_exception ∧
    parseDateTime sampleNow "2/30".toList (hours 0) 2011 sampleDay = .error .bad_day_of_month ∧
    parseInterval defaultStrings sampleDay sampleNow "x/5".toList sampleInterval
      = .error .std_exception ∧
    parseDateTime sampleNow "x/5".toList (hours 0) 2011 sampleDay = .error .bad_lexical_cast := by
  refine ⟨by decide, by decide, by decide, by decide, by decide, by decide, by decide,
    by decide, by decide, by decide, by decide, by decide⟩

/-- When `Scheduler::deleteTask` throws, on an `int` index and a list an `int` can index. -/
theorem deleteTask_fails_iff (s : Scheduler) (i : Int)
    (hi : -2147483648 ≤ i ∧ i ≤ 2147483647) (hn : s.taskList.length ≤ 2147483647) :
    s.deleteTask i = .error .std_exception ↔ (i < 1 ∨ i > (s.taskList.length : Int)) := by
  unfold Scheduler.deleteTask toSizeT toInt32
  constructor
  · intro h
    by_contra hc
    rw [if_neg (by omega)] at h
    cases h
  · intro h
    rw [if_pos (by omega)]

/-- C21: for an `int` index `i` and a task list of length `n` (at most the largest `int`),
`Scheduler::deleteTask(i)` throws exactly when `i < 1` or `i > n`, and the caller
`deleteTask` then leaves the scheduler as it was; otherwise the new task list is the old
one without its `i`-th element: the `i - 1` elements before it followed by the elements
after it, `n - 1` in all, and nothing else of the scheduler changes. -/
theorem C21_deleteTask (s : Scheduler) (i : Int)
    (hi : -2147483648 ≤ i ∧ i ≤ 2147483647) (hn : s.taskList.length ≤ 2147483647) :
    ((∃ e, s.deleteTask i = .error e) ↔ (i < 1 ∨ i > (s.taskList.length : Int))) ∧
    ((i < 1 ∨ i > (s.taskList.length : Int)) → deleteTask s i = s) ∧
    (1 ≤ i ∧ i ≤ (s.taskList.length : Int) →
      ∃ s', s.deleteTask i = .ok s' ∧ deleteTask s i = s' ∧
        s'.taskList = s.taskList.take (i.toNat - 1) ++ s.taskList.drop i.toNat ∧
        s'.taskList.length + 1 = s.taskList.length ∧
        (∀ j : Nat, j + 1 < i.toNat → s'.taskList[j]? = s.taskList[j]?) ∧
        (∀ j : Nat, i.toNat ≤ j + 1 → s'.taskList[j]? = s.taskList[j + 1]?) ∧
        s'.workingInterval = s.workingInterval ∧ s'.tasksFilename = s.tasksFilename) := by
  have hiff := deleteTask_fails_iff s i hi hn
  refine ⟨?_, ?_, ?_⟩
  · constructor
    · rintro ⟨e, he⟩
      by_contra hc
      unfold Scheduler.deleteTask toSizeT toInt32 at he
      rw [if_neg (by omega)] at he
      cases he
    · intro h
      exact ⟨_, hiff.2 h⟩
  · intro h
    unfold deleteTask
    rw [hiff.2 h]
  · intro h
    have hok : s.deleteTask i
        = .ok { s with taskList := s.taskList.eraseIdx (i - 1).toNat } := by
      unfold Scheduler.deleteTask toSizeT toInt32
      rw [if_neg (by omega)]
    have hidx : (i - 1).toNat = i.toNat - 1 := by omega
    have hlt : i.toNat - 1 < s.taskList.length := by omega
    refine ⟨_, hok, ?_, ?_, ?_, ?_, ?_, rfl, rfl⟩
    · unfold deleteTask
      rw [hok]
    · show s.taskList.eraseIdx (i - 1).toNat = _
      rw [hidx, List.eraseIdx_eq_take_drop_succ]
      congr 2
      omega
    · show (s.taskList.eraseIdx (i - 1).toNat).length + 1 = _
      rw [hidx, List.length_eraseIdx, if_pos hlt]
      omega
    · intro j hj
      show (s.taskList.eraseIdx (i - 1).toNat)[j]? = _
      rw [hidx, List.getElem?_eraseIdx, if_pos (by omega)]
    · intro j hj
      show (s.taskList.eraseIdx (i - 1).toNat)[j]? = _
      rw [hidx, List.getElem?_eraseIdx, if_neg (by omega)]

/-- C21 on the sample scheduler (two tasks): the index 3 leaves the scheduler as it was,
as do 0 and -1; the index 1 removes the first task and the index 2 the second. -/
theorem C21_deleteTask_witness :
    (((-2147483648 : Int) ≤ 3 ∧ (3 : Int) ≤ 2147483647) ∧
      sampleScheduler.taskList.length ≤ 2147483647 ∧
      ((3 : Int) < 1 ∨ (3 : Int) > (sampleScheduler.taskList.length : Int))) ∧
    deleteTask sampleScheduler 3 = sampleScheduler ∧
    sampleScheduler.deleteTask 3 = .error .std_exception ∧
    sampleScheduler.deleteTask 0 = .error .std_exception ∧
    sampleScheduler.deleteTask (-1) = .error .std_exception ∧
    sampleScheduler.deleteTask (-2147483648) = .error .std_exception ∧
    (deleteTask sampleScheduler 1).taskList = sampleScheduler.taskList.drop 1 ∧
    deleteTask sampleScheduler 2
      = { sampleScheduler with taskList := sampleScheduler.taskList.take 1 } :=
  ⟨⟨by decide, by decide, by decide⟩,
   (C21_deleteTask sampleScheduler 3 (by decide) (by decide)).2.1 (by decide),
   by decide, by decide, by decide, by decide, by decide, by decide⟩

/-- Trimming "today " followed by any text leaves "today", alone or followed by a space
and more text. -/
theorem trim_today (s : Str) :
    trim ("today ".toList ++ s) = "today".toList ∨
      ∃ w, trim ("today ".toList ++ s) = "today".toList ++ ' ' :: w := by
  have hx : ("today ".toList ++ s).reverse = (' ' :: s).reverse ++ "yadot".toList := by
    simp [String.toList]
  have hl : ∀ w : Str, trim_left ("today".toList ++ w) = "today".toList ++ w := by
    intro w
    rfl
  unfold trim trim_right
  rw [hx, List.dropWhile_append]
  by_cases he : (List.dropWhile isspace (' ' :: s).reverse).isEmpty = true
  · left
    rw [if_pos he]
    rfl
  · right
    rw [if_neg he, List.reverse_append]
    have hy : (' ' :: s).reverse = s.reverse ++ [' '] := by simp
    rw [hy, List.dropWhile_append] at he ⊢
    by_cases he2 : (List.dropWhile isspace s.reverse).isEmpty = true
    · rw [if_pos he2] at he
      exact absurd (by decide) he
    · rw [if_neg he2, List.reverse_append]
      refine ⟨(List.dropWhile isspace s.reverse).reverse, ?_⟩
      exact hl _

theorem beforeFirst_today (s : Str) :
    beforeFirst ' ' (trim ("today ".toList ++ s)) = "today".toList := by
  rcases trim_today s with h | ⟨w, h⟩
  · rw [h]
    decide
  · rw [h]
    simp [beforeFirst, String.toList, List.takeWhile]

/-- C26: with the word "today" in the string table, for a text `s` without '-' and '/',
`parseInterval("today " + s, W)` equals `parseInterval("today", W)` for every working
interval `W`: the text after the first word is ignored.  It succeeds whenever the working
interval is well formed and today is a calendar date `x` other than 31 December 9999, the
result being the interval from `x` 00:00 to the next calendar day 00:00. -/
theorem C26_today_rest_ignored (strings : Str → Str) (today : date) (now : ptime) (s : Str)
    (W : time_period) (hs : strings "today".toList = "today".toList)
    (h1 : '-' ∉ s) (h2 : '/' ∉ s) :
    parseInterval strings today now ("today ".toList ++ s) W
        = parseInterval strings today now "today".toList W ∧
      (W.wellFormed → ∀ x : ymd_type, x.valid → x ≠ ⟨9999, 12, 31⟩ → today = ⟨day_number x⟩ →
        ∃ r, parseInterval strings today now ("today ".toList ++ s) W = .ok r ∧
          r.begin = atTime x.year x.month x.day 0 0 ∧
          r.end_ = atTime (nextCalendarDay x).year (nextCalendarDay x).month
            (nextCalendarDay x).day 0 0) := by
  have hd : '-' ∉ trim ("today ".toList ++ s) := by
    intro hc
    have := mem_of_mem_trim _ _ hc
    rw [List.mem_append] at this
    rcases this with h | h
    · revert h; decide
    · exact h1 h
  have hsl : '/' ∉ trim ("today ".toList ++ s) := by
    intro hc
    have := mem_of_mem_trim _ _ hc
    rw [List.mem_append] at this
    rcases this with h | h
    · revert h; decide
    · exact h2 h
  have hfw : beforeFirst ' ' (trim ("today ".toList ++ s)) = strings "today".toList := by
    rw [hs]
    exact beforeFirst_today s
  have hfw0 : beforeFirst ' ' (trim "today".toList) = strings "today".toList := by
    rw [hs]
    decide
  have hA : ∀ d k, parseIntervalTry strings today now ("today ".toList ++ s) d k
      = validateInterval (ptime.of_date today) ((ptime.of_date today).add (hours 24)) :=
    fun d k => try_today strings today now _ d k hd hsl hfw
  have hB : ∀ d k, parseIntervalTry strings today now "today".toList d k
      = validateInterval (ptime.of_date today) ((ptime.of_date today).add (hours 24)) :=
    fun d k => try_today strings today now _ d k (by decide) (by decide) hfw0
  constructor
  · unfold parseInterval
    simp only [hA, hB]
  · intro hW x hv hlast hx
    subst hx
    obtain ⟨d, k, _, _, a, _⟩ :=
      parseInterval_wellFormed strings _ now ("today ".toList ++ s) W hW
    obtain ⟨r, hr, hb, he, _⟩ := one_day_validated x hv hlast
    rw [hA] at a
    exact ⟨r, a r hr, hb, he⟩

/-- C26 at the text "and tomorrow" with the sample working interval, today being
10 December 2011. -/
theorem C26_today_rest_ignored_witness :
    (defaultStrings "today".toList = "today".toList ∧ '-' ∉ "and tomorrow".toList ∧
      '/' ∉ "and tomorrow".toList) ∧
    (parseInterval defaultStrings sampleDay sampleNow ("today ".toList ++ "and tomorrow".toList)
        sampleInterval
        = parseInterval defaultStrings sampleDay sampleNow "today".toList sampleInterval ∧
      (sampleInterval.wellFormed → ∀ x : ymd_type, x.valid → x ≠ ⟨9999, 12, 31⟩ →
        sampleDay = ⟨day_number x⟩ →
        ∃ r, parseInterval defaultStrings sampleDay sampleNow
            ("today ".toList ++ "and tomorrow".toList) sampleInterval = .ok r ∧
          r.begin = atTime x.year x.month x.day 0 0 ∧
          r.end_ = atTime (nextCalendarDay x).year (nextCalendarDay x).month
            (nextCalendarDay x).day 0 0)) ∧
    parseInterval defaultStrings sampleDay sampleNow "today and tomorrow".toList sampleInterval
      = .ok (time_period.of_begin_end (atTime 2011 12 10 0 0) (atTime 2011 12 11 0 0)) ∧
    parseInterval defaultStrings sampleDay sampleNow "today 3:15 xyz".toList sampleInterval
      = .ok (time_period.of_begin_end (atTime 2011 12 10 0 0) (atTime 2011 12 11 0 0)) :=
  ⟨⟨by decide, by decide, by decide⟩,
   C26_today_rest_ignored defaultStrings sampleDay sampleNow "and tomorrow".toList
     sampleInterval (by decide) (by decide) (by decide),
   by decide, by decide⟩

theorem hours_24_eq : hours 24 = ⟨(hours 24).ticks * 1⟩ := by decide

/-- The validation of an interval between two midnights, in terms of the day numbers. -/
theorem validate_midnights_char (a c : Int) (hac : a ≤ c) :
    validateInterval (midnight a) (midnight c) =
      if 2232400 ≤ a ∧ c ≤ 5373484 then
        .ok (time_period.of_begin_end (midnight a) (midnight c))
      else .error .InvalidIntervalException := by
  by_cases h : 2232400 ≤ a ∧ c ≤ 5373484
  · rw [if_pos h]
    exact validateInterval_of _ _ ((midnight_le_iff a c).2 hac) ((min_le_midnight_iff a).2 h.1)
      ((midnight_le_max_iff c).2 h.2)
  · rw [if_neg h]
    cases hv : validateInterval (midnight a) (midnight c) with
    | error e =>
      unfold validateInterval at hv
      split_ifs at hv
      · rw [← Except.error.inj hv]
    | ok r =>
      exfalso
      obtain ⟨_, _, c2, _, _, c5⟩ := validateInterval_ok _ _ r hv
      exact h ⟨(min_le_midnight_iff a).1 c2, (midnight_le_max_iff c).1 c5⟩

/-- The validation throws when the begin is a special value. -/
theorem validate_special (b e : ptime) (hb : b.is_special = true) :
    validateInterval b e = .error .InvalidIntervalException := by
  cases hv : validateInterval b e with
  | error x =>
    unfold validateInterval at hv
    split_ifs at hv
    · rw [← Except.error.inj hv]
  | ok r =>
    exfalso
    obtain ⟨_, _, c2, c3, _, _⟩ := validateInterval_ok _ _ r hv
    exact special_not_in_range b hb c2 c3

/-- Two shifts of a date by a few days are one shift by the sum. -/
theorem add_days_add (d : date) (i j : Int)
    (hn : d.is_special = true ∨ (2232400 ≤ d.days_ ∧ d.days_ ≤ 5373484))
    (hi : -14 ≤ i ∧ i ≤ 14) (hj : -14 ≤ j ∧ j ≤ 14) :
    (d.add_days i).add_days j = d.add_days (i + j) := by
  rcases hn with hs | ⟨n1, n2⟩
  · rw [special_add_days d i hs, special_add_days d j hs, special_add_days d (i + j) hs]
  · obtain ⟨n⟩ := d
    dsimp only at n1 n2
    rw [add_days_eq n i (by omega) (by omega) (by omega) (by omega),
      add_days_eq _ j (by omega) (by omega) (by omega) (by omega),
      add_days_eq n (i + j) (by omega) (by omega) (by omega) (by omega)]
    congr 1
    omega

theorem add_days_zero (d : date)
    (hn : d.is_special = true ∨ (2232400 ≤ d.days_ ∧ d.days_ ≤ 5373484)) :
    d.add_days 0 = d := by
  rcases hn with hs | ⟨n1, n2⟩
  · exact special_add_days d 0 hs
  · obtain ⟨n⟩ := d
    dsimp only at n1 n2
    rw [add_days_eq n 0 (by omega) (by omega) (by omega) (by omega)]
    congr 1

/-- The validated interval of `len` whole days that starts `j` days after the date with
day number `n`. -/
theorem shifted_char (n : Nat) (j len a c : Int) (n1 : 2232400 ≤ n) (n2 : n ≤ 5373484)
    (hj : -14 ≤ j ∧ j ≤ 14) (hlen : 0 ≤ len ∧ len ≤ 7) (ha : a = (n : Int) + j)
    (hc : c = (n : Int) + j + len) :
    validateInterval (ptime.of_date ((⟨n⟩ : date).add_days j))
        ((ptime.of_date ((⟨n⟩ : date).add_days j)).add ⟨(hours 24).ticks * len⟩) =
      if 2232400 ≤ a ∧ c ≤ 5373484 then
        .ok (time_period.of_begin_end (midnight a) (midnight c))
      else .error .InvalidIntervalException := by
  rw [add_days_eq n j (by omega) (by omega) (by omega) (by omega),
    of_date_eq _ (by omega) (by omega)]
  have e : ((((n : Int) + j).toNat : Nat) : Int) = a := by omega
  rw [e, midnight_add_days _ _ (by omega) (by omega)]
  have e2 : a + len = c := by omega
  rw [e2]
  exact validate_midnights_char a c (by omega)

/-- The begin of a validated interval of whole days, decoded. -/
theorem day_interval_begin (m : Nat) (c : Int) (m1 : 2232400 ≤ m) (m2 : m ≤ 5373484) :
    (time_period.of_begin_end (midnight (m : Int)) (midnight c)).begin.date = .ok ⟨m⟩ := by
  show (midnight (m : Int)).date = _
  rw [midnight_eq]
  exact date_midnight m 0 m1 m2 (by omega) (by omega)

/-- What `parseInterval` returns on a working interval whose begin has the day number `n`
of a supported date, for a phrase whose `try` block validates the `len` whole days that
start `j` days after that date. -/
theorem parse_char (strings : Str → Str) (today : date) (now : ptime) (phrase : Str)
    (W : time_period) (n : Nat) (j len a c : Int) (hd : W.begin.date = .ok ⟨n⟩)
    (n1 : 2232400 ≤ n) (n2 : n ≤ 5373484)
    (htry : parseIntervalTry strings today now phrase ⟨n⟩ ((n + 1) % 7) =
      validateInterval (ptime.of_date ((⟨n⟩ : date).add_days j))
        ((ptime.of_date ((⟨n⟩ : date).add_days j)).add ⟨(hours 24).ticks * len⟩))
    (hj : -14 ≤ j ∧ j ≤ 14) (hlen : 0 ≤ len ∧ len ≤ 7) (ha : a = (n : Int) + j)
    (hc : c = (n : Int) + j + len) :
    parseInterval strings today now phrase W =
      if 2232400 ≤ a ∧ c ≤ 5373484 then
        .ok (time_period.of_begin_end (midnight a) (midnight c))
      else .error .std_exception := by
  unfold parseInterval
  rw [hd, ok_bind, day_of_week_of_range n n1 n2, ok_bind, htry,
    shifted_char n j len a c n1 n2 hj hlen ha hc]
  by_cases h : 2232400 ≤ a ∧ c ≤ 5373484
  · rw [if_pos h, if_pos h]
  · rw [if_neg h, if_neg h]

/-- When `parseInterval` returns an interval for a phrase whose `try` block throws on a
special date, the working interval's begin has a date in the supported range. -/
theorem parse_ok_date (strings : Str → Str) (today : date) (now : ptime) (phrase : Str)
    (W r : time_period) (h : parseInterval strings today now phrase W = .ok r)
    (hsp : ∀ d k, d.is_special = true →
      ∃ e, parseIntervalTry strings today now phrase d k = .error e) :
    ∃ n : Nat, W.begin.date = .ok ⟨n⟩ ∧ 2232400 ≤ n ∧ n ≤ 5373484 := by
  obtain ⟨d, k, hd, _, ht⟩ := parseInterval_ok _ _ _ _ _ _ h
  rcases date_range_of_ok W.begin d hd with hs | ⟨n1, n2⟩
  · obtain ⟨e, he⟩ := hsp d k hs
    rw [he] at ht
    cases ht
  · obtain ⟨n⟩ := d
    exact ⟨n, hd, n1, n2⟩

/-- The six shortcut phrases in one shape: the validation of `len` whole days that start
`j` days after the date `d`, for a date that is special or in the supported range. -/
theorem try_shapes (today : date) (now : ptime) (d : date) (k : Nat)
    (hn : d.is_special = true ∨ (2232400 ≤ d.days_ ∧ d.days_ ≤ 5373484)) (hk : k < 7) :
    (parseIntervalTry defaultStrings today now "prev day".toList d k =
      validateInterval (ptime.of_date (d.add_days (-1)))
        ((ptime.of_date (d.add_days (-1))).add ⟨(hours 24).ticks * 1⟩)) ∧
    (parseIntervalTry defaultStrings today now "this day".toList d k =
      validateInterval (ptime.of_date (d.add_days 0))
        ((ptime.of_date (d.add_days 0)).add ⟨(hours 24).ticks * 1⟩)) ∧
    (parseIntervalTry defaultStrings today now "next day".toList d k =
      validateInterval (ptime.of_date (d.add_days 1))
        ((ptime.of_date (d.add_days 1)).add ⟨(hours 24).ticks * 1⟩)) ∧
    (parseIntervalTry defaultStrings today now "prev week".toList d k =
      validateInterval (ptime.of_date (d.add_days (-(k : Int) + -7)))
        ((ptime.of_date (d.add_days (-(k : Int) + -7))).add ⟨(hours 24).ticks * 7⟩)) ∧
    (parseIntervalTry defaultStrings today now "this week".toList d k =
      validateInterval (ptime.of_date (d.add_days (-(k : Int))))
        ((ptime.of_date (d.add_days (-(k : Int)))).add ⟨(hours 24).ticks * 7⟩)) ∧
    (parseIntervalTry defaultStrings today now "next week".toList d k =
      validateInterval (ptime.of_date (d.add_days (-(k : Int) + 7)))
        ((ptime.of_date (d.add_days (-(k : Int) + 7))).add ⟨(hours 24).ticks * 7⟩)) := by
  refine ⟨?_, ?_, ?_, ?_, ?_, ?_⟩
  · rw [try_prev_day, ← hours_24_eq]
  · rw [try_this_day, ← hours_24_eq, add_days_zero d hn]
  · rw [try_next_day, ← hours_24_eq]
  · rw [try_prev_week, add_days_add d _ _ hn (by omega) (by omega)]
  · rw [try_this_week]
  · rw [try_next_week, add_days_add d _ _ hn (by omega) (by omega)]

/-- A `try` block of that shape throws on a special date. -/
theorem try_shape_special (strings : Str → Str) (today : date) (now : ptime) (phrase : Str)
    (d : date) (k : Nat) (j : Int) (td : time_duration) (hs : d.is_special = true)
    (h : parseIntervalTry strings today now phrase d k =
      validateInterval (ptime.of_date (d.add_days j)) ((ptime.of_date (d.add_days j)).add td)) :
    ∃ e, parseIntervalTry strings today now phrase d k = .error e := by
  rw [h, special_add_days d j hs]
  exact ⟨_, validate_special _ _ (of_date_special d hs)⟩

/-- When a day or week phrase yields an interval, the working interval's begin has a date
in the supported range. -/
theorem shortcut_ok_date (today : date) (now : ptime) (phrase : Str) (W r : time_period)
    (hp : phrase = "prev day".toList ∨ phrase = "this day".toList ∨
      phrase = "next day".toList ∨ phrase = "prev week".toList ∨
      phrase = "this week".toList ∨ phrase = "next week".toList)
    (h : parseInterval defaultStrings today now phrase W = .ok r) :
    ∃ n : Nat, W.begin.date = .ok ⟨n⟩ ∧ 2232400 ≤ n ∧ n ≤ 5373484 := by
  obtain ⟨d, k, hd, hk, ht⟩ := parseInterval_ok _ _ _ _ _ _ h
  have hk7 := day_of_week_lt d k hk
  rcases date_range_of_ok W.begin d hd with hs | ⟨n1, n2⟩
  · exfalso
    obtain ⟨s1, s2, s3, s4, s5, s6⟩ := try_shapes today now d k (Or.inl hs) hk7
    have key : ∃ e, parseIntervalTry defaultStrings today now phrase d k = .error e := by
      rcases hp with e | e | e | e | e | e <;> rw [e]
      · exact try_shape_special _ _ _ _ d k _ _ hs s1
      · exact try_shape_special _ _ _ _ d k _ _ hs s2
      · exact try_shape_special _ _ _ _ d k _ _ hs s3
      · exact try_shape_special _ _ _ _ d k _ _ hs s4
      · exact try_shape_special _ _ _ _ d k _ _ hs s5
      · exact try_shape_special _ _ _ _ d k _ _ hs s6
    obtain ⟨e, he⟩ := key
    rw [he] at ht
    cases ht
  · obtain ⟨n⟩ := d
    exact ⟨n, hd, n1, n2⟩

/-- The three day phrases on a working interval whose begin has the day number `n`. -/
theorem day_phrases (today : date) (now : ptime) (W : time_period) (n : Nat)
    (hd : W.begin.date = .ok ⟨n⟩) (n1 : 2232400 ≤ n) (n2 : n ≤ 5373484) :
    (parseInterval defaultStrings today now "prev day".toList W =
      if 2232400 ≤ (n : Int) - 1 ∧ (n : Int) ≤ 5373484 then
        .ok (time_period.of_begin_end (midnight ((n : Int) - 1)) (midnight (n : Int)))
      else .error .std_exception) ∧
    (parseInterval defaultStrings today now "this day".toList W =
      if 2232400 ≤ (n : Int) ∧ (n : Int) + 1 ≤ 5373484 then
        .ok (time_period.of_begin_end (midnight (n : Int)) (midnight ((n : Int) + 1)))
      else .error .std_exception) ∧
    (parseInterval defaultStrings today now "next day".toList W =
      if 2232400 ≤ (n : Int) + 1 ∧ (n : Int) + 2 ≤ 5373484 then
        .ok (time_period.of_begin_end (midnight ((n : Int) + 1)) (midnight ((n : Int) + 2)))
      else .error .std_exception) := by
  obtain ⟨s1, s2, s3, _, _, _⟩ := try_shapes today now ⟨n⟩ ((n + 1) % 7)
    (Or.inr ⟨n1, n2⟩) (Nat.mod_lt _ (by omega))
  exact ⟨parse_char _ _ _ _ W n (-1) 1 _ _ hd n1 n2 s1 (by omega) (by omega) (by omega) (by omega),
    parse_char _ _ _ _ W n 0 1 _ _ hd n1 n2 s2 (by omega) (by omega) (by omega) (by omega),
    parse_char _ _ _ _ W n 1 1 _ _ hd n1 n2 s3 (by omega) (by omega) (by omega) (by omega)⟩

/-- The three week phrases on a working interval whose begin has the day number `n`; the
week starts `(n + 1) % 7` days before that day. -/
theorem week_phrases (today : date) (now : ptime) (W : time_period) (n : Nat)
    (hd : W.begin.date = .ok ⟨n⟩) (n1 : 2232400 ≤ n) (n2 : n ≤ 5373484) :
    (parseInterval defaultStrings today now "prev week".toList W =
      if 2232400 ≤ (n : Int) - ((n + 1) % 7 : Nat) - 7 ∧
          (n : Int) - ((n + 1) % 7 : Nat) ≤ 5373484 then
        .ok (time_period.of_begin_end (midnight ((n : Int) - ((n + 1) % 7 : Nat) - 7))
          (midnight ((n : Int) - ((n + 1) % 7 : Nat))))
      else .error .std_exception) ∧
    (parseInterval defaultStrings today now "this week".toList W =
      if 2232400 ≤ (n : Int) - ((n + 1) % 7 : Nat) ∧
          (n : Int) - ((n + 1) % 7 : Nat) + 7 ≤ 5373484 then
        .ok (time_period.of_begin_end (midnight ((n : Int) - ((n + 1) % 7 : Nat)))
          (midnight ((n : Int) - ((n + 1) % 7 : Nat) + 7)))
      else .error .std_exception) ∧
    (parseInterval defaultStrings today now "next week".toList W =
      if 2232400 ≤ (n : Int) - ((n + 1) % 7 : Nat) + 7 ∧
          (n : Int) - ((n + 1) % 7 : Nat) + 14 ≤ 5373484 then
        .ok (time_period.of_begin_end (midnight ((n : Int) - ((n + 1) % 7 : Nat) + 7))
          (midnight ((n : Int) - ((n + 1) % 7 : Nat) + 14)))
      else .error .std_exception) := by
  have hk : (n + 1) % 7 < 7 := Nat.mod_lt _ (by omega)
  obtain ⟨_, _, _, s4, s5, s6⟩ := try_shapes today now ⟨n⟩ ((n + 1) % 7)
    (Or.inr ⟨n1, n2⟩) hk
  exact ⟨parse_char _ _ _ _ W n _ 7 _ _ hd n1 n2 s4 (by omega) (by omega) (by omega) (by omega),
    parse_char _ _ _ _ W n _ 7 _ _ hd n1 n2 s5 (by omega) (by omega) (by omega) (by omega),
    parse_char _ _ _ _ W n _ 7 _ _ hd n1 n2 s6 (by omega) (by omega) (by omega) (by omega)⟩

/-- C22: day navigation.  When "next day" yields an interval for the working interval `W`,
"prev day" applied to that interval gives what "this day" gives for `W`; when "prev day"
yields an interval for `W`, "next day" applied to it gives what "this day" gives for `W`;
and "this day" applied to an interval it returned gives that interval again. -/
theorem C22_day_navigation (today : date) (now : ptime) (W : time_period) :
    (∀ r1, parseInterval defaultStrings today now "next day".toList W = .ok r1 →
      parseInterval defaultStrings today now "prev day".toList r1
        = parseInterval defaultStrings today now "this day".toList W) ∧
    (∀ r2, parseInterval defaultStrings today now "prev day".toList W = .ok r2 →
      parseInterval defaultStrings today now "next day".toList r2
        = parseInterval defaultStrings today now "this day".toList W) ∧
    (∀ r, parseInterval defaultStrings today now "this day".toList W = .ok r →
      parseInterval defaultStrings today now "this day".toList r = .ok r) := by
  refine ⟨?_, ?_, ?_⟩
  · intro r1 h
    obtain ⟨n, hd, n1, n2⟩ := shortcut_ok_date today now _ W r1 (by simp) h
    obtain ⟨_, hthis, hnext⟩ := day_phrases today now W n hd n1 n2
    rw [hnext] at h
    by_cases c : 2232400 ≤ (n : Int) + 1 ∧ (n : Int) + 2 ≤ 5373484
    · rw [if_pos c] at h
      have hr := (Except.ok.inj h).symm
      have e1 : (n : Int) + 1 = ((n + 1 : Nat) : Int) := by omega
      have hd1 : r1.begin.date = .ok ⟨n + 1⟩ := by
        rw [hr, e1]
        exact day_interval_begin (n + 1) _ (by omega) (by omega)
      obtain ⟨hprev, _, _⟩ := day_phrases today now r1 (n + 1) hd1 (by omega) (by omega)
      rw [hprev, hthis, if_pos (by omega), if_pos (by omega)]
      have e2 : ((n + 1 : Nat) : Int) - 1 = (n : Int) := by omega
      rw [e2, ← e1]
    · rw [if_neg c] at h
      cases h
  · intro r2 h
    obtain ⟨n, hd, n1, n2⟩ := shortcut_ok_date today now _ W r2 (by simp) h
    obtain ⟨hprev, hthis, _⟩ := day_phrases today now W n hd n1 n2
    rw [hprev] at h
    by_cases c : 2232400 ≤ (n : Int) - 1 ∧ (n : Int) ≤ 5373484
    · rw [if_pos c] at h
      have hr := (Except.ok.inj h).symm
      have e1 : (n : Int) - 1 = ((n - 1 : Nat) : Int) := by omega
      have hd1 : r2.begin.date = .ok ⟨n - 1⟩ := by
        rw [hr, e1]
        exact day_interval_begin (n - 1) _ (by omega) (by omega)
      obtain ⟨_, _, hnext⟩ := day_phrases today now r2 (n - 1) hd1 (by omega) (by omega)
      rw [hnext, hthis]
      have e2 : ((n - 1 : Nat) : Int) + 1 = (n : Int) := by omega
      have e3 : ((n - 1 : Nat) : Int) + 2 = (n : Int) + 1 := by omega
      rw [e2, e3]
    · rw [if_neg c] at h
      cases h
  · intro r h
    obtain ⟨n, hd, n1, n2⟩ := shortcut_ok_date today now _ W r (by simp) h
    obtain ⟨_, hthis, _⟩ := day_phrases today now W n hd n1 n2
    rw [hthis] at h
    by_cases c : 2232400 ≤ (n : Int) ∧ (n : Int) + 1 ≤ 5373484
    · rw [if_pos c] at h
      have hr := (Except.ok.inj h).symm
      have hd1 : r.begin.date = .ok ⟨n⟩ := by
        rw [hr]
        exact day_interval_begin n _ n1 n2
      obtain ⟨_, hthis2, _⟩ := day_phrases today now r n hd1 n1 n2
      rw [hthis2, if_pos c, hr]
    · rw [if_neg c] at h
      cases h

/-- C22 on the sample working interval (10 December 2011). -/
theorem C22_day_navigation_witness :
    parseInterval defaultStrings sampleDay sampleNow "next day".toList sampleInterval
      = .ok (time_period.of_begin_end (atTime 2011 12 11 0 0) (atTime 2011 12 12 0 0)) ∧
    parseInterval defaultStrings sampleDay sampleNow "prev day".toList
        (time_period.of_begin_end (atTime 2011 12 11 0 0) (atTime 2011 12 12 0 0))
      = parseInterval defaultStrings sampleDay sampleNow "this day".toList sampleInterval ∧
    parseInterval defaultStrings sampleDay sampleNow "this day".toList sampleInterval
      = .ok (time_period.of_begin_end (atTime 2011 12 10 0 0) (atTime 2011 12 11 0 0)) ∧
    parseInterval defaultStrings sampleDay sampleNow "next day".toList
        (time_period.of_begin_end (atTime 2011 12 9 0 0) (atTime 2011 12 10 0 0))
      = .ok (time_period.of_begin_end (atTime 2011 12 10 0 0) (atTime 2011 12 11 0 0)) :=
  ⟨by decide,
   (C22_day_navigation sampleDay sampleNow sampleInterval).1
     (time_period.of_begin_end (atTime 2011 12 11 0 0) (atTime 2011 12 12 0 0)) (by decide),
   by decide, by decide⟩

/-- C23: week navigation.  When "next week" yields an interval for the working interval
`W`, "prev week" applied to that interval gives what "this week" gives for `W`; and "this
week" applied to an interval it returned gives that interval again. -/
theorem C23_week_navigation (today : date) (now : ptime) (W : time_period) :
    (∀ r1, parseInterval defaultStrings today now "next week".toList W = .ok r1 →
      parseInterval defaultStrings today now "prev week".toList r1
        = parseInterval defaultStrings today now "this week".toList W) ∧
    (∀ r, parseInterval defaultStrings today now "this week".toList W = .ok r →
      parseInterval defaultStrings today now "this week".toList r = .ok r ∧
      parseInterval defaultStrings today now "this week".toList r
        = parseInterval defaultStrings today now "this week".toList W) := by
  refine ⟨?_, ?_⟩
  · intro r1 h
    obtain ⟨n, hd, n1, n2⟩ := shortcut_ok_date today now _ W r1 (by simp) h
    obtain ⟨_, hthis, hnext⟩ := week_phrases today now W n hd n1 n2
    rw [hnext] at h
    generalize hk : (n + 1) % 7 = k at h hthis
    have hk7 : k < 7 := by omega
    by_cases c : 2232400 ≤ (n : Int) - (k : Nat) + 7 ∧ (n : Int) - (k : Nat) + 14 ≤ 5373484
    · rw [if_pos c] at h
      have hr := (Except.ok.inj h).symm
      have e1 : (n : Int) - (k : Nat) + 7 = ((n - k + 7 : Nat) : Int) := by omega
      have hd1 : r1.begin.date = .ok ⟨n - k + 7⟩ := by
        rw [hr, e1]
        exact day_interval_begin (n - k + 7) _ (by omega) (by omega)
      obtain ⟨hprev, _, _⟩ := week_phrases today now r1 (n - k + 7) hd1 (by omega) (by omega)
      have hk0 : (n - k + 7 + 1) % 7 = 0 := by omega
      rw [hprev, hthis, hk0]
      have e2 : ((n - k + 7 : Nat) : Int) - ((0 : Nat) : Int) - 7 = (n : Int) - (k : Nat) := by
        omega
      have e3 : ((n - k + 7 : Nat) : Int) - ((0 : Nat) : Int) = (n : Int) - (k : Nat) + 7 := by
        omega
      rw [e2, e3]
    · rw [if_neg c] at h
      cases h
  · intro r h
    obtain ⟨n, hd, n1, n2⟩ := shortcut_ok_date today now _ W r (by simp) h
    obtain ⟨_, hthis, _⟩ := week_phrases today now W n hd n1 n2
    have h0 := h
    rw [hthis] at h
    generalize hk : (n + 1) % 7 = k at h
    have hk7 : k < 7 := by omega
    by_cases c : 2232400 ≤ (n : Int) - (k : Nat) ∧ (n : Int) - (k : Nat) + 7 ≤ 5373484
    · rw [if_pos c] at h
      have hr := (Except.ok.inj h).symm
      have e1 : (n : Int) - (k : Nat) = ((n - k : Nat) : Int) := by omega
      have hd1 : r.begin.date = .ok ⟨n - k⟩ := by
        rw [hr, e1]
        exact day_interval_begin (n - k) _ (by omega) (by omega)
      obtain ⟨_, hthis2, _⟩ := week_phrases today now r (n - k) hd1 (by omega) (by omega)
      have hk0 : (n - k + 1) % 7 = 0 := by omega
      have e2 : ((n - k : Nat) : Int) - ((0 : Nat) : Int) = (n : Int) - (k : Nat) := by omega
      have key : parseInterval defaultStrings today now "this week".toList r = .ok r := by
        rw [hthis2, hk0, e2, if_pos c, hr]
      exact ⟨key, by rw [key, h0]⟩
    · rw [if_neg c] at h
      cases h

/-- C23 on the sample working interval (Saturday 10 December 2011; its week starts on
Sunday 4 December). -/
theorem C23_week_navigation_witness :
    parseInterval defaultStrings sampleDay sampleNow "next week".toList sampleInterval
      = .ok (time_period.of_begin_end (atTime 2011 12 11 0 0) (atTime 2011 12 18 0 0)) ∧
    parseInterval defaultStrings sampleDay sampleNow "prev week".toList
        (time_period.of_begin_end (atTime 2011 12 11 0 0) (atTime 2011 12 18 0 0))
      = parseInterval defaultStrings sampleDay sampleNow "this week".toList sampleInterval ∧
    parseInterval defaultStrings sampleDay sampleNow "this week".toList sampleInterval
      = .ok (time_period.of_begin_end (atTime 2011 12 4 0 0) (atTime 2011 12 11 0 0)) ∧
    parseInterval defaultStrings sampleDay sampleNow "this week".toList
        (time_period.of_begin_end (atTime 2011 12 4 0 0) (atTime 2011 12 11 0 0))
      = .ok (time_period.of_begin_end (atTime 2011 12 4 0 0) (atTime 2011 12 11 0 0)) :=
  ⟨by decide,
   (C23_week_navigation sampleDay sampleNow sampleInterval).1
     (time_period.of_begin_end (atTime 2011 12 11 0 0) (atTime 2011 12 18 0 0)) (by decide),
   by decide, by decide⟩

/-- A text without white space is left as it is by `trim`. -/
theorem trim_eq_self_of_no_space (s : Str) (h : ∀ c ∈ s, isspace c = false) : trim s = s := by
  cases s with
  | nil => rfl
  | cons a t =>
    apply trim_eq_self_of_ends
    · simp
    · intro c hc
      exact h c (List.mem_of_mem_head? (by rw [hc]; rfl))
    · intro c hc
      exact h c (List.mem_of_getLast?_eq_some hc)

/-- On a text that is none of the three special texts and consists of a date string, one
space and a time string (both without white space at their ends, the date string without
a space), `parseDateTime` runs its date block on the date string and its time block on
the time string. -/
theorem parseDateTime_blocks (now : ptime) (ds ts : Str) (defaultTime : time_duration)
    (defaultYear : Int) (today : date)
    (hsp : ' ' ∉ ds) (hd : trim ds = ds) (ht : trim ts = ts)
    (h1 : dateTimeText ds ts ≠ "<".toList) (h2 : dateTimeText ds ts ≠ ">".toList)
    (h3 : dateTimeText ds ts ≠ "now".toList) :
    parseDateTime now (dateTimeText ds ts) defaultTime defaultYear today =
      (parseDateBlock ds defaultYear today >>= fun d =>
        parseTimeBlock ts defaultTime >>= fun t => pure (ptime.of_date_time d t)) := by
  unfold parseDateTime
  rw [if_neg h1, if_neg h2, if_neg h3]
  unfold dateTimeText
  dsimp only
  simp only [find_first_sep ds ts ' ' hsp, ne_eq]
  rw [if_pos (by omega), ok_bind]
  dsimp only
  rw [substr_first, substrFrom_second, hd, ht]
  rfl

/-- The date block on a text "M/D" or "M/D/Y" of numerals. -/
theorem parseDateBlock_numerals (ms ds : Str) (ys : Option Str) (M D Y : Nat)
    (defaultYear : Int) (today : date) (hm : IsDecimal ms M) (hd : IsDecimal ds D)
    (hy : yearWritten defaultYear ys Y) (hM : M ≤ 2147483647) (hD : D ≤ 2147483647)
    (hY : Y ≤ 2147483647) :
    parseDateBlock (singleDateText ms ds ys) defaultYear today
      = date.of_ints (Y : Int) (M : Int) (D : Int) := by
  have hs1 : '/' ∉ ms := not_mem_of_digits ms '/' hm.2.1 (by decide)
  have hs2 : '/' ∉ ds := not_mem_of_digits ds '/' hd.2.1 (by decide)
  have hc1 := decimalValue_nonneg_cast ms M hm hM
  have hc2 := decimalValue_nonneg_cast ds D hd hD
  cases ys with
  | none =>
    have hy' : defaultYear = (Y : Int) := hy
    have hne : ms ++ '/' :: ds ≠ [] := by simp
    show parseDateBlock (ms ++ '/' :: (ds ++ [])) defaultYear today = _
    rw [List.append_nil]
    unfold parseDateBlock
    rw [if_pos hne]
    dsimp only
    simp only [find_first_sep ms ds '/' hs1, find_second_none ms ds '/' hs2, substr_first,
      substrFrom_second, hc1, hc2, ne_eq, not_true_eq_false, if_false]
    rw [ok_bind, ok_bind, hy']
  | some y =>
    have hy' : IsDecimal y Y := hy
    have hc3 := decimalValue_nonneg_cast y Y hy' hY
    have hne : ms ++ '/' :: (ds ++ '/' :: y) ≠ [] := by simp
    show parseDateBlock (ms ++ '/' :: (ds ++ '/' :: y)) defaultYear today = _
    unfold parseDateBlock
    rw [if_pos hne]
    dsimp only
    simp only [find_first_sep ms _ '/' hs1, find_second_some ms ds y '/' hs2, substr_first,
      substr_second, substrFrom_third, hc1, hc2, hc3, ne_eq]
    rw [ok_bind, if_pos (by omega), ok_bind, ok_bind]

/-- A text "M/D" or "M/D/Y" of numerals has no white space. -/
theorem singleDateText_no_space (ms ds : Str) (ys : Option Str) (M D : Nat)
    (hm : IsDecimal ms M) (hd : IsDecimal ds D)
    (hy : ∀ y, ys = some y → ∀ c ∈ y, isdigit c = true) :
    ∀ c ∈ singleDateText ms ds ys, isspace c = false := by
  intro c hc
  have hslash : isspace '/' = false := by decide
  unfold singleDateText at hc
  simp only [List.mem_append, List.mem_cons] at hc
  rcases hc with hc | hc | hc | hc
  · exact isspace_of_isdigit c (hm.2.1 c hc)
  · rw [hc]; exact hslash
  · exact isspace_of_isdigit c (hd.2.1 c hc)
  · cases ys with
    | none => cases hc
    | some y =>
      simp only [List.mem_cons] at hc
      rcases hc with hc | hc
      · rw [hc]; exact hslash
      · exact isspace_of_isdigit c (hy y rfl c hc)

/-- The time block on a text "H:N" of numerals. -/
theorem parseTimeBlock_hm (hs ns : Str) (H N : Nat) (defaultTime : time_duration)
    (hh : IsDecimal hs H) (hn : IsDecimal ns N) (hH : H ≤ 2147483647) (hN : N ≤ 2147483647) :
    parseTimeBlock (hs ++ ':' :: ns) defaultTime
      = .ok (time_duration.of_hms (H : Int) (N : Int) 0) := by
  have hc : ':' ∉ hs := not_mem_of_digits hs ':' hh.2.1 (by decide)
  have hne : hs ++ ':' :: ns ≠ [] := by simp
  unfold parseTimeBlock
  rw [if_pos hne]
  dsimp only
  rw [find_first_sep hs ns ':' hc, substr_first, substrFrom_second,
    decimalValue_nonneg_cast hs H hh hH, decimalValue_nonneg_cast ns N hn hN]
  rfl

/-- The time block on a numeral without ':': `find` gives `npos`, which the `int` variable
holds as -1, so both `substr` calls return the whole text. -/
theorem parseTimeBlock_plain (ns : Str) (n : Nat) (defaultTime : time_duration)
    (hn : IsDecimal ns n) (hN : n ≤ 2147483647) :
    parseTimeBlock ns defaultTime = .ok (time_duration.of_hms (n : Int) (n : Int) 0) := by
  have hc : ':' ∉ ns := not_mem_of_digits ns ':' hn.2.1 (by decide)
  unfold parseTimeBlock
  rw [if_pos hn.1]
  dsimp only
  rw [find_of_not_mem ':' ns hc]
  have e1 : substr ns 0 (-1) = ns := by
    unfold substr
    rw [if_pos (by omega)]
    rfl
  have e2 : substrFrom ns (-1 + 1) = ns := by
    unfold substrFrom
    rfl
  rw [e1, e2, decimalValue_nonneg_cast ns n hn hN]
  rfl

/-- `parseDateTime` on a valid date "M/D" or "M/D/Y" of numerals, one space and a time
string that its time block parses. -/
theorem parseDateTime_date_and_time (now : ptime) (ms ds : Str) (ys : Option Str)
    (M D Y : Nat) (ts : Str) (td defaultTime : time_duration) (defaultYear : Int)
    (today : date) (hm : IsDecimal ms M) (hd : IsDecimal ds D)
    (hy : yearWritten defaultYear ys Y) (hv : ymd_type.valid ⟨Y, M, D⟩)
    (htrim : trim ts = ts) (htb : parseTimeBlock ts defaultTime = .ok td) :
    parseDateTime now (dateTimeText (singleDateText ms ds ys) ts) defaultTime defaultYear today
      = .ok (ptime.of_date_time ⟨day_number ⟨Y, M, D⟩⟩ td) := by
  obtain ⟨c1, c2, c3, c4, c5, c6⟩ := valid_checked _ hv
  dsimp only at c1 c2 c3 c4 c5 c6
  have hyd : ∀ y, ys = some y → ∀ c ∈ y, isdigit c = true := by
    intro y e
    subst e
    exact (show IsDecimal y Y from hy).2.1
  have hns := singleDateText_no_space ms ds ys M D hm hd hyd
  have hsp : ' ' ∉ singleDateText ms ds ys := by
    intro hc
    have := hns ' ' hc
    revert this
    decide
  have hmem : '/' ∈ dateTimeText (singleDateText ms ds ys) ts := by
    unfold dateTimeText singleDateText
    simp
  obtain ⟨n1, n2, n3⟩ := not_special_text _ '/' hmem (by decide) (by decide) (by decide)
    (by decide) (by decide)
  rw [parseDateTime_blocks now _ ts defaultTime defaultYear today hsp
      (trim_eq_self_of_no_space _ hns) htrim n1 n2 n3,
    parseDateBlock_numerals ms ds ys M D Y defaultYear today hm hd hy (by omega) (by omega)
      (by omega)]
  have hof := of_ints_valid ⟨Y, M, D⟩ hv
  dsimp only at hof
  rw [hof, ok_bind, htb, ok_bind]
  rfl

theorem time_text_trim (hs ns : Str) (H N : Nat) (hh : IsDecimal hs H) (hn : IsDecimal ns N) :
    trim (hs ++ ':' :: ns) = hs ++ ':' :: ns := by
  apply trim_eq_self_of_no_space
  intro c hc
  simp only [List.mem_append, List.mem_cons] at hc
  rcases hc with hc | hc | hc
  · exact isspace_of_isdigit c (hh.2.1 c hc)
  · rw [hc]; decide
  · exact isspace_of_isdigit c (hn.2.1 c hc)

/-- The time point `h` hours and `m` minutes after midnight of a supported date, decoded:
the date moves on by the whole days in `h * 60 + m` minutes. -/
theorem rolled_over (dn H N : Nat) (n1 : 2232400 ≤ dn) (n2 : dn ≤ 5373484)
    (hq : dn + (H * 60 + N) / 1440 ≤ 5373484) :
    (ptime.of_date_time ⟨dn⟩ (time_duration.of_hms (H : Int) (N : Int) 0)).time_count
        = (dn : Int) * 86400000000 + ((H : Int) * 60 + (N : Int)) * 60000000 ∧
      (ptime.of_date_time ⟨dn⟩ (time_duration.of_hms (H : Int) (N : Int) 0)).date
        = .ok ⟨dn + (H * 60 + N) / 1440⟩ ∧
      (ptime.of_date_time ⟨dn⟩ (time_duration.of_hms (H : Int) (N : Int) 0)).time_of_day.hours
        = (((H * 60 + N) % 1440 / 60 : Nat) : Int) ∧
      (ptime.of_date_time ⟨dn⟩ (time_duration.of_hms (H : Int) (N : Int) 0)).time_of_day.minutes
        = (((H * 60 + N) % 60 : Nat) : Int) := by
  have ht := of_hms_ticks H N
  have e0 := of_date_time_eq dn (time_duration.of_hms (H : Int) (N : Int) 0) (by omega)
    (by omega)
  rw [ht] at e0
  have e1 : ptime.of_date_time ⟨dn⟩ (time_duration.of_hms (H : Int) (N : Int) 0)
      = ⟨((dn + (H * 60 + N) / 1440 : Nat) : Int) * 86400000000
          + (((H * 60 + N) % 1440 : Nat) : Int) * 60000000⟩ := by
    rw [e0]
    apply ptime_ext
    dsimp only
    omega
  have htod : (ptime.of_date_time ⟨dn⟩ (time_duration.of_hms (H : Int) (N : Int) 0)).time_of_day
      = ⟨(((H * 60 + N) % 1440 : Nat) : Int) * 60000000⟩ := by
    rw [e1]
    unfold ptime.time_of_day
    rw [is_special_false _ (by dsimp only; omega) (by dsimp only; omega)
      (by dsimp only; omega)]
    simp only [Bool.false_eq_true, if_false, frac_sec_per_day]
    congr 1
    rw [Int.tmod_eq_emod (by omega) (by omega)]
    omega
  refine ⟨?_, ?_, ?_, ?_⟩
  · rw [e0]
    dsimp only
    omega
  · rw [e1]
    exact date_midnight _ _ (by omega) hq (by omega) (by omega)
  · rw [htod]
    unfold time_duration.hours
    dsimp only
    rw [Int.tdiv_eq_ediv (by omega) (by omega)]
    omega
  · rw [htod]
    unfold time_duration.minutes
    dsimp only
    rw [Int.tdiv_eq_ediv (by omega) (by omega), Int.tmod_eq_emod (by omega) (by omega)]
    omega

theorem atTime_add_minutes (Y M D : Nat) (hv : ymd_type.valid ⟨Y, M, D⟩) (H N : Nat) :
    ptime.of_date_time ⟨day_number ⟨Y, M, D⟩⟩ (time_duration.of_hms (H : Int) (N : Int) 0)
      = (atTime Y M D 0 0).add ⟨((H : Int) * 60 + (N : Int)) * 60000000⟩ := by
  obtain ⟨n1, n2⟩ := day_number_bounds _ (valid_checked _ hv)
  have hm := atTime_midnight ⟨Y, M, D⟩ hv
  dsimp only at hm
  rw [hm, of_date_time_eq _ _ (by omega) (by omega), of_hms_ticks,
    add_of_range _ _ (by simp only [midnight, frac_sec_per_day]; omega)
      (by simp only [midnight, frac_sec_per_day]; omega)]
  apply ptime_ext
  simp only [midnight, frac_sec_per_day]
  omega

/-- C24, counterexample: the hour 2147483648 is a non-negative integer, but it does not fit
the `int` that `lexical_cast<int>` produces, so "3/15/2011 2147483648:00" makes
`parseDateTime` throw `bad_lexical_cast` (the largest hour accepted is 2147483647). -/
theorem C24_counterexample :
    IsDecimal "2147483648".toList 2147483648 ∧ IsDecimal "00".toList 0 ∧
    ymd_type.valid ⟨2011, 3, 15⟩ ∧
    dateTimeText (singleDateText "3".toList "15".toList (some "2011".toList))
      ("2147483648".toList ++ ':' :: "00".toList) = "3/15/2011 2147483648:00".toList ∧
    parseDateTime sampleNow "3/15/2011 2147483648:00".toList (hours 0) 2011 sampleDay
      = .error .bad_lexical_cast ∧
    lexical_cast_int "2147483648".toList = .error .bad_lexical_cast ∧
    lexical_cast_int "2147483647".toList = .ok 2147483647 := by
  refine ⟨by decide, by decide, by decide, by decide, by decide, by decide, by decide⟩

/-- C24 (amended): for a valid date part "M/D" or "M/D/Y" and numerals `H` and `N` of
values up to 2147483647 (the largest `int`), `parseDateTime` on "<date> H:N" returns the
time point `H` hours and `N` minutes after 00:00 of that date, whatever `H` and `N` are
(no check against 24 or 60); when the day reached is a supported date, the result has the
date that many whole days later, and the remaining hours and minutes as its time of day. -/
theorem C24_time_rolls_over (now : ptime) (ms ds : Str) (ys : Option Str) (M D Y : Nat)
    (hs ns : Str) (H N : Nat) (defaultTime : time_duration) (defaultYear : Int) (today : date)
    (hm : IsDecimal ms M) (hd : IsDecimal ds D) (hy : yearWritten defaultYear ys Y)
    (hv : ymd_type.valid ⟨Y, M, D⟩) (hh : IsDecimal hs H) (hn : IsDecimal ns N)
    (hH : H ≤ 2147483647) (hN : N ≤ 2147483647) :
    ∃ t, parseDateTime now (dateTimeText (singleDateText ms ds ys) (hs ++ ':' :: ns))
        defaultTime defaultYear today = .ok t ∧
      t = (atTime Y M D 0 0).add ⟨((H : Int) * 60 + (N : Int)) * 60000000⟩ ∧
      t.time_count = (day_number ⟨Y, M, D⟩ : Int) * 86400000000
        + ((H : Int) * 60 + (N : Int)) * 60000000 ∧
      (day_number ⟨Y, M, D⟩ + (H * 60 + N) / 1440 ≤ 5373484 →
        t.date = .ok ⟨day_number ⟨Y, M, D⟩ + (H * 60 + N) / 1440⟩ ∧
        t.time_of_day.hours = (((H * 60 + N) % 1440 / 60 : Nat) : Int) ∧
        t.time_of_day.minutes = (((H * 60 + N) % 60 : Nat) : Int)) := by
  obtain ⟨n1, n2⟩ := day_number_bounds _ (valid_checked _ hv)
  refine ⟨_, parseDateTime_date_and_time now ms ds ys M D Y _ _ defaultTime defaultYear today
    hm hd hy hv (time_text_trim hs ns H N hh hn)
    (parseTimeBlock_hm hs ns H N defaultTime hh hn hH hN), atTime_add_minutes Y M D hv H N,
    ?_, ?_⟩
  · have := of_date_time_eq (day_number ⟨Y, M, D⟩) (time_duration.of_hms (H : Int) (N : Int) 0)
      (by omega) (by omega)
    rw [this, of_hms_ticks]
    dsimp only
    omega
  · intro hq
    obtain ⟨_, r2, r3, r4⟩ := rolled_over (day_number ⟨Y, M, D⟩) H N n1 n2 hq
    exact ⟨r2, r3, r4⟩

/-- C24 (amended) at "3/15/2011 25:00", which gives 16 March 2011 01:00, and at
"3/15 14:75" in the year 2011, which gives 15 March 2011 15:15. -/
theorem C24_time_rolls_over_witness :
    (IsDecimal "3".toList 3 ∧ IsDecimal "15".toList 15 ∧
      yearWritten 1999 (some "2011".toList) 2011 ∧ ymd_type.valid ⟨2011, 3, 15⟩ ∧
      IsDecimal "25".toList 25 ∧ IsDecimal "00".toList 0 ∧ 25 ≤ 2147483647 ∧
      0 ≤ 2147483647) ∧
    (∃ t, parseDateTime sampleNow (dateTimeText (singleDateText "3".toList "15".toList
          (some "2011".toList)) ("25".toList ++ ':' :: "00".toList)) (hours 0) 1999 sampleDay
        = .ok t ∧
      t = (atTime 2011 3 15 0 0).add ⟨(((25 : Nat) : Int) * 60 + ((0 : Nat) : Int)) * 60000000⟩ ∧
      t.time_count = (day_number ⟨2011, 3, 15⟩ : Int) * 86400000000
        + (((25 : Nat) : Int) * 60 + ((0 : Nat) : Int)) * 60000000 ∧
      (day_number ⟨2011, 3, 15⟩ + (25 * 60 + 0) / 1440 ≤ 5373484 →
        t.date = .ok ⟨day_number ⟨2011, 3, 15⟩ + (25 * 60 + 0) / 1440⟩ ∧
        t.time_of_day.hours = (((25 * 60 + 0) % 1440 / 60 : Nat) : Int) ∧
        t.time_of_day.minutes = (((25 * 60 + 0) % 60 : Nat) : Int))) ∧
    parseDateTime sampleNow "3/15/2011 25:00".toList (hours 0) 1999 sampleDay
      = .ok (atTime 2011 3 16 1 0) ∧
    parseDateTime sampleNow "3/15 14:75".toList (hours 0) 2011 sampleDay
      = .ok (atTime 2011 3 15 15 15) :=
  ⟨⟨by decide, by decide, by decide, by decide, by decide, by decide, by decide, by decide⟩,
   C24_time_rolls_over sampleNow "3".toList "15".toList (some "2011".toList) 3 15 2011
     "25".toList "00".toList 25 0 (hours 0) 1999 sampleDay (by decide) (by decide) (by decide)
     (by decide) (by decide) (by decide) (by decide) (by decide),
   by decide, by decide⟩

/-- C25, counterexample: a text with a space whose time part is a decimal integer without
':' still makes `parseDateTime` throw when that integer does not fit an `int`
("3/15/2011 2147483648"), and when the date part is not a valid date ("13/40 14"). -/
theorem C25_counterexample :
    ' ' ∈ "3/15/2011 2147483648".toList ∧ IsDecimal "2147483648".toList 2147483648 ∧
    ':' ∉ "2147483648".toList ∧
    parseDateTime sampleNow "3/15/2011 2147483648".toList (hours 0) 2011 sampleDay
      = .error .bad_lexical_cast ∧
    ' ' ∈ "13/40 14".toList ∧ IsDecimal "14".toList 14 ∧ ':' ∉ "14".toList ∧
    parseDateTime sampleNow "13/40 14".toList (hours 0) 2011 sampleDay = .error .bad_month := by
  refine ⟨by decide, by decide, by decide, by decide, by decide, by decide, by decide,
    by decide⟩

/-- C25 (amended): for a valid date part "M/D" or "M/D/Y", a space and a numeral `n` of a
value up to 2147483647 without ':', `parseDateTime` does not throw: `n` is taken as the
hours and as the minutes, the result being `n` hours and `n` minutes after 00:00 of the
date; for `n < 24` that is the same date at `n:n`. -/
theorem C25_number_as_hour_and_minute (now : ptime) (ms ds : Str) (ys : Option Str)
    (M D Y : Nat) (ns : Str) (n : Nat) (defaultTime : time_duration) (defaultYear : Int)
    (today : date) (hm : IsDecimal ms M) (hd : IsDecimal ds D)
    (hy : yearWritten defaultYear ys Y) (hv : ymd_type.valid ⟨Y, M, D⟩)
    (hn : IsDecimal ns n) (hN : n ≤ 2147483647) :
    ∃ t, parseDateTime now (dateTimeText (singleDateText ms ds ys) ns) defaultTime defaultYear
        today = .ok t ∧
      t = ptime.of_date_time ⟨day_number ⟨Y, M, D⟩⟩ (time_duration.of_hms (n : Int) (n : Int) 0) ∧
      t = (atTime Y M D 0 0).add ⟨((n : Int) * 60 + (n : Int)) * 60000000⟩ ∧
      (n < 24 → (t.date >>= date.year_month_day) = .ok ⟨Y, M, D⟩ ∧
        t.time_of_day.hours = (n : Int) ∧ t.time_of_day.minutes = (n : Int)) := by
  obtain ⟨n1, n2⟩ := day_number_bounds _ (valid_checked _ hv)
  have htrim : trim ns = ns :=
    trim_eq_self_of_no_space ns (fun c hc => isspace_of_isdigit c (hn.2.1 c hc))
  refine ⟨_, parseDateTime_date_and_time now ms ds ys M D Y _ _ defaultTime defaultYear today
    hm hd hy hv htrim (parseTimeBlock_plain ns n defaultTime hn hN), rfl,
    atTime_add_minutes Y M D hv n n, ?_⟩
  intro h24
  have hq0 : (n * 60 + n) / 1440 = 0 := by omega
  obtain ⟨_, r2, r3, r4⟩ := rolled_over (day_number ⟨Y, M, D⟩) n n n1 n2 (by omega)
  rw [hq0, Nat.add_zero] at r2
  refine ⟨?_, ?_, ?_⟩
  · rw [r2, ok_bind]
    exact from_day_number_day_number _ hv
  · rw [r3]
    omega
  · rw [r4]
    omega

/-- C25 (amended) at "3/15/2011 14", which gives 15 March 2011 14:14. -/
theorem C25_number_as_hour_and_minute_witness :
    (IsDecimal "3".toList 3 ∧ IsDecimal "15".toList 15 ∧
      yearWritten 1999 (some "2011".toList) 2011 ∧ ymd_type.valid ⟨2011, 3, 15⟩ ∧
      IsDecimal "14".toList 14 ∧ 14 ≤ 2147483647) ∧
    (∃ t, parseDateTime sampleNow (dateTimeText (singleDateText "3".toList "15".toList
          (some "2011".toList)) "14".toList) (hours 0) 1999 sampleDay = .ok t ∧
      t = ptime.of_date_time ⟨day_number ⟨2011, 3, 15⟩⟩
        (time_duration.of_hms ((14 : Nat) : Int) ((14 : Nat) : Int) 0) ∧
      t = (atTime 2011 3 15 0 0).add
        ⟨(((14 : Nat) : Int) * 60 + ((14 : Nat) : Int)) * 60000000⟩ ∧
      (14 < 24 → (t.date >>= date.year_month_day) = .ok ⟨2011, 3, 15⟩ ∧
        t.time_of_day.hours = ((14 : Nat) : Int) ∧
        t.time_of_day.minutes = ((14 : Nat) : Int))) ∧
    parseDateTime sampleNow "3/15/2011 14".toList (hours 0) 1999 sampleDay
      = .ok (atTime 2011 3 15 14 14) ∧
    parseInterval defaultStrings sampleDay sampleNow "3/15 14 - >".toList sampleInterval
      = .ok (time_period.of_begin_end (atTime 2011 3 15 14 14) max_date_time) :=
  ⟨⟨by decide, by decide, by decide, by decide, by decide, by decide⟩,
   C25_number_as_hour_and_minute sampleNow "3".toList "15".toList (some "2011".toList) 3 15
     2011 "14".toList 14 (hours 0) 1999 sampleDay (by decide) (by decide) (by decide)
     (by decide) (by decide) (by decide),
   by decide, by decide⟩

/-- C9 (amended): for every interval that ends at `max_date_time` and begins between
`min_date_time` and its end, the string `buildIntervalString` returns contains "23:59"
exactly when the begin is not `max_date_time` and the begin's own time of day is 23:59.
The string is given exactly: "[", the begin ("<", ">", or its date followed by its time
" HH:MM" unless that time is 00:00), then " - >" for the end, which never carries a time
of day and is left out only in the single-day form (begin 30 December 9999 00:00), and
"]". -/
theorem C9_max_end_rendering (I : time_period) (he : I.end_ = max_date_time)
    (h1 : min_date_time ≤ I.begin) (h2 : I.begin ≤ I.end_) :
    ∃ (s : Str) (x : ymd_type) (h m : Nat), x.valid ∧ h < 24 ∧ m < 60 ∧
      I.begin.date = .ok ⟨day_number x⟩ ∧
      I.begin.time_of_day.hours = (h : Int) ∧ I.begin.time_of_day.minutes = (m : Int) ∧
      buildIntervalString I = .ok s ∧
      (containsStr s "23:59".toList = true ↔
        (I.begin ≠ max_date_time ∧ I.begin.time_of_day.hours = 23 ∧
          I.begin.time_of_day.minutes = 59)) ∧
      s = "[".toList
        ++ (if I.begin = min_date_time then "<".toList
            else if I.begin = max_date_time then ">".toList
            else renderDate x ++ (if h = 0 ∧ m = 0 then [] else timeStr h m))
        ++ (if (h = 0 ∧ m = 0) ∧ x = ⟨9999, 12, 30⟩ then [] else " - >".toList)
        ++ "]".toList := by
  have hW : I.wellFormed := ⟨h1, h2, by rw [he]; exact (ptime_le_iff _ _).2 (le_refl _)⟩
  obtain ⟨s, hs, hiff, _⟩ := max_end_contains_2359 I he h1 h2
  obtain ⟨xb, xe, hb, mb, he2, me2, vb, ve, b1, b2, _, _, db, de, ehb, emb, _, _, hstr⟩ :=
    buildIntervalString_wellFormed I hW
  obtain ⟨hb', mb', he', me', _, _, _, _, ehb', emb', _, _, _, _, hfd⟩ := fullDay_wellFormed I hW
  have q1 : hb' = hb := by omega
  have q2 : mb' = mb := by omega
  rw [q1, q2] at hfd
  have hfull : fullDay I = true ↔ (hb = 0 ∧ mb = 0) := by
    rw [hfd]
    constructor
    · exact fun h => h.1
    · exact fun h => ⟨h, Or.inr he⟩
  have hxe : day_number xe = 5373484 := by
    rw [he, date_max] at de
    have := Except.ok.inj de
    rw [date.mk.injEq] at this
    exact this.symm
  have hlast : day_number xb + 1 = 5373484 ↔ xb = ⟨9999, 12, 30⟩ := by
    constructor
    · intro h
      have e1 := from_day_number_day_number xb vb
      have e2 : day_number xb = day_number ⟨9999, 12, 30⟩ := by
        have : day_number ⟨9999, 12, 30⟩ = 5373483 := by decide
        omega
      rw [e2, from_day_number_day_number ⟨9999, 12, 30⟩ (by decide)] at e1
      exact (Except.ok.inj e1).symm
    · intro h
      rw [h]
      decide
  refine ⟨s, xb, hb, mb, vb, b1, b2, db, ehb, emb, hs, hiff, ?_⟩
  rw [hs] at hstr
  have hE : (if I.end_ = min_date_time then "<".toList
      else if I.end_ = max_date_time then ">".toList
      else renderDate xe ++ (if fullDay I = true then [] else timeStr he2 me2))
      = ">".toList := by
    rw [if_neg (by rw [he]; decide), if_pos he]
  have hj : " - ".toList ++ ">".toList = " - >".toList := by decide
  rw [Except.ok.inj hstr, hxe, hE, hj]
  by_cases hz : hb = 0 ∧ mb = 0
  · have hf : fullDay I = true := hfull.2 hz
    simp only [hf, hz, hlast, and_self, and_true, true_and, if_true]
  · have hf : ¬ fullDay I = true := fun h => hz (hfull.1 h)
    simp only [hf, hz, and_false, false_and, if_false, Bool.false_eq_true]

/-- C9 (amended) at the interval from 15 March 2011 14:30 to `max_date_time`, with the
strings returned for it, for a begin at 00:00 and for the single-day form. -/
theorem C9_max_end_rendering_witness :
    ((time_period.of_begin_end (atTime 2011 3 15 14 30) max_date_time).end_ = max_date_time ∧
      min_date_time ≤ (time_period.of_begin_end (atTime 2011 3 15 14 30) max_date_time).begin ∧
      (time_period.of_begin_end (atTime 2011 3 15 14 30) max_date_time).begin
        ≤ (time_period.of_begin_end (atTime 2011 3 15 14 30) max_date_time).end_) ∧
    (∃ (s : Str) (x : ymd_type) (h m : Nat), x.valid ∧ h < 24 ∧ m < 60 ∧
      (time_period.of_begin_end (atTime 2011 3 15 14 30) max_date_time).begin.date
        = .ok ⟨day_number x⟩ ∧
      (time_period.of_begin_end (atTime 2011 3 15 14 30) max_date_time).begin.time_of_day.hours
        = (h : Int) ∧
      (time_period.of_begin_end (atTime 2011 3 15 14 30)
        max_date_time).begin.time_of_day.minutes = (m : Int) ∧
      buildIntervalString (time_period.of_begin_end (atTime 2011 3 15 14 30) max_date_time)
        = .ok s ∧
      (containsStr s "23:59".toList = true ↔
        ((time_period.of_begin_end (atTime 2011 3 15 14 30) max_date_time).begin
            ≠ max_date_time ∧
          (time_period.of_begin_end (atTime 2011 3 15 14 30)
            max_date_time).begin.time_of_day.hours = 23 ∧
          (time_period.of_begin_end (atTime 2011 3 15 14 30)
            max_date_time).begin.time_of_day.minutes = 59)) ∧
      s = "[".toList
        ++ (if (time_period.of_begin_end (atTime 2011 3 15 14 30) max_date_time).begin
              = min_date_time then "<".toList
            else if (time_period.of_begin_end (atTime 2011 3 15 14 30) max_date_time).begin
              = max_date_time then ">".toList
            else renderDate x ++ (if h = 0 ∧ m = 0 then [] else timeStr h m))
        ++ (if (h = 0 ∧ m = 0) ∧ x = ⟨9999, 12, 30⟩ then [] else " - >".toList)
        ++ "]".toList) ∧
    buildIntervalString (time_period.of_begin_end (atTime 2011 3 15 14 30) max_date_time)
      = .ok "[15 Mar 2011 14:30 - >]".toList ∧
    buildIntervalString (time_period.of_begin_end (atTime 2011 12 10 0 0) max_date_time)
      = .ok "[10 Dec 2011 - >]".toList ∧
    buildIntervalString (time_period.of_begin_end (atTime 9999 12 30 0 0) max_date_time)
      = .ok "[30 Dec 9999]".toList ∧
    buildIntervalString (time_period.of_begin_end (atTime 9999 12 30 8 0) max_date_time)
      = .ok "[30 Dec 9999 08:00 - >]".toList ∧
    buildIntervalString (time_period.of_begin_end min_date_time max_date_time)
      = .ok "[< - >]".toList ∧
    buildIntervalString (time_period.of_begin_end max_date_time max_date_time)
      = .ok "[> - >]".toList :=
  ⟨⟨by decide, by decide, by decide⟩,
   C9_max_end_rendering (time_period.of_begin_end (atTime 2011 3 15 14 30) max_date_time)
     (by decide) (by decide) (by decide),
   by decide, by decide, by decide, by decide, by decide, by decide⟩

end TimeField
